import Mathlib

/-!
# SNREDBridge: conversion of raw event data (RED) into EH + UDD banks

A shallow embedding of `programs/red_bridge.cxx`:

* `do_red_to_udd_conversion` (source lines 250-487) as a function in the
  `Except` monad returning the C++ boolean together with the event record and
  the global variables it leaves behind;
* the `while` loop of `main` (source lines 180-215) as `main_loop`, and `main`
  after argument parsing (configuration checks, loop, exit code) as `main`.

Conventions.

* C++ `double` quantities (times in seconds) are rationals. In
  `do_red_to_udd_conversion` the arithmetic on them is exact; the properties
  proved of it relate values the program computes to one another (comparisons,
  copies, counters, records). Where the rounding of the `double` arithmetic
  matters (the split of the event time, the delta to the previous event),
  `do_red_to_udd_conversion_binary64` carries the same function out in IEEE 754
  binary64: every operation is rounded to the nearest binary64 number, a tie
  going to the even significand (`fl64`), one operation at a time (no fused
  multiply-add, no extended precision); a result that is not finite, or a
  conversion outside `int64_t`, ends the call with `.error`.
* C++ integers are mathematical integers `Int`; the only integer arithmetic of
  the program is the loop index written into hit ids and the two counters.
* Library code that the program calls but that is not part of the repository
  (`std::sort`, `snemo::datamodel::om_num`, `snemo::datamodel::gg_num`,
  `snfee::data::clock_period`, `CLHEP::second`) is a field of `Env`. The
  `std::sort` of GNU libstdc++ (GCC 12, `bits/stl_algo.h` and
  `bits/stl_heap.h`) is written out as `libstdcxx_sort`, for the properties that
  depend on how `std::sort` treats equivalent elements.
-/

namespace SNREDBridge

/-! ## Data model -/

/-- Geometry identifier (`geomtools::geom_id`): a category and an address. -/
structure geom_id where
  type : Int
  address : List Int
deriving DecidableEq

/-- Value stored in a `datatools::properties` bag. -/
inductive prop_value where
  | boolean (b : Bool)
  | integer (i : Int)
  | real (x : ℚ)
  | string (s : String)
  | vint (v : List Int)
deriving DecidableEq

/-- Modelled from the spec: `datatools::properties` is Bayeux code outside the
repository sources. A bag is a key/value association; the order of the list is
the order in which the keys were stored. -/
abbrev properties := List (String × prop_value)

/-- Membership test `properties::has_key`. -/
def properties.has_key (p : properties) (key : String) : Bool :=
  p.any (fun kv => kv.1 == key)

/-- Modelled from the spec: `properties::store` adds a new key/value pair "under
a fixed property key"; Bayeux raises `std::logic_error` when the key is already
in use. -/
def properties.store (p : properties) (key : String) (v : prop_value) :
    Except String properties :=
  if p.has_key key then .error "key already used" else .ok (p ++ [(key, v)])

/-- Lookup `properties::fetch`. -/
def properties.fetch (p : properties) (key : String) : Option prop_value :=
  p.lookup key

/-! ### Raw side (`snfee::data`) -/

namespace snfee

/-- Raw timestamp `snfee::data::timestamp`: a clock identifier and a tick count. -/
structure timestamp where
  clock : Nat
  ticks : Int
deriving DecidableEq

/-- Origin reference `snfee::data::calo_digitized_hit::rtd_origin` (same shape
for tracker hits). -/
structure rtd_origin where
  hit_number : Int
  trigger_id : Int
deriving DecidableEq

/-- Raw trigger sub-record `snfee::data::trigger_record`; the progenitor trigger
id is `none` when `has_progenitor_trigger_id()` is false. -/
structure trigger_record where
  trigger_id : Int
  trigger_decision : Bool
  progenitor_trigger_id : Option Int
deriving DecidableEq

/-- Raw calorimeter hit `snfee::data::calo_digitized_hit`. -/
structure calo_digitized_hit where
  geom_id : geom_id
  hit_id : Int
  reference_time : timestamp
  waveform : List Int
  low_threshold_only : Bool
  high_threshold : Bool
  fcr : Int
  lt_trigger_counter : Int
  lt_time_counter : Int
  fwmeas_baseline : Int
  fwmeas_peak_amplitude : Int
  fwmeas_peak_cell : Int
  fwmeas_charge : Int
  fwmeas_rising_cell : Int
  fwmeas_falling_cell : Int
  origin : rtd_origin
deriving DecidableEq

/-- Anode ranks `tracker_digitized_hit::ANODE_R0 .. ANODE_R4`. -/
inductive anode_rank where
  | ANODE_R0 | ANODE_R1 | ANODE_R2 | ANODE_R3 | ANODE_R4
deriving DecidableEq

/-- Raw Geiger timing entry `snfee::data::tracker_digitized_hit::gg_times`. -/
structure gg_times where
  anode_origin_r0 : rtd_origin
  anode_origin_r1 : rtd_origin
  anode_origin_r2 : rtd_origin
  anode_origin_r3 : rtd_origin
  anode_origin_r4 : rtd_origin
  anode_time_r0 : timestamp
  anode_time_r1 : timestamp
  anode_time_r2 : timestamp
  anode_time_r3 : timestamp
  anode_time_r4 : timestamp
  bottom_cathode_origin : rtd_origin
  bottom_cathode_time : timestamp
  top_cathode_origin : rtd_origin
  top_cathode_time : timestamp
deriving DecidableEq

/-- Getter `gg_times::get_anode_origin(rank)`. -/
def gg_times.get_anode_origin (t : gg_times) : anode_rank → rtd_origin
  | .ANODE_R0 => t.anode_origin_r0
  | .ANODE_R1 => t.anode_origin_r1
  | .ANODE_R2 => t.anode_origin_r2
  | .ANODE_R3 => t.anode_origin_r3
  | .ANODE_R4 => t.anode_origin_r4

/-- Getter `gg_times::get_anode_time(rank)`. -/
def gg_times.get_anode_time (t : gg_times) : anode_rank → timestamp
  | .ANODE_R0 => t.anode_time_r0
  | .ANODE_R1 => t.anode_time_r1
  | .ANODE_R2 => t.anode_time_r2
  | .ANODE_R3 => t.anode_time_r3
  | .ANODE_R4 => t.anode_time_r4

/-- Raw tracker hit `snfee::data::tracker_digitized_hit`. -/
structure tracker_digitized_hit where
  geom_id : geom_id
  hit_id : Int
  times : List gg_times
deriving DecidableEq

/-- Raw event record `snfee::data::raw_event_data`. The set of origin trigger
ids is kept as the list of its elements. -/
structure raw_event_data where
  run_id : Int
  event_id : Int
  origin_trigger_ids : List Int
  trigger_records : List trigger_record
  calo_hits : List calo_digitized_hit
  tracker_hits : List tracker_digitized_hit
  reference_time : timestamp
  auxiliaries : properties
deriving DecidableEq

end snfee

/-! ### Normalized side (`snemo::datamodel`) -/

namespace snemo

/-- Smallest 64-bit integer, the "invalid" marker of `snemo::datamodel::timestamp`. -/
def INVALID_TIME : Int := -(2 ^ 63)

/-- Modelled from the spec: `snemo::datamodel::timestamp` (Falaise, outside the
repository sources) holds integer seconds and picoseconds and starts out
"invalid". -/
structure timestamp where
  seconds : Int
  picoseconds : Int
deriving DecidableEq

/-- Default-constructed timestamp: both components invalid. -/
def timestamp.invalid : timestamp := ⟨INVALID_TIME, INVALID_TIME⟩

/-- Validity test `timestamp::is_valid()`. -/
def timestamp.is_valid (t : timestamp) : Bool :=
  t.seconds != INVALID_TIME && t.picoseconds != INVALID_TIME

/-- Origin reference `snemo::datamodel::calorimeter_digitized_hit::rtd_origin`
(same shape for tracker hits), built by its two-argument constructor. -/
structure rtd_origin where
  hit_number : Int
  trigger_id : Int
deriving DecidableEq

/-- Normalized calorimeter hit `snemo::datamodel::calorimeter_digitized_hit`. -/
structure calorimeter_digitized_hit where
  geom_id : geom_id
  hit_id : Int
  timestamp : Int
  waveform : List Int
  low_threshold_only : Bool
  high_threshold : Bool
  fcr : Int
  lt_trigger_counter : Int
  lt_time_counter : Int
  fwmeas_baseline : Int
  fwmeas_peak_amplitude : Int
  fwmeas_peak_cell : Int
  fwmeas_charge : Int
  fwmeas_rising_cell : Int
  fwmeas_falling_cell : Int
  origin : rtd_origin
deriving DecidableEq

/-- Modelled from the spec: the hit that `UDD.add_calorimeter_hit()` appends is
default-constructed by Falaise; it carries no waveform samples, and every other
field is overwritten by the setters of the conversion loop. -/
def calorimeter_digitized_hit.fresh : calorimeter_digitized_hit :=
  { geom_id := ⟨-1, []⟩, hit_id := -1, timestamp := INVALID_TIME, waveform := [],
    low_threshold_only := false, high_threshold := false, fcr := 0,
    lt_trigger_counter := 0, lt_time_counter := 0, fwmeas_baseline := 0,
    fwmeas_peak_amplitude := 0, fwmeas_peak_cell := 0, fwmeas_charge := 0,
    fwmeas_rising_cell := 0, fwmeas_falling_cell := 0, origin := ⟨-1, -1⟩ }

/-- Anode ranks `tracker_digitized_hit::ANODE_R0 .. ANODE_R4`. -/
inductive anode_rank where
  | ANODE_R0 | ANODE_R1 | ANODE_R2 | ANODE_R3 | ANODE_R4
deriving DecidableEq

/-- Normalized Geiger timing entry `snemo::datamodel::tracker_digitized_hit::gg_times`:
each slot holds a tick count and an origin. -/
structure gg_times where
  anode_origin_r0 : rtd_origin
  anode_origin_r1 : rtd_origin
  anode_origin_r2 : rtd_origin
  anode_origin_r3 : rtd_origin
  anode_origin_r4 : rtd_origin
  anode_time_r0 : Int
  anode_time_r1 : Int
  anode_time_r2 : Int
  anode_time_r3 : Int
  anode_time_r4 : Int
  bottom_cathode_origin : rtd_origin
  bottom_cathode_time : Int
  top_cathode_origin : rtd_origin
  top_cathode_time : Int
deriving DecidableEq

/-- Modelled from the spec: the entry that `add_times()` appends is
default-constructed by Falaise; every slot is overwritten by the setters. -/
def gg_times.fresh : gg_times :=
  { anode_origin_r0 := ⟨-1, -1⟩, anode_origin_r1 := ⟨-1, -1⟩, anode_origin_r2 := ⟨-1, -1⟩,
    anode_origin_r3 := ⟨-1, -1⟩, anode_origin_r4 := ⟨-1, -1⟩,
    anode_time_r0 := INVALID_TIME, anode_time_r1 := INVALID_TIME,
    anode_time_r2 := INVALID_TIME, anode_time_r3 := INVALID_TIME,
    anode_time_r4 := INVALID_TIME,
    bottom_cathode_origin := ⟨-1, -1⟩, bottom_cathode_time := INVALID_TIME,
    top_cathode_origin := ⟨-1, -1⟩, top_cathode_time := INVALID_TIME }

/-- Setter `gg_times::set_anode_origin(rank, origin)`. -/
def gg_times.set_anode_origin (t : gg_times) (r : anode_rank) (o : rtd_origin) : gg_times :=
  match r with
  | .ANODE_R0 => { t with anode_origin_r0 := o }
  | .ANODE_R1 => { t with anode_origin_r1 := o }
  | .ANODE_R2 => { t with anode_origin_r2 := o }
  | .ANODE_R3 => { t with anode_origin_r3 := o }
  | .ANODE_R4 => { t with anode_origin_r4 := o }

/-- Setter `gg_times::set_anode_time(rank, ticks)`. -/
def gg_times.set_anode_time (t : gg_times) (r : anode_rank) (ticks : Int) : gg_times :=
  match r with
  | .ANODE_R0 => { t with anode_time_r0 := ticks }
  | .ANODE_R1 => { t with anode_time_r1 := ticks }
  | .ANODE_R2 => { t with anode_time_r2 := ticks }
  | .ANODE_R3 => { t with anode_time_r3 := ticks }
  | .ANODE_R4 => { t with anode_time_r4 := ticks }

/-- Getter `gg_times::get_anode_origin(rank)`. -/
def gg_times.get_anode_origin (t : gg_times) : anode_rank → rtd_origin
  | .ANODE_R0 => t.anode_origin_r0
  | .ANODE_R1 => t.anode_origin_r1
  | .ANODE_R2 => t.anode_origin_r2
  | .ANODE_R3 => t.anode_origin_r3
  | .ANODE_R4 => t.anode_origin_r4

/-- Getter `gg_times::get_anode_time(rank)`. -/
def gg_times.get_anode_time (t : gg_times) : anode_rank → Int
  | .ANODE_R0 => t.anode_time_r0
  | .ANODE_R1 => t.anode_time_r1
  | .ANODE_R2 => t.anode_time_r2
  | .ANODE_R3 => t.anode_time_r3
  | .ANODE_R4 => t.anode_time_r4

/-- Normalized tracker hit `snemo::datamodel::tracker_digitized_hit`. -/
structure tracker_digitized_hit where
  geom_id : geom_id
  hit_id : Int
  times : List gg_times
deriving DecidableEq

/-- Generation tag of `snemo::datamodel::event_header`. -/
inductive generation_type where
  | GENERATION_INVALID | GENERATION_SIMULATED | GENERATION_REAL
deriving DecidableEq

/-- Event header bank `snemo::datamodel::event_header`. -/
structure event_header where
  run_number : Int
  event_number : Int
  generation : generation_type
  timestamp : timestamp
  properties : properties
deriving DecidableEq

/-- Modelled from the spec: the default-constructed header that
`event_record_.add<event_header>` creates (Falaise, outside the repository sources). -/
def event_header.fresh : event_header :=
  { run_number := -1, event_number := -1, generation := .GENERATION_INVALID,
    timestamp := timestamp.invalid, properties := [] }

/-- Digitized data bank `snemo::datamodel::unified_digitized_data`. -/
structure unified_digitized_data where
  run_id : Int
  event_id : Int
  reference_timestamp : Int
  origin_trigger_ids : List Int
  calorimeter_hits : List calorimeter_digitized_hit
  tracker_hits : List tracker_digitized_hit
deriving DecidableEq

/-- Modelled from the spec: the default-constructed data bank that
`event_record_.add<unified_digitized_data>` creates: no ids, no hits. -/
def unified_digitized_data.fresh : unified_digitized_data :=
  { run_id := -1, event_id := -1, reference_timestamp := INVALID_TIME,
    origin_trigger_ids := [], calorimeter_hits := [], tracker_hits := [] }

end snemo

/-- Modelled from the spec: the event record `datatools::things` (Bayeux, outside
the repository sources), restricted to the two banks the program uses, labelled
"EH" and "UDD". -/
structure things where
  EH : Option snemo.event_header
  UDD : Option snemo.unified_digitized_data
deriving DecidableEq

/-- The empty record `datatools::things event_record;` of `main` (line 199). -/
def things.empty : things := ⟨none, none⟩

/-- Modelled from the spec: `event_record_.add<event_header>("EH")` creates the
bank; Bayeux raises when the label is already taken. -/
def things.add_EH (t : things) : Except String things :=
  if t.EH.isSome then .error "bank EH already exists"
  else .ok { t with EH := some snemo.event_header.fresh }

/-- Modelled from the spec: `event_record_.add<unified_digitized_data>("UDD")`
creates the bank; Bayeux raises when the label is already taken. -/
def things.add_UDD (t : things) : Except String things :=
  if t.UDD.isSome then .error "bank UDD already exists"
  else .ok { t with UDD := some snemo.unified_digitized_data.fresh }

/-! ## Environment: library code outside the repository -/

/-- Library functions and constants the program calls.

* `om_num`, `gg_num`: `snemo::datamodel::om_num` / `gg_num` (Falaise);
* `clock_period`: `snfee::data::clock_period` (SNFEE), in CLHEP time units;
* `second`: `CLHEP::second`;
* `sort`: `std::sort` applied to a comparator and a sequence. -/
structure Env where
  om_num : geom_id → Int
  gg_num : geom_id → Int
  clock_period : Nat → ℚ
  second : ℚ
  sort : (α : Type) → (α → α → Bool) → List α → List α

/-- Strict weak ordering, the requirement C++ places on the comparator of
`std::sort`. -/
def StrictWeakOrder {α : Type} (comp : α → α → Bool) : Prop :=
  (∀ a, comp a a = false) ∧
  (∀ a b c, comp a b = true → comp b c = true → comp a c = true) ∧
  (∀ a b c, comp a b = false → comp b c = false → comp a c = false)

/-- What the C++ standard guarantees of `std::sort`: for a strict weak ordering
the result is a rearrangement of the input in which no later element compares
less than an earlier one. Nothing is promised about equivalent elements. -/
def StdSortSpec (sort : (α : Type) → (α → α → Bool) → List α → List α) : Prop :=
  ∀ (α : Type) (comp : α → α → Bool) (l : List α), StrictWeakOrder comp →
    (sort α comp l).Perm l ∧ (sort α comp l).Pairwise (fun a b => comp b a = false)

/-- The global variables of the program (source lines 34-37). -/
structure globals where
  no_waveform : Bool
  run_sync_time : ℚ
  run_end_time : ℚ
  previous_eh_timestamp : snemo.timestamp
deriving DecidableEq

/-! ## The conversion `do_red_to_udd_conversion` -/

/-- Body of the calorimeter loop (source lines 364-384): the setters applied to
the freshly added hit, in source order. -/
def convert_calo_hit (no_waveform : Bool) (red_calo_hit : snfee.calo_digitized_hit) :
    snemo.calorimeter_digitized_hit :=
  let udd_calo_hit := snemo.calorimeter_digitized_hit.fresh
  let udd_calo_hit := { udd_calo_hit with geom_id := red_calo_hit.geom_id }
  let udd_calo_hit := { udd_calo_hit with hit_id := red_calo_hit.hit_id }
  let udd_calo_hit := { udd_calo_hit with timestamp := red_calo_hit.reference_time.ticks }
  let calo_waveform := red_calo_hit.waveform
  let udd_calo_hit :=
    if !no_waveform then { udd_calo_hit with waveform := calo_waveform } else udd_calo_hit
  let udd_calo_hit := { udd_calo_hit with low_threshold_only := red_calo_hit.low_threshold_only }
  let udd_calo_hit := { udd_calo_hit with high_threshold := red_calo_hit.high_threshold }
  let udd_calo_hit := { udd_calo_hit with fcr := red_calo_hit.fcr }
  let udd_calo_hit := { udd_calo_hit with lt_trigger_counter := red_calo_hit.lt_trigger_counter }
  let udd_calo_hit := { udd_calo_hit with lt_time_counter := red_calo_hit.lt_time_counter }
  let udd_calo_hit := { udd_calo_hit with fwmeas_baseline := red_calo_hit.fwmeas_baseline }
  let udd_calo_hit :=
    { udd_calo_hit with fwmeas_peak_amplitude := red_calo_hit.fwmeas_peak_amplitude }
  let udd_calo_hit := { udd_calo_hit with fwmeas_peak_cell := red_calo_hit.fwmeas_peak_cell }
  let udd_calo_hit := { udd_calo_hit with fwmeas_charge := red_calo_hit.fwmeas_charge }
  let udd_calo_hit := { udd_calo_hit with fwmeas_rising_cell := red_calo_hit.fwmeas_rising_cell }
  let udd_calo_hit := { udd_calo_hit with fwmeas_falling_cell := red_calo_hit.fwmeas_falling_cell }
  let the_rtd_origin : snemo.rtd_origin :=
    ⟨red_calo_hit.origin.hit_number, red_calo_hit.origin.trigger_id⟩
  { udd_calo_hit with origin := the_rtd_origin }

/-- Body of the Geiger-timing loop (source lines 415-465): fourteen setter
calls on the freshly added entry, in source order. -/
def convert_gg_times (a_gg_timestamp : snfee.gg_times) : snemo.gg_times :=
  let udd_gg_timestamp := snemo.gg_times.fresh
  let anode_r0_rtd_origin : snemo.rtd_origin :=
    ⟨(a_gg_timestamp.get_anode_origin .ANODE_R0).hit_number,
     (a_gg_timestamp.get_anode_origin .ANODE_R0).trigger_id⟩
  let udd_gg_timestamp := udd_gg_timestamp.set_anode_origin .ANODE_R0 anode_r0_rtd_origin
  let udd_gg_timestamp :=
    udd_gg_timestamp.set_anode_time .ANODE_R0 (a_gg_timestamp.get_anode_time .ANODE_R0).ticks
  let anode_r1_rtd_origin : snemo.rtd_origin :=
    ⟨(a_gg_timestamp.get_anode_origin .ANODE_R1).hit_number,
     (a_gg_timestamp.get_anode_origin .ANODE_R1).trigger_id⟩
  let udd_gg_timestamp := udd_gg_timestamp.set_anode_origin .ANODE_R1 anode_r1_rtd_origin
  let udd_gg_timestamp :=
    udd_gg_timestamp.set_anode_time .ANODE_R1 (a_gg_timestamp.get_anode_time .ANODE_R1).ticks
  let anode_r2_rtd_origin : snemo.rtd_origin :=
    ⟨(a_gg_timestamp.get_anode_origin .ANODE_R2).hit_number,
     (a_gg_timestamp.get_anode_origin .ANODE_R2).trigger_id⟩
  let udd_gg_timestamp := udd_gg_timestamp.set_anode_origin .ANODE_R2 anode_r2_rtd_origin
  let udd_gg_timestamp :=
    udd_gg_timestamp.set_anode_time .ANODE_R2 (a_gg_timestamp.get_anode_time .ANODE_R2).ticks
  let anode_r3_rtd_origin : snemo.rtd_origin :=
    ⟨(a_gg_timestamp.get_anode_origin .ANODE_R3).hit_number,
     (a_gg_timestamp.get_anode_origin .ANODE_R3).trigger_id⟩
  let udd_gg_timestamp := udd_gg_timestamp.set_anode_origin .ANODE_R3 anode_r3_rtd_origin
  let udd_gg_timestamp :=
    udd_gg_timestamp.set_anode_time .ANODE_R3 (a_gg_timestamp.get_anode_time .ANODE_R3).ticks
  let anode_r4_rtd_origin : snemo.rtd_origin :=
    ⟨(a_gg_timestamp.get_anode_origin .ANODE_R4).hit_number,
     (a_gg_timestamp.get_anode_origin .ANODE_R4).trigger_id⟩
  let udd_gg_timestamp := udd_gg_timestamp.set_anode_origin .ANODE_R4 anode_r4_rtd_origin
  let udd_gg_timestamp :=
    udd_gg_timestamp.set_anode_time .ANODE_R4 (a_gg_timestamp.get_anode_time .ANODE_R4).ticks
  let bottom_cathode_rtd_origin : snemo.rtd_origin :=
    ⟨a_gg_timestamp.bottom_cathode_origin.hit_number,
     a_gg_timestamp.bottom_cathode_origin.trigger_id⟩
  let udd_gg_timestamp :=
    { udd_gg_timestamp with bottom_cathode_origin := bottom_cathode_rtd_origin }
  let udd_gg_timestamp :=
    { udd_gg_timestamp with bottom_cathode_time := a_gg_timestamp.bottom_cathode_time.ticks }
  let top_cathode_rtd_origin : snemo.rtd_origin :=
    ⟨a_gg_timestamp.top_cathode_origin.hit_number,
     a_gg_timestamp.top_cathode_origin.trigger_id⟩
  let udd_gg_timestamp := { udd_gg_timestamp with top_cathode_origin := top_cathode_rtd_origin }
  { udd_gg_timestamp with top_cathode_time := a_gg_timestamp.top_cathode_time.ticks }

/-- Body of the tracker loop (source lines 403-468): geometry id and hit id are
copied, then one entry is appended per raw Geiger timing, in order. -/
def convert_tracker_hit (red_tracker_hit : snfee.tracker_digitized_hit) :
    snemo.tracker_digitized_hit :=
  let udd_tracker_hit : snemo.tracker_digitized_hit := ⟨⟨-1, []⟩, -1, []⟩
  let udd_tracker_hit := { udd_tracker_hit with geom_id := red_tracker_hit.geom_id }
  let udd_tracker_hit := { udd_tracker_hit with hit_id := red_tracker_hit.hit_id }
  let gg_timestamps_v := red_tracker_hit.times
  gg_timestamps_v.foldl
    (fun hit a_gg_timestamp => { hit with times := hit.times ++ [convert_gg_times a_gg_timestamp] })
    udd_tracker_hit

/-- The loops "correct hit id values" (source lines 395-396 and 479-480):
position `ihit` of the sequence receives hit id `ihit`; the first argument is the
index of the head of the remaining sequence. -/
def correct_hit_ids {α : Type} (set_hit_id : α → Int → α) : Nat → List α → List α
  | _, [] => []
  | ihit, h :: hs => set_hit_id h (ihit : Int) :: correct_hit_ids set_hit_id (ihit + 1) hs

/-- The trigger loop (source lines 332-342): three vectors grown by `push_back`
in one pass over the trigger sub-records. -/
def trigger_vints (red_trigger_hits : List snfee.trigger_record) :
    List Int × List Int × List Int :=
  red_trigger_hits.foldl
    (fun acc red_trigger_hit =>
      let trigger_id_vint := acc.1 ++ [red_trigger_hit.trigger_id]
      let trigger_decision_vint :=
        acc.2.1 ++ [if red_trigger_hit.trigger_decision then (1 : Int) else 0]
      let progenitor_trigger_id_vint :=
        match red_trigger_hit.progenitor_trigger_id with
        | some p => acc.2.2 ++ [p]
        | none => acc.2.2 ++ [-1]
      (trigger_id_vint, trigger_decision_vint, progenitor_trigger_id_vint))
    ([], [], [])

/-- Reference time of a raw event in seconds (source line 296):
`ticks * clock_period(clock) / CLHEP::second`. -/
def reference_time (env : Env) (red_ : snfee.raw_event_data) : ℚ :=
  ((red_.reference_time.ticks : ℚ) * env.clock_period red_.reference_time.clock) / env.second

/-- Comparator of the calorimeter sort (source line 392). -/
def calo_less (env : Env) (h1 h2 : snemo.calorimeter_digitized_hit) : Bool :=
  decide (env.om_num h1.geom_id < env.om_num h2.geom_id)

/-- Comparator of the tracker sort (source line 476). -/
def tracker_less (env : Env) (h1 h2 : snemo.tracker_digitized_hit) : Bool :=
  decide (env.gg_num h1.geom_id < env.gg_num h2.geom_id)

/-- The event timestamp (source lines 295-301): the absolute event time
`run_sync_time + reference_time` split into whole seconds and picoseconds. -/
def event_timestamp (env : Env) (g : globals) (red_ : snfee.raw_event_data) : snemo.timestamp :=
  let reference_time : ℚ := reference_time env red_
  let event_time : ℚ := g.run_sync_time + reference_time
  let event_time_sec : Int := ⌊event_time⌋
  let event_time_psec : Int := ⌊(1000000000000 : ℚ) * (event_time - (event_time_sec : ℚ))⌋
  { seconds := event_time_sec, picoseconds := event_time_psec }

/-- The header as filled before the end-time test (source lines 290-301). -/
def fill_event_header (env : Env) (g : globals) (red_ : snfee.raw_event_data)
    (EH : snemo.event_header) : snemo.event_header :=
  let EH := { EH with run_number := red_.run_id }
  let EH := { EH with event_number := red_.event_id }
  let EH := { EH with generation := .GENERATION_REAL }
  { EH with timestamp := event_timestamp env g red_ }

/-- Delta to the previous event in seconds (source lines 311-315). -/
def deltat_previous_event (previous_eh_timestamp eh_timestamp : snemo.timestamp) : ℚ :=
  if previous_eh_timestamp.is_valid then
    ((eh_timestamp.seconds - previous_eh_timestamp.seconds : Int) : ℚ)
      + (1 / 1000000000000 : ℚ)
        * ((eh_timestamp.picoseconds - previous_eh_timestamp.picoseconds : Int) : ℚ)
  else 0

/-- The three `store` calls of the trigger information (source lines 344-346). -/
def store_trigger_info (props : properties) (red_trigger_hits : List snfee.trigger_record) :
    Except String properties :=
  let trigger_id_vint := (trigger_vints red_trigger_hits).1
  let trigger_decision_vint := (trigger_vints red_trigger_hits).2.1
  let progenitor_trigger_id_vint := (trigger_vints red_trigger_hits).2.2
  match props.store "trigger_id" (.vint trigger_id_vint) with
  | .error e => .error e
  | .ok props =>
    match props.store "trigger_decision" (.vint trigger_decision_vint) with
    | .error e => .error e
    | .ok props => props.store "progenitor_trigger_id" (.vint progenitor_trigger_id_vint)

/-- The data bank as filled by source lines 353-480: attributes copied, both hit
collections built by `push_back`, sorted with `std::sort` and re-indexed. -/
def fill_UDD (env : Env) (no_waveform : Bool) (red_ : snfee.raw_event_data)
    (UDD : snemo.unified_digitized_data) : snemo.unified_digitized_data :=
  -- Copy RED attributes to UDD attributes
  let UDD := { UDD with run_id := red_.run_id }
  let UDD := { UDD with event_id := red_.event_id }
  let UDD := { UDD with reference_timestamp := red_.reference_time.ticks }
  let UDD := { UDD with origin_trigger_ids := red_.origin_trigger_ids }
  -- Scan and copy RED calo digitized hit into UDD calo digitized hit
  let UDD := red_.calo_hits.foldl
    (fun UDD red_calo_hit =>
      { UDD with calorimeter_hits :=
          UDD.calorimeter_hits ++ [convert_calo_hit no_waveform red_calo_hit] })
    UDD
  -- sort calo hit by om num
  let udd_calo_hits := env.sort _ (calo_less env) UDD.calorimeter_hits
  -- correct hit id values
  let udd_calo_hits := correct_hit_ids (fun h i => { h with hit_id := i }) 0 udd_calo_hits
  let UDD := { UDD with calorimeter_hits := udd_calo_hits }
  -- Scan and copy RED tracker digitized hit into UDD tracker digitized hit
  let UDD := red_.tracker_hits.foldl
    (fun UDD red_tracker_hit =>
      { UDD with tracker_hits := UDD.tracker_hits ++ [convert_tracker_hit red_tracker_hit] })
    UDD
  -- sort tracker hit by cell num
  let udd_tracker_hits := env.sort _ (tracker_less env) UDD.tracker_hits
  -- correct hit id values
  let udd_tracker_hits := correct_hit_ids (fun h i => { h with hit_id := i }) 0 udd_tracker_hits
  { UDD with tracker_hits := udd_tracker_hits }

/-- The function `do_red_to_udd_conversion` (source lines 250-487). The result
is the returned boolean, the event record as the call leaves it, and the global
variables as the call leaves them; an exception of a Bayeux call is `.error`. -/
def do_red_to_udd_conversion (env : Env) (g : globals) (red_ : snfee.raw_event_data)
    (event_record_ : things) : Except String (Bool × things × globals) :=
  -- Empty working EH and UDD objects
  match event_record_.add_EH with
  | .error e => .error e
  | .ok event_record_ =>
  match event_record_.add_UDD with
  | .error e => .error e
  | .ok event_record_ =>
    let UDD := snemo.unified_digitized_data.fresh
    -- Fill Event Header based on RED attributes, set the event timestamp
    let EH := fill_event_header env g red_ snemo.event_header.fresh
    if reference_time env red_ > g.run_end_time then
      .ok (false, { event_record_ with EH := some EH, UDD := some UDD }, g)
    else
      -- Transfer RED properties to EH one
      let EH := { EH with properties := red_.auxiliaries }
      -- Compute and store deltat to the previous event
      let deltat := deltat_previous_event g.previous_eh_timestamp EH.timestamp
      match EH.properties.store "deltat_previous_event" (.real (deltat * env.second)) with
      | .error e => .error e
      | .ok props =>
        let EH := { EH with properties := props }
        let g := { g with previous_eh_timestamp := EH.timestamp }
        -- Store trigger info
        match store_trigger_info EH.properties red_.trigger_records with
        | .error e => .error e
        | .ok props =>
          let EH := { EH with properties := props }
          -- Copy RED attributes to UDD attributes, convert and sort the hits
          let UDD := fill_UDD env g.no_waveform red_ UDD
          .ok (true, { event_record_ with EH := some EH, UDD := some UDD }, g)

/-! ## IEEE 754 binary64 arithmetic -/

/-- Rounding of a rational to the nearest integer, a tie going to the even
neighbour. -/
def round_half_even (y : ℚ) : Int :=
  if y - (⌊y⌋ : ℚ) < 1 / 2 then ⌊y⌋
  else if 1 / 2 < y - (⌊y⌋ : ℚ) then ⌊y⌋ + 1
  else if ⌊y⌋ % 2 = 0 then ⌊y⌋ else ⌊y⌋ + 1

/-- Exponent of the binade of `x` in binary64: `⌊log₂ |x|⌋` for a normal number,
and the smallest normal exponent -1022 for a subnormal number and for zero. -/
def binary64_exponent (x : ℚ) : Int :=
  if x = 0 then -1022 else max (Int.log 2 |x|) (-1022)

/-- Spacing of the binary64 numbers in the binade of `x`: 52 fraction bits
below the exponent. -/
def binary64_ulp (x : ℚ) : ℚ := (2 : ℚ) ^ (binary64_exponent x - 52)

/-- The binary64 number nearest to `x`, a tie going to the even significand
(the IEEE 754 default rounding), the exponent not bounded above. -/
def fl64 (x : ℚ) : ℚ := (round_half_even (x / binary64_ulp x) : ℚ) * binary64_ulp x

/-- The `double` a C++ operation with exact result `x` yields, when finite;
`none` when the rounded result overflows the binary64 range. -/
def binary64 (x : ℚ) : Option ℚ :=
  if |fl64 x| < (2 : ℚ) ^ (1024 : Nat) then some (fl64 x) else none

/-- Conversion to `int64_t`; outside the range of `int64_t` the behaviour of
the C++ conversion is undefined (`none`). -/
def int64 (n : Int) : Option Int :=
  if -(2 ^ 63) ≤ n ∧ n < 2 ^ 63 then some n else none

/-! ## The timing arithmetic of the conversion in binary64 -/

/-- Reference time of a raw event in seconds as the program computes it (source
line 296): the `int64_t` tick count converted to `double`, times the clock
period, divided by `CLHEP::second`, each result rounded to binary64. A result
that is not finite (overflow, division by zero) is `none`. -/
def reference_time_binary64 (env : Env) (red_ : snfee.raw_event_data) : Option ℚ :=
  match binary64 (red_.reference_time.ticks : ℚ) with
  | none => none
  | some ticks =>
    match binary64 (ticks * env.clock_period red_.reference_time.clock) with
    | none => none
    | some t => if env.second = 0 then none else binary64 (t / env.second)

/-- The event time in seconds as the program computes it (source line 297):
the sum of sync epoch and reference time rounded to binary64. -/
def event_time_binary64 (run_sync_time reference_time : ℚ) : Option ℚ :=
  binary64 (run_sync_time + reference_time)

/-- The event timestamp as the program computes it (source lines 297-301) from
the sync epoch and the reference time: the floor of the event time converted to
`int64_t`, and the floor of `1E12 * (event_time - event_time_sec)` converted to
`int64_t`, the subtraction (after conversion of the seconds back to `double`)
and the product rounded to binary64. `none` where the C++ behaviour is undefined
or a result is not finite. -/
def event_timestamp_binary64 (run_sync_time reference_time : ℚ) : Option snemo.timestamp :=
  match event_time_binary64 run_sync_time reference_time with
  | none => none
  | some event_time =>
    match int64 ⌊event_time⌋ with
    | none => none
    | some event_time_sec =>
      match binary64 (event_time_sec : ℚ) with
      | none => none
      | some sec =>
        match binary64 (event_time - sec) with
        | none => none
        | some frac =>
          match binary64 (1000000000000 * frac) with
          | none => none
          | some psec =>
            match int64 ⌊psec⌋ with
            | none => none
            | some event_time_psec =>
              some { seconds := event_time_sec, picoseconds := event_time_psec }

/-- The literal `1E-12` of source line 314 as a `double`: the binary64 number
nearest to `10^-12`, which is `4951760157141521 * 2^-92`. -/
def literal_1E_12 : ℚ := 4951760157141521 / 4951760157141521099596496896

/-- Delta to the previous event in seconds as the program computes it (source
lines 311-315): the `int64_t` difference of the seconds converted to `double`,
plus the literal `1E-12` times the `int64_t` difference of the picoseconds
converted to `double`; product and sum rounded to binary64. `none` where an
`int64_t` subtraction overflows. -/
def deltat_previous_event_binary64 (previous_eh_timestamp eh_timestamp : snemo.timestamp) :
    Option ℚ :=
  if previous_eh_timestamp.is_valid then
    match int64 (eh_timestamp.seconds - previous_eh_timestamp.seconds) with
    | none => none
    | some dsec =>
      match binary64 (dsec : ℚ) with
      | none => none
      | some deltat =>
        match int64 (eh_timestamp.picoseconds - previous_eh_timestamp.picoseconds) with
        | none => none
        | some dpsec =>
          match binary64 (dpsec : ℚ) with
          | none => none
          | some dpsec =>
            match binary64 (literal_1E_12 * dpsec) with
            | none => none
            | some t => binary64 (deltat + t)
  else some 0

/-- The function `do_red_to_udd_conversion` (source lines 250-487) with its
`double` arithmetic carried out in binary64. It differs from
`do_red_to_udd_conversion` in the timing computations only (source lines
296-299, 313-314 and 320); a call whose arithmetic leaves the finite doubles or
the range of `int64_t` is `.error`. -/
def do_red_to_udd_conversion_binary64 (env : Env) (g : globals)
    (red_ : snfee.raw_event_data) (event_record_ : things) :
    Except String (Bool × things × globals) :=
  -- Empty working EH and UDD objects
  match event_record_.add_EH with
  | .error e => .error e
  | .ok event_record_ =>
  match event_record_.add_UDD with
  | .error e => .error e
  | .ok event_record_ =>
    let UDD := snemo.unified_digitized_data.fresh
    -- Fill Event Header based on RED attributes, set the event timestamp
    match reference_time_binary64 env red_ with
    | none => .error "reference time not finite"
    | some reference_time =>
    match event_timestamp_binary64 g.run_sync_time reference_time with
    | none => .error "event time outside int64_t"
    | some eh_timestamp =>
      let EH : snemo.event_header :=
        { snemo.event_header.fresh with
          run_number := red_.run_id, event_number := red_.event_id,
          generation := .GENERATION_REAL, timestamp := eh_timestamp }
      if reference_time > g.run_end_time then
        .ok (false, { event_record_ with EH := some EH, UDD := some UDD }, g)
      else
        -- Transfer RED properties to EH one
        let EH := { EH with properties := red_.auxiliaries }
        -- Compute and store deltat to the previous event
        match deltat_previous_event_binary64 g.previous_eh_timestamp eh_timestamp with
        | none => .error "int64_t overflow"
        | some deltat =>
        match binary64 (deltat * env.second) with
        | none => .error "delta not finite"
        | some stored =>
        match EH.properties.store "deltat_previous_event" (.real stored) with
        | .error e => .error e
        | .ok props =>
          let EH := { EH with properties := props }
          let g := { g with previous_eh_timestamp := eh_timestamp }
          -- Store trigger info
          match store_trigger_info EH.properties red_.trigger_records with
          | .error e => .error e
          | .ok props =>
            let EH := { EH with properties := props }
            -- Copy RED attributes to UDD attributes, convert and sort the hits
            let UDD := fill_UDD env g.no_waveform red_ UDD
            .ok (true, { event_record_ with EH := some EH, UDD := some UDD }, g)

/-! ## The driving loop of `main` -/

/-- A record of the input stream as the reader presents it: a raw event record
under the expected serialization tag, or a record under another tag. -/
inductive stream_record where
  | red (r : snfee.raw_event_data)
  | foreign (tag : String)
deriving DecidableEq

/-- State of the loop of `main`: the two counters, the records handed to the
writer (in the order of the `writer.process` calls), the global variables, and
the records the reader has not delivered. -/
structure loop_state where
  red_counter : Nat
  udd_counter : Nat
  written : List things
  g : globals
  unread : List stream_record

/-- The `while` loop of `main` (source lines 186-215), run on the records still
in the reader. `.error` is an exception escaping the loop. -/
def main_loop (env : Env) (data_count : Nat) :
    List stream_record → loop_state → Except String loop_state
  | [], st => .ok { st with unread := [] }
  | rec :: rest, st =>
    if st.red_counter < data_count then
      match rec with
      | .foreign _ => .error "Unexpected record tag"
      | .red red =>
        let red_counter := st.red_counter + 1
        match do_red_to_udd_conversion env st.g red things.empty with
        | .error e => .error e
        | .ok (false, _, g) =>
          .ok { st with red_counter := red_counter, g := g, unread := rest }
        | .ok (true, event_record, g) =>
          main_loop env data_count rest
            { red_counter := red_counter, udd_counter := st.udd_counter + 1,
              written := st.written ++ [event_record], g := g, unread := rest }
    else .ok { st with unread := rec :: rest }

/-- Loop state at entry (source lines 180-184): counters at zero, nothing written. -/
def initial_state (g : globals) (source : List stream_record) : loop_state :=
  { red_counter := 0, udd_counter := 0, written := [], g := g, unread := source }

/-- The command-line options as the argument loop of `main` leaves them (source
lines 51-103): file names, maximum event count, and the three option globals. -/
structure options where
  input_filename : String
  output_filename : String
  data_count : Nat
  no_waveform : Bool
  run_sync_time : ℚ
  run_end_time : ℚ

/-- The options when no argument is given (source lines 34-36 and 51-53). -/
def options.defaults : options :=
  { input_filename := "", output_filename := "", data_count := 100000000,
    no_waveform := false, run_sync_time := 0, run_end_time := 86400 * (36524 / 100) }

/-- The global variables when the loop starts: the option globals as parsed, the
previous timestamp default-constructed (source line 37). -/
def initial_globals (o : options) : globals :=
  { no_waveform := o.no_waveform, run_sync_time := o.run_sync_time,
    run_end_time := o.run_end_time, previous_eh_timestamp := snemo.timestamp.invalid }

/-- What a run of `main` leaves: the exit code, and the loop state at the end of
the loop when the loop was entered and no exception escaped it. -/
structure main_outcome where
  error_code : Int
  end_state : Option loop_state

/-- The program `main` after argument parsing (source lines 105-245): the two
configuration checks, the loop over the records of the input file, and the exit
code (`EXIT_FAILURE` when an exception was caught). -/
def main (env : Env) (o : options) (source : List stream_record) : main_outcome :=
  if o.input_filename = "" then
    { error_code := 1, end_state := none }
  else if o.run_sync_time = 0 then
    { error_code := 1, end_state := none }
  else
    match main_loop env o.data_count source (initial_state (initial_globals o) source) with
    | .ok st => { error_code := 0, end_state := some st }
    | .error _ => { error_code := 1, end_state := none }

/-! ## An insertion sort meeting the `std::sort` guarantee -/

/-- Insertion step that places `x` before the elements equivalent to it. -/
def insert_before {α : Type} (comp : α → α → Bool) (x : α) : List α → List α
  | [] => [x]
  | y :: ys => if comp y x then y :: insert_before comp x ys else x :: y :: ys

/-- Insertion sort keeping equivalent elements in their input order. -/
def stable_sort (α : Type) (comp : α → α → Bool) : List α → List α
  | [] => []
  | x :: xs => insert_before comp x (stable_sort α comp xs)

/-! ## GNU libstdc++ `std::sort` -/

/-- Value comparison `comp(*(first + i), *(first + j))` on a sequence. -/
def comp_at {α : Type} (comp : α → α → Bool) (l : List α) (i j : Nat) : Bool :=
  match l[i]?, l[j]? with
  | some a, some b => comp a b
  | _, _ => false

/-- The assignment `*(first + i) = *(first + j)`. -/
def assign_at {α : Type} (l : List α) (i j : Nat) : List α :=
  match l[j]? with
  | some b => l.set i b
  | none => l

/-- The call `std::iter_swap(first + i, first + j)`. -/
def iter_swap {α : Type} (l : List α) (i j : Nat) : List α :=
  match l[i]?, l[j]? with
  | some a, some b => (l.set i b).set j a
  | _, _ => l

/-- The loop of `__unguarded_linear_insert` (`bits/stl_algo.h`): `next + 1` is
`__last`, `next` is `__next`. The C++ loop has no bound check; it is only
called where an element not greater than `val` precedes, and the model stops at
the front of the sequence. -/
def unguarded_linear_insert_loop {α : Type} (comp : α → α → Bool) (val : α) :
    Nat → List α → List α
  | 0, l => l.set 0 val
  | next + 1, l =>
    match l[next]? with
    | some x =>
      if comp val x then unguarded_linear_insert_loop comp val next (l.set (next + 1) x)
      else l.set (next + 1) val
    | none => l.set (next + 1) val

/-- The function `__unguarded_linear_insert(first + last, comp)`. -/
def unguarded_linear_insert {α : Type} (comp : α → α → Bool) (l : List α) (last : Nat) :
    List α :=
  match l[last]? with
  | some val => unguarded_linear_insert_loop comp val last l
  | none => l

/-- Body of the loop of `__insertion_sort` for the position `i`: an element
less than the first one is moved to the front (`move_backward`), any other is
inserted by `__unguarded_linear_insert`. -/
def insertion_sort_step {α : Type} (comp : α → α → Bool) (l : List α) (i : Nat) : List α :=
  match l[i]?, l[0]? with
  | some val, some x0 =>
    if comp val x0 then val :: (l.take i ++ l.drop (i + 1))
    else unguarded_linear_insert comp l i
  | _, _ => l

/-- The function `__insertion_sort(first, first + last, comp)`. -/
def insertion_sort {α : Type} (comp : α → α → Bool) (last : Nat) (l : List α) : List α :=
  (List.range' 1 (last - 1)).foldl (insertion_sort_step comp) l

/-- The function `__unguarded_insertion_sort(first + start, first + last, comp)`. -/
def unguarded_insertion_sort {α : Type} (comp : α → α → Bool) (start last : Nat)
    (l : List α) : List α :=
  (List.range' start (last - start)).foldl (unguarded_linear_insert comp) l

/-- The constant `_S_threshold`. -/
def S_threshold : Nat := 16

/-- The function `__final_insertion_sort(first, last, comp)`. -/
def final_insertion_sort {α : Type} (comp : α → α → Bool) (l : List α) : List α :=
  if l.length > S_threshold then
    unguarded_insertion_sort comp S_threshold l.length (insertion_sort comp S_threshold l)
  else insertion_sort comp l.length l

/-- The function `__move_median_to_first(result, a, b, c, comp)`. -/
def move_median_to_first {α : Type} (comp : α → α → Bool) (l : List α)
    (result a b c : Nat) : List α :=
  if comp_at comp l a b then
    if comp_at comp l b c then iter_swap l result b
    else if comp_at comp l a c then iter_swap l result c
    else iter_swap l result a
  else if comp_at comp l a c then iter_swap l result a
  else if comp_at comp l b c then iter_swap l result c
  else iter_swap l result b

/-- The loop `while (comp(first, pivot)) ++first` of `__unguarded_partition`. -/
def partition_scan_up {α : Type} (comp : α → α → Bool) (l : List α) (pivot : Nat) :
    Nat → Nat → Nat
  | 0, first => first
  | fuel + 1, first =>
    if comp_at comp l first pivot then partition_scan_up comp l pivot fuel (first + 1)
    else first

/-- The loop `while (comp(pivot, last)) --last` of `__unguarded_partition`. -/
def partition_scan_down {α : Type} (comp : α → α → Bool) (l : List α) (pivot : Nat) :
    Nat → Nat
  | 0 => 0
  | last + 1 =>
    if comp_at comp l pivot (last + 1) then partition_scan_down comp l pivot last
    else last + 1

/-- The function `__unguarded_partition(first, last, pivot, comp)`: the
sequence it leaves and the cut it returns. -/
def unguarded_partition {α : Type} (comp : α → α → Bool) (pivot : Nat) :
    Nat → Nat → Nat → List α → List α × Nat
  | 0, first, _, l => (l, first)
  | fuel + 1, first, last, l =>
    let first := partition_scan_up comp l pivot l.length first
    let last := partition_scan_down comp l pivot (last - 1)
    if first < last then unguarded_partition comp pivot fuel (first + 1) last (iter_swap l first last)
    else (l, first)

/-- The function `__unguarded_partition_pivot(first, last, comp)`. -/
def unguarded_partition_pivot {α : Type} (comp : α → α → Bool) (l : List α) : List α × Nat :=
  let mid := l.length / 2
  let l := move_median_to_first comp l 0 1 mid (l.length - 1)
  unguarded_partition comp 0 l.length 1 l.length l

/-- The function `__push_heap(first, holeIndex, topIndex, value, comp)`. -/
def push_heap {α : Type} (comp : α → α → Bool) (topIndex : Nat) (value : α) :
    Nat → Nat → List α → List α
  | 0, holeIndex, l => l.set holeIndex value
  | fuel + 1, holeIndex, l =>
    let parent := (holeIndex - 1) / 2
    match l[parent]? with
    | some p =>
      if holeIndex > topIndex && comp p value then
        push_heap comp topIndex value fuel parent (l.set holeIndex p)
      else l.set holeIndex value
    | none => l.set holeIndex value

/-- The first loop of `__adjust_heap`: the hole moves down to the larger child. -/
def adjust_heap_loop {α : Type} (comp : α → α → Bool) (len : Nat) :
    Nat → Nat → Nat → List α → List α × Nat × Nat
  | 0, holeIndex, secondChild, l => (l, holeIndex, secondChild)
  | fuel + 1, holeIndex, secondChild, l =>
    if secondChild < (len - 1) / 2 then
      let secondChild := 2 * (secondChild + 1)
      let secondChild :=
        if comp_at comp l secondChild (secondChild - 1) then secondChild - 1 else secondChild
      adjust_heap_loop comp len fuel secondChild secondChild (assign_at l holeIndex secondChild)
    else (l, holeIndex, secondChild)

/-- The function `__adjust_heap(first, holeIndex, len, value, comp)`. -/
def adjust_heap {α : Type} (comp : α → α → Bool) (holeIndex len : Nat) (value : α)
    (l : List α) : List α :=
  let topIndex := holeIndex
  let r := adjust_heap_loop comp len len holeIndex holeIndex l
  let l := r.1
  let holeIndex := r.2.1
  let secondChild := r.2.2
  if len % 2 = 0 ∧ secondChild = (len - 2) / 2 then
    let secondChild := 2 * (secondChild + 1)
    push_heap comp topIndex value len (secondChild - 1) (assign_at l holeIndex (secondChild - 1))
  else push_heap comp topIndex value len holeIndex l

/-- The function `__pop_heap(first, first + last, first + result, comp)`. -/
def pop_heap {α : Type} (comp : α → α → Bool) (last result : Nat) (l : List α) : List α :=
  match l[result]? with
  | some value => adjust_heap comp 0 last value (assign_at l result 0)
  | none => l

/-- The loop of `__make_heap`, from `parent` down to 0. -/
def make_heap_loop {α : Type} (comp : α → α → Bool) (len : Nat) : Nat → List α → List α
  | 0, l =>
    match l[0]? with
    | some value => adjust_heap comp 0 len value l
    | none => l
  | parent + 1, l =>
    match l[parent + 1]? with
    | some value => make_heap_loop comp len parent (adjust_heap comp (parent + 1) len value l)
    | none => l

/-- The function `__make_heap(first, last, comp)`. -/
def make_heap {α : Type} (comp : α → α → Bool) (l : List α) : List α :=
  if l.length < 2 then l else make_heap_loop comp l.length ((l.length - 2) / 2) l

/-- The function `__sort_heap(first, first + last, comp)`. -/
def sort_heap {α : Type} (comp : α → α → Bool) : Nat → List α → List α
  | 0, l => l
  | last + 1, l =>
    if last + 1 > 1 then sort_heap comp last (pop_heap comp last last l) else l

/-- The call `__partial_sort(first, last, last, comp)` of `__introsort_loop`:
`__heap_select` builds the heap (its loop over `[middle, last)` is empty), then
`__sort_heap`. -/
def partial_sort {α : Type} (comp : α → α → Bool) (l : List α) : List α :=
  sort_heap comp l.length (make_heap comp l)

/-- The function `__introsort_loop(first, last, depth_limit, comp)` on the range
`[first, last)` given as a sequence of its own. One iteration of the loop
partitions the range at `cut`, recurses into `[cut, last)` and goes on with
`[first, cut)`; both use the decremented depth limit. -/
def introsort_loop {α : Type} (comp : α → α → Bool) : Nat → List α → List α
  | 0, l => if l.length > S_threshold then partial_sort comp l else l
  | depth_limit + 1, l =>
    if l.length > S_threshold then
      let r := unguarded_partition_pivot comp l
      introsort_loop comp depth_limit (r.1.take r.2)
        ++ introsort_loop comp depth_limit (r.1.drop r.2)
    else l

/-- The loop behind `std::__lg`: the number of halvings that bring `n` below 2. -/
def lg_loop : Nat → Nat → Nat
  | 0, _ => 0
  | fuel + 1, n => if n < 2 then 0 else lg_loop fuel (n / 2) + 1

/-- The function `std::__lg(n)`: the position of the highest set bit of `n`. -/
def lg (n : Nat) : Nat := lg_loop n n

/-- GNU libstdc++ `std::sort(first, last, comp)` (`__sort` of
`bits/stl_algo.h`): introsort with depth limit `2 * lg(n)`, then a final
insertion sort. -/
def libstdcxx_sort (α : Type) (comp : α → α → Bool) (l : List α) : List α :=
  if l.length = 0 then l
  else final_insertion_sort comp (introsort_loop comp (lg l.length * 2) l)

/-! ## Observations used to state the properties -/

/-- The scalar content of a calorimeter hit apart from its hit id and its
waveform: geometry id, timestamp ticks, threshold flags, fcr, the two lt
counters, the six fwmeas values and the origin (hit number, trigger id). -/
structure calo_scalars where
  geom_id : geom_id
  timestamp : Int
  low_threshold_only : Bool
  high_threshold : Bool
  fcr : Int
  lt_trigger_counter : Int
  lt_time_counter : Int
  fwmeas_baseline : Int
  fwmeas_peak_amplitude : Int
  fwmeas_peak_cell : Int
  fwmeas_charge : Int
  fwmeas_rising_cell : Int
  fwmeas_falling_cell : Int
  origin_hit_number : Int
  origin_trigger_id : Int
deriving DecidableEq

/-- A raw calorimeter hit with its hit id erased. -/
def snfee.calo_digitized_hit.scalars (h : snfee.calo_digitized_hit) : calo_scalars :=
  { geom_id := h.geom_id, timestamp := h.reference_time.ticks,
    low_threshold_only := h.low_threshold_only, high_threshold := h.high_threshold,
    fcr := h.fcr, lt_trigger_counter := h.lt_trigger_counter,
    lt_time_counter := h.lt_time_counter, fwmeas_baseline := h.fwmeas_baseline,
    fwmeas_peak_amplitude := h.fwmeas_peak_amplitude, fwmeas_peak_cell := h.fwmeas_peak_cell,
    fwmeas_charge := h.fwmeas_charge, fwmeas_rising_cell := h.fwmeas_rising_cell,
    fwmeas_falling_cell := h.fwmeas_falling_cell,
    origin_hit_number := h.origin.hit_number, origin_trigger_id := h.origin.trigger_id }

/-- A normalized calorimeter hit with its hit id erased. -/
def snemo.calorimeter_digitized_hit.scalars (h : snemo.calorimeter_digitized_hit) :
    calo_scalars :=
  { geom_id := h.geom_id, timestamp := h.timestamp,
    low_threshold_only := h.low_threshold_only, high_threshold := h.high_threshold,
    fcr := h.fcr, lt_trigger_counter := h.lt_trigger_counter,
    lt_time_counter := h.lt_time_counter, fwmeas_baseline := h.fwmeas_baseline,
    fwmeas_peak_amplitude := h.fwmeas_peak_amplitude, fwmeas_peak_cell := h.fwmeas_peak_cell,
    fwmeas_charge := h.fwmeas_charge, fwmeas_rising_cell := h.fwmeas_rising_cell,
    fwmeas_falling_cell := h.fwmeas_falling_cell,
    origin_hit_number := h.origin.hit_number, origin_trigger_id := h.origin.trigger_id }

/-- One slot of a Geiger timing entry: tick count and origin. -/
structure gg_slot where
  ticks : Int
  hit_number : Int
  trigger_id : Int
deriving DecidableEq

/-- The seven slots of a raw Geiger timing entry, in the order anode R0, R1, R2,
R3, R4, bottom cathode, top cathode. -/
def snfee.gg_times.slots (t : snfee.gg_times) : List gg_slot :=
  [ ⟨t.anode_time_r0.ticks, t.anode_origin_r0.hit_number, t.anode_origin_r0.trigger_id⟩,
    ⟨t.anode_time_r1.ticks, t.anode_origin_r1.hit_number, t.anode_origin_r1.trigger_id⟩,
    ⟨t.anode_time_r2.ticks, t.anode_origin_r2.hit_number, t.anode_origin_r2.trigger_id⟩,
    ⟨t.anode_time_r3.ticks, t.anode_origin_r3.hit_number, t.anode_origin_r3.trigger_id⟩,
    ⟨t.anode_time_r4.ticks, t.anode_origin_r4.hit_number, t.anode_origin_r4.trigger_id⟩,
    ⟨t.bottom_cathode_time.ticks, t.bottom_cathode_origin.hit_number,
      t.bottom_cathode_origin.trigger_id⟩,
    ⟨t.top_cathode_time.ticks, t.top_cathode_origin.hit_number,
      t.top_cathode_origin.trigger_id⟩ ]

/-- The seven slots of a normalized Geiger timing entry, in the same order. -/
def snemo.gg_times.slots (t : snemo.gg_times) : List gg_slot :=
  [ ⟨t.anode_time_r0, t.anode_origin_r0.hit_number, t.anode_origin_r0.trigger_id⟩,
    ⟨t.anode_time_r1, t.anode_origin_r1.hit_number, t.anode_origin_r1.trigger_id⟩,
    ⟨t.anode_time_r2, t.anode_origin_r2.hit_number, t.anode_origin_r2.trigger_id⟩,
    ⟨t.anode_time_r3, t.anode_origin_r3.hit_number, t.anode_origin_r3.trigger_id⟩,
    ⟨t.anode_time_r4, t.anode_origin_r4.hit_number, t.anode_origin_r4.trigger_id⟩,
    ⟨t.bottom_cathode_time, t.bottom_cathode_origin.hit_number,
      t.bottom_cathode_origin.trigger_id⟩,
    ⟨t.top_cathode_time, t.top_cathode_origin.hit_number, t.top_cathode_origin.trigger_id⟩ ]

/-- A raw tracker hit with its hit id erased: geometry id and the slot contents
of its timing entries, in order. -/
def snfee.tracker_digitized_hit.content (h : snfee.tracker_digitized_hit) :
    SNREDBridge.geom_id × List (List gg_slot) :=
  (h.geom_id, h.times.map snfee.gg_times.slots)

/-- A normalized tracker hit with its hit id erased. -/
def snemo.tracker_digitized_hit.content (h : snemo.tracker_digitized_hit) :
    SNREDBridge.geom_id × List (List gg_slot) :=
  (h.geom_id, h.times.map snemo.gg_times.slots)

/-- Stability of a rearrangement with respect to an ordinal: for each value `k`
of the ordinal, the elements of ordinal `k` appear in `output` in the order in
which they appear in `input`. -/
def StableOrder {β : Type} (key : β → Int) (input output : List β) : Prop :=
  ∀ k : Int, output.filter (fun b => key b == k) = input.filter (fun b => key b == k)

/-- Absolute event time in seconds (source line 297): sync epoch plus reference
time. -/
def event_time (env : Env) (g : globals) (red_ : snfee.raw_event_data) : ℚ :=
  g.run_sync_time + reference_time env red_

/-- The time in seconds a header timestamp stands for:
`seconds + picoseconds * 1e-12`. -/
def snemo.timestamp.value (t : snemo.timestamp) : ℚ :=
  (t.seconds : ℚ) + (t.picoseconds : ℚ) * (1 / 1000000000000)

/-- The four property keys the conversion stores into the header. -/
def reserved_keys : List String :=
  ["deltat_previous_event", "trigger_id", "trigger_decision", "progenitor_trigger_id"]

/-- The header a successful conversion leaves in the record. -/
def converted_EH (env : Env) (g : globals) (red_ : snfee.raw_event_data) : snemo.event_header :=
  { run_number := red_.run_id, event_number := red_.event_id, generation := .GENERATION_REAL,
    timestamp := event_timestamp env g red_,
    properties := red_.auxiliaries ++
      [("deltat_previous_event",
          .real (deltat_previous_event g.previous_eh_timestamp (event_timestamp env g red_)
                  * env.second)),
       ("trigger_id", .vint (trigger_vints red_.trigger_records).1),
       ("trigger_decision", .vint (trigger_vints red_.trigger_records).2.1),
       ("progenitor_trigger_id", .vint (trigger_vints red_.trigger_records).2.2)] }

/-- Sequential conversion of a run of raw records: `Converted env g reds evs g2`
holds when converting the records of `reds` one after another, starting from the
global variables `g` and each time on an empty event record, returns true every
time, produces the event records `evs` in that order and ends with `g2`. -/
inductive Converted (env : Env) : globals → List snfee.raw_event_data → List things →
    globals → Prop where
  | nil (g : globals) : Converted env g [] [] g
  | cons {g g1 g2 : globals} {red : snfee.raw_event_data} {ev : things}
      {reds : List snfee.raw_event_data} {evs : List things} :
      do_red_to_udd_conversion env g red things.empty = .ok (true, ev, g1) →
      Converted env g1 reds evs g2 → Converted env g (red :: reds) (ev :: evs) g2

/-- The header a successful binary64 conversion leaves in the record, given the
event timestamp and the stored delta. -/
def converted_EH_binary64 (red_ : snfee.raw_event_data) (eh_timestamp : snemo.timestamp)
    (stored : ℚ) : snemo.event_header :=
  { run_number := red_.run_id, event_number := red_.event_id, generation := .GENERATION_REAL,
    timestamp := eh_timestamp,
    properties := red_.auxiliaries ++
      [("deltat_previous_event", .real stored),
       ("trigger_id", .vint (trigger_vints red_.trigger_records).1),
       ("trigger_decision", .vint (trigger_vints red_.trigger_records).2.1),
       ("progenitor_trigger_id", .vint (trigger_vints red_.trigger_records).2.2)] }

/-- The event record a successful binary64 conversion leaves (header
`converted_EH_binary64`, data bank `fill_UDD`). -/
def converted_record_binary64 (env : Env) (g : globals) (red_ : snfee.raw_event_data)
    (eh_timestamp : snemo.timestamp) (stored : ℚ) : things :=
  { EH := some (converted_EH_binary64 red_ eh_timestamp stored),
    UDD := some (fill_UDD env g.no_waveform red_ snemo.unified_digitized_data.fresh) }

/-! ## A sample run -/

/-- A sample environment: the ordinal of a geometry id is the first component of
its address, the clock period is 6.25 ns, `CLHEP::second` is 10^9 ns, and
`std::sort` is the order-preserving insertion sort. -/
def sample_env : Env :=
  { om_num := fun gid => gid.address.headD (-1),
    gg_num := fun gid => gid.address.headD (-1),
    clock_period := fun _ => 25 / 4,
    second := 1000000000,
    sort := stable_sort }

/-- Sample global variables: waveforms kept, sync epoch 1000 s, end-time bound
10 s, no previous timestamp. -/
def sample_globals : globals :=
  { no_waveform := false, run_sync_time := 1000, run_end_time := 10,
    previous_eh_timestamp := snemo.timestamp.invalid }

/-- Sample global variables with waveform suppression switched on. -/
def sample_globals_no_waveform : globals := { sample_globals with no_waveform := true }

/-- A sample raw calorimeter hit in optical module `om`. -/
def sample_calo_hit (om hit_id fcr : Int) (waveform : List Int) : snfee.calo_digitized_hit :=
  { geom_id := ⟨1302, [om]⟩, hit_id := hit_id, reference_time := ⟨3, 1000 + fcr⟩,
    waveform := waveform, low_threshold_only := false, high_threshold := true, fcr := fcr,
    lt_trigger_counter := 20 + fcr, lt_time_counter := 30 + fcr, fwmeas_baseline := 40 + fcr,
    fwmeas_peak_amplitude := 50 + fcr, fwmeas_peak_cell := 60 + fcr, fwmeas_charge := 70 + fcr,
    fwmeas_rising_cell := 80 + fcr, fwmeas_falling_cell := 90 + fcr,
    origin := ⟨fcr, 3⟩ }

/-- A sample raw Geiger timing entry whose fourteen values are pairwise distinct. -/
def sample_gg_times (b : Int) : snfee.gg_times :=
  { anode_origin_r0 := ⟨b + 10, b + 20⟩, anode_origin_r1 := ⟨b + 11, b + 21⟩,
    anode_origin_r2 := ⟨b + 12, b + 22⟩, anode_origin_r3 := ⟨b + 13, b + 23⟩,
    anode_origin_r4 := ⟨b + 14, b + 24⟩,
    anode_time_r0 := ⟨2, b + 30⟩, anode_time_r1 := ⟨2, b + 31⟩, anode_time_r2 := ⟨2, b + 32⟩,
    anode_time_r3 := ⟨2, b + 33⟩, anode_time_r4 := ⟨2, b + 34⟩,
    bottom_cathode_origin := ⟨b + 15, b + 25⟩, bottom_cathode_time := ⟨2, b + 35⟩,
    top_cathode_origin := ⟨b + 16, b + 26⟩, top_cathode_time := ⟨2, b + 36⟩ }

/-- A sample raw event: three calorimeter hits in optical modules 5, 2, 5, two
tracker hits in cells 9 and 4, two trigger sub-records, reference time 2.5 s. -/
def sample_red : snfee.raw_event_data :=
  { run_id := 1, event_id := 7, origin_trigger_ids := [3, 4],
    trigger_records := [⟨3, true, none⟩, ⟨4, false, some 3⟩],
    calo_hits := [sample_calo_hit 5 40 1 [1, -2], sample_calo_hit 2 41 2 [],
                  sample_calo_hit 5 42 3 [7]],
    tracker_hits := [⟨⟨1204, [9]⟩, 50, [sample_gg_times 100, sample_gg_times 200]⟩,
                     ⟨⟨1204, [4]⟩, 51, []⟩],
    reference_time := ⟨3, 400000000⟩,
    auxiliaries := [("comment", .string "sample")] }

/-- The event record a successful conversion leaves (header `converted_EH`, data
bank `fill_UDD`). -/
def converted_record (env : Env) (g : globals) (red_ : snfee.raw_event_data) : things :=
  { EH := some (converted_EH env g red_),
    UDD := some (fill_UDD env g.no_waveform red_ snemo.unified_digitized_data.fresh) }

/-- The sample event with reference time `secs` seconds (160 000 000 ticks of
6.25 ns per second). -/
def sample_red_at (secs : Int) : snfee.raw_event_data :=
  { sample_red with reference_time := ⟨3, 160000000 * secs⟩ }

/-- Sample options: bound 10 s, default event count, waveforms kept, and the
given sync epoch. -/
def sample_options (sync : ℚ) : options :=
  { input_filename := "run.red", output_filename := "run.udd", data_count := 100000000,
    no_waveform := false, run_sync_time := sync, run_end_time := 10 }

/-- The sample event with the given tick count as reference timestamp. -/
def sample_red_ticks (ticks : Int) : snfee.raw_event_data :=
  { sample_red with reference_time := ⟨4, ticks⟩ }

/-- The event record the conversion of the sample event leaves. -/
def sample_record (env : Env) (g : globals) : things :=
  { EH := some (converted_EH env g sample_red),
    UDD := some (fill_UDD env g.no_waveform sample_red snemo.unified_digitized_data.fresh) }

/-- The global variables after the conversion of the sample event. -/
def sample_globals_after (env : Env) (g : globals) : globals :=
  { g with previous_eh_timestamp := event_timestamp env g sample_red }

/-- The sample environment built against GNU libstdc++. -/
def sample_env_libstdcxx : Env := { sample_env with sort := libstdcxx_sort }

/-- The sample event with seventeen calorimeter hits, all in optical module 5,
with fcr 1 to 17 in raw order. -/
def sample_red_tied : snfee.raw_event_data :=
  { sample_red with
    calo_hits := [1, 2, 3, 4, 5, 6, 7, 8, 9, 10, 11, 12, 13, 14, 15, 16, 17].map
      (fun i => sample_calo_hit 5 (40 + i) i []) }

/-- Sample global variables at the sync epoch 1.7e9 s (a Unix time of 2023). -/
def sample_globals_epoch : globals := { sample_globals with run_sync_time := 1700000000 }

/-- Sample global variables at the sync epoch `-2^-70` s. -/
def sample_globals_negative : globals :=
  { sample_globals with run_sync_time := -(1 / 2 ^ 70) }

/-! ## Basic facts about the building blocks -/

theorem foldl_push_calo (f : snfee.calo_digitized_hit → snemo.calorimeter_digitized_hit)
    (l : List snfee.calo_digitized_hit) (U : snemo.unified_digitized_data) :
    l.foldl (fun U h => { U with calorimeter_hits := U.calorimeter_hits ++ [f h] }) U
      = { U with calorimeter_hits := U.calorimeter_hits ++ l.map f } := by
  induction l generalizing U with
  | nil => simp
  | cons a l ih => simp [ih]

theorem foldl_push_tracker (f : snfee.tracker_digitized_hit → snemo.tracker_digitized_hit)
    (l : List snfee.tracker_digitized_hit) (U : snemo.unified_digitized_data) :
    l.foldl (fun U h => { U with tracker_hits := U.tracker_hits ++ [f h] }) U
      = { U with tracker_hits := U.tracker_hits ++ l.map f } := by
  induction l generalizing U with
  | nil => simp
  | cons a l ih => simp [ih]

theorem foldl_push_times (l : List snfee.gg_times) (h : snemo.tracker_digitized_hit) :
    l.foldl (fun hit t => { hit with times := hit.times ++ [convert_gg_times t] }) h
      = { h with times := h.times ++ l.map convert_gg_times } := by
  induction l generalizing h with
  | nil => simp
  | cons a l ih => simp [ih]

theorem convert_tracker_hit_eq (h : snfee.tracker_digitized_hit) :
    convert_tracker_hit h
      = { geom_id := h.geom_id, hit_id := h.hit_id, times := h.times.map convert_gg_times } := by
  simp [convert_tracker_hit, foldl_push_times]

theorem map_correct_hit_ids {α β : Type} (set_hit_id : α → Int → α) (f : α → β)
    (hf : ∀ a i, f (set_hit_id a i) = f a) (s : Nat) (l : List α) :
    (correct_hit_ids set_hit_id s l).map f = l.map f := by
  induction l generalizing s with
  | nil => rfl
  | cons a l ih => simp [correct_hit_ids, hf, ih]

theorem length_correct_hit_ids {α : Type} (set_hit_id : α → Int → α) (s : Nat) (l : List α) :
    (correct_hit_ids set_hit_id s l).length = l.length := by
  induction l generalizing s with
  | nil => rfl
  | cons a l ih => simp [correct_hit_ids, ih]

theorem getElem?_correct_hit_ids {α : Type} (set_hit_id : α → Int → α) (s : Nat) (l : List α)
    (i : Nat) :
    (correct_hit_ids set_hit_id s l)[i]?
      = l[i]?.map (fun a => set_hit_id a ((s + i : Nat) : Int)) := by
  induction l generalizing s i with
  | nil => simp [correct_hit_ids]
  | cons a l ih =>
    cases i with
    | zero => simp [correct_hit_ids]
    | succ i =>
      simp only [correct_hit_ids, List.getElem?_cons_succ]
      rw [ih]
      have : s + 1 + i = s + (i + 1) := by omega
      rw [this]

theorem fill_UDD_calorimeter_hits (env : Env) (nw : Bool) (red_ : snfee.raw_event_data) :
    (fill_UDD env nw red_ snemo.unified_digitized_data.fresh).calorimeter_hits
      = correct_hit_ids (fun h i => { h with hit_id := i }) 0
          (env.sort _ (calo_less env) (red_.calo_hits.map (convert_calo_hit nw))) := by
  simp [fill_UDD, foldl_push_calo, foldl_push_tracker, snemo.unified_digitized_data.fresh]

theorem fill_UDD_tracker_hits (env : Env) (nw : Bool) (red_ : snfee.raw_event_data) :
    (fill_UDD env nw red_ snemo.unified_digitized_data.fresh).tracker_hits
      = correct_hit_ids (fun h i => { h with hit_id := i }) 0
          (env.sort _ (tracker_less env) (red_.tracker_hits.map convert_tracker_hit)) := by
  simp [fill_UDD, foldl_push_calo, foldl_push_tracker, snemo.unified_digitized_data.fresh]

theorem strictWeakOrder_key {α : Type} (key : α → Int) :
    StrictWeakOrder (fun a b : α => decide (key a < key b)) := by
  refine ⟨?_, ?_, ?_⟩ <;> intros <;>
    simp only [decide_eq_true_eq, decide_eq_false_iff_not] at * <;> omega

/-! ### What a call that returns true has done -/

theorem has_key_append (p q : properties) (key : String) :
    properties.has_key (p ++ q) key = (p.has_key key || properties.has_key q key) := by
  simp [properties.has_key]

theorem store_eq_ok {p q : properties} {key : String} {v : prop_value}
    (h : p.store key v = .ok q) : p.has_key key = false ∧ q = p ++ [(key, v)] := by
  unfold properties.store at h
  split at h
  · cases h
  · rename_i hk
    cases h
    exact ⟨by simpa using hk, rfl⟩

theorem store_trigger_info_eq_ok {p q : properties} {ts : List snfee.trigger_record}
    (h : store_trigger_info p ts = .ok q) :
    q = p ++ [("trigger_id", .vint (trigger_vints ts).1),
              ("trigger_decision", .vint (trigger_vints ts).2.1),
              ("progenitor_trigger_id", .vint (trigger_vints ts).2.2)] := by
  unfold store_trigger_info at h
  dsimp only at h
  split at h
  · cases h
  · rename_i p1 h1
    split at h
    · cases h
    · rename_i p2 h2
      obtain ⟨-, rfl⟩ := store_eq_ok h1
      obtain ⟨-, rfl⟩ := store_eq_ok h2
      obtain ⟨-, rfl⟩ := store_eq_ok h
      simp

theorem store_trigger_info_keys {p q : properties} {ts : List snfee.trigger_record}
    (h : store_trigger_info p ts = .ok q) :
    p.has_key "trigger_id" = false ∧ p.has_key "trigger_decision" = false ∧
      p.has_key "progenitor_trigger_id" = false := by
  unfold store_trigger_info at h
  dsimp only at h
  split at h
  · cases h
  · rename_i p1 h1
    split at h
    · cases h
    · rename_i p2 h2
      obtain ⟨k1, rfl⟩ := store_eq_ok h1
      obtain ⟨k2, rfl⟩ := store_eq_ok h2
      obtain ⟨k3, -⟩ := store_eq_ok h
      simp only [has_key_append, Bool.or_eq_false_iff] at k2 k3
      exact ⟨k1, k2.1, k3.1.1⟩

/-- A call that returns true was made on an event within the time window, and
left the header `converted_EH`, the data bank `fill_UDD` and the previous
timestamp set to the event's. -/
theorem conversion_true_inv {env : Env} {g g1 : globals} {red_ : snfee.raw_event_data}
    {er ev : things} (h : do_red_to_udd_conversion env g red_ er = .ok (true, ev, g1)) :
    reference_time env red_ ≤ g.run_end_time ∧
    ev.EH = some (converted_EH env g red_) ∧
    ev.UDD = some (fill_UDD env g.no_waveform red_ snemo.unified_digitized_data.fresh) ∧
    g1 = { g with previous_eh_timestamp := event_timestamp env g red_ } ∧
    ∀ k ∈ reserved_keys, red_.auxiliaries.has_key k = false := by
  unfold do_red_to_udd_conversion at h
  split at h
  · cases h
  · split at h
    · cases h
    · dsimp only at h
      split at h
      · cases h
      · rename_i hle
        split at h
        · cases h
        · rename_i p1 h1
          split at h
          · cases h
          · rename_i p2 h2
            obtain ⟨hk1, rfl⟩ := store_eq_ok h1
            have hk := store_trigger_info_keys h2
            have h3 := store_trigger_info_eq_ok h2
            subst h3
            cases h
            refine ⟨not_lt.mp hle, ?_, rfl, rfl, ?_⟩
            · simp [converted_EH, fill_event_header]
            · intro k hkm
              simp only [reserved_keys, List.mem_cons, List.mem_singleton, List.not_mem_nil,
                or_false] at hkm
              simp only [has_key_append, Bool.or_eq_false_iff] at hk
              rcases hkm with rfl | rfl | rfl | rfl
              · exact hk1
              · exact hk.1.1
              · exact hk.2.1.1
              · exact hk.2.2.1

theorem store_ok_of {p : properties} {key : String} (v : prop_value)
    (h : p.has_key key = false) : p.store key v = .ok (p ++ [(key, v)]) := by
  simp [properties.store, h]

/-- A call on an empty record, for an event within the time window whose
auxiliary bag uses none of the four reserved keys, returns true. -/
theorem conversion_true_of {env : Env} {g : globals} {red_ : snfee.raw_event_data}
    (hle : reference_time env red_ ≤ g.run_end_time)
    (hk : ∀ k ∈ reserved_keys, red_.auxiliaries.has_key k = false) :
    do_red_to_udd_conversion env g red_ things.empty
      = .ok (true,
          { EH := some (converted_EH env g red_),
            UDD := some (fill_UDD env g.no_waveform red_ snemo.unified_digitized_data.fresh) },
          { g with previous_eh_timestamp := event_timestamp env g red_ }) := by
  have h1 := hk "deltat_previous_event" (by simp [reserved_keys])
  have h2 := hk "trigger_id" (by simp [reserved_keys])
  have h3 := hk "trigger_decision" (by simp [reserved_keys])
  have h4 := hk "progenitor_trigger_id" (by simp [reserved_keys])
  simp only [do_red_to_udd_conversion, things.add_EH, things.add_UDD, things.empty,
    Option.isSome_none, Bool.false_eq_true, if_false, Option.isSome_some, not_lt.mpr hle,
    gt_iff_lt, fill_event_header, store_trigger_info]
  rw [store_ok_of _ h1]
  dsimp only
  rw [store_ok_of _ (by rw [has_key_append, h2]; simp [properties.has_key])]
  dsimp only
  rw [store_ok_of _ (by rw [has_key_append, has_key_append, h3]; simp [properties.has_key])]
  dsimp only
  rw [store_ok_of _ (by
    rw [has_key_append, has_key_append, has_key_append, h4]; simp [properties.has_key])]
  simp [converted_EH]

/-- A call on an empty record for an event beyond the end-time bound returns
false, leaving the header filled up to its timestamp, an empty data bank and the
global variables untouched. -/
theorem conversion_false_of {env : Env} {g : globals} {red_ : snfee.raw_event_data}
    (hgt : reference_time env red_ > g.run_end_time) :
    do_red_to_udd_conversion env g red_ things.empty
      = .ok (false,
          { EH := some (fill_event_header env g red_ snemo.event_header.fresh),
            UDD := some snemo.unified_digitized_data.fresh }, g) := by
  simp [do_red_to_udd_conversion, things.add_EH, things.add_UDD, things.empty, hgt]

/-- A call that returns false was made on an event beyond the end-time bound. -/
theorem conversion_false_inv {env : Env} {g g1 : globals} {red_ : snfee.raw_event_data}
    {er ev : things} (h : do_red_to_udd_conversion env g red_ er = .ok (false, ev, g1)) :
    reference_time env red_ > g.run_end_time := by
  unfold do_red_to_udd_conversion at h
  split at h
  · cases h
  · split at h
    · cases h
    · dsimp only at h
      split at h
      · assumption
      · split at h
        · cases h
        · split at h
          · cases h
          · cases h

/-! ### The insertion sort meets the `std::sort` guarantee -/

theorem perm_insert_before {α : Type} (comp : α → α → Bool) (x : α) (l : List α) :
    (insert_before comp x l).Perm (x :: l) := by
  induction l with
  | nil => exact List.Perm.refl _
  | cons y ys ih =>
    unfold insert_before
    split
    · exact (List.Perm.cons y ih).trans (List.Perm.swap x y ys)
    · exact List.Perm.refl _

theorem perm_stable_sort {α : Type} (comp : α → α → Bool) (l : List α) :
    (stable_sort α comp l).Perm l := by
  induction l with
  | nil => exact List.Perm.refl _
  | cons x xs ih =>
    exact (perm_insert_before comp x _).trans (List.Perm.cons x ih)

theorem StrictWeakOrder.asymm {α : Type} {comp : α → α → Bool} (h : StrictWeakOrder comp)
    {a b : α} (hab : comp a b = true) : comp b a = false := by
  cases hba : comp b a with
  | false => rfl
  | true =>
    have := h.2.1 a b a hab hba
    rw [h.1 a] at this
    cases this

theorem pairwise_insert_before {α : Type} {comp : α → α → Bool} (h : StrictWeakOrder comp)
    (x : α) (l : List α) (hl : l.Pairwise (fun a b => comp b a = false)) :
    (insert_before comp x l).Pairwise (fun a b => comp b a = false) := by
  induction l with
  | nil => simp [insert_before]
  | cons y ys ih =>
    rw [List.pairwise_cons] at hl
    unfold insert_before
    split
    · rename_i hyx
      rw [List.pairwise_cons]
      refine ⟨?_, ih hl.2⟩
      intro z hz
      have hz2 := (perm_insert_before comp x ys).subset hz
      rcases List.mem_cons.mp hz2 with rfl | hz3
      · exact h.asymm hyx
      · exact hl.1 z hz3
    · rename_i hyx
      have hyx2 : comp y x = false := by simpa using hyx
      rw [List.pairwise_cons]
      refine ⟨?_, List.pairwise_cons.mpr hl⟩
      intro z hz
      rcases List.mem_cons.mp hz with rfl | hz3
      · exact hyx2
      · exact h.2.2 z y x (hl.1 z hz3) hyx2

/-- The order-preserving insertion sort meets the `std::sort` guarantee. -/
theorem stdSortSpec_stable_sort : StdSortSpec stable_sort := by
  intro α comp l h
  refine ⟨perm_stable_sort comp l, ?_⟩
  induction l with
  | nil => simp [stable_sort]
  | cons x xs ih => exact pairwise_insert_before h x _ ih

/-! ### The sample run -/

theorem sample_reference_time (sort : (α : Type) → (α → α → Bool) → List α → List α) :
    reference_time { sample_env with sort := sort } sample_red = 5 / 2 := by
  simp only [reference_time, sample_env, sample_red]
  norm_num

/-- The sample event converts, whatever `std::sort` and waveform flag are in use. -/
theorem sample_converts (sort : (α : Type) → (α → α → Bool) → List α → List α) (nw : Bool) :
    do_red_to_udd_conversion { sample_env with sort := sort }
        { sample_globals with no_waveform := nw } sample_red things.empty
      = .ok (true, sample_record { sample_env with sort := sort }
                    { sample_globals with no_waveform := nw },
             sample_globals_after { sample_env with sort := sort }
                    { sample_globals with no_waveform := nw }) := by
  apply conversion_true_of
  · rw [sample_reference_time]
    norm_num [sample_globals]
  · decide

theorem sample_calo_stable :
    (fill_UDD sample_env false sample_red snemo.unified_digitized_data.fresh).calorimeter_hits.map
        (fun h => (h.hit_id, h.geom_id.address, h.fcr, h.waveform))
      = [(0, [2], 2, []), (1, [5], 1, [1, -2]), (2, [5], 3, [7])] := by
  decide

/-! ### Re-indexed sorted sequences -/

theorem hit_id_get_of_correct_hit_ids {α : Type} (set_hit_id : α → Int → α) (hit_id : α → Int)
    (hset : ∀ a i, hit_id (set_hit_id a i) = i) (l l2 : List α)
    (e : l2 = correct_hit_ids set_hit_id 0 l) (i : Nat) (hi : i < l2.length) :
    hit_id (l2.get ⟨i, hi⟩) = (i : Int) := by
  subst e
  have h1 := getElem?_correct_hit_ids set_hit_id 0 l i
  have hi2 : i < l.length := by rw [length_correct_hit_ids] at hi; exact hi
  rw [List.getElem?_eq_getElem hi, List.getElem?_eq_getElem hi2, Option.map_some'] at h1
  rw [List.get_eq_getElem, Option.some.inj h1, hset]
  simp

theorem pairwise_key_of_sorted {α : Type} (sort : (α : Type) → (α → α → Bool) → List α → List α)
    (hsort : StdSortSpec sort) (key : α → Int) (set_hit_id : α → Int → α)
    (hkey : ∀ a i, key (set_hit_id a i) = key a) (l : List α) :
    (correct_hit_ids set_hit_id 0 (sort α (fun a b => decide (key a < key b)) l)).Pairwise
      (fun a b => key a ≤ key b) := by
  have hswo := strictWeakOrder_key key
  have h2 := (hsort α _ l hswo).2
  rw [← List.pairwise_map (f := key) (R := fun x y => x ≤ y), map_correct_hit_ids _ _ hkey,
    List.pairwise_map]
  exact h2.imp (fun {a b} hab => by simpa using hab)

theorem length_sorted {α : Type} (sort : (α : Type) → (α → α → Bool) → List α → List α)
    (hsort : StdSortSpec sort) (key : α → Int) (set_hit_id : α → Int → α) (l : List α) :
    (correct_hit_ids set_hit_id 0 (sort α (fun a b => decide (key a < key b)) l)).length
      = l.length := by
  have hswo := strictWeakOrder_key key
  rw [length_correct_hit_ids, (hsort α _ l hswo).1.length_eq]

theorem perm_map_sorted {α β : Type} (sort : (α : Type) → (α → α → Bool) → List α → List α)
    (hsort : StdSortSpec sort) (key : α → Int) (set_hit_id : α → Int → α) (f : α → β)
    (hf : ∀ a i, f (set_hit_id a i) = f a) (l : List α) :
    ((correct_hit_ids set_hit_id 0 (sort α (fun a b => decide (key a < key b)) l)).map f).Perm
      (l.map f) := by
  have hswo := strictWeakOrder_key key
  rw [map_correct_hit_ids _ _ hf]
  exact (hsort α _ l hswo).1.map f

theorem scalars_convert_calo_hit (nw : Bool) (h : snfee.calo_digitized_hit) :
    (convert_calo_hit nw h).scalars = h.scalars := by
  cases nw <;> rfl

theorem slots_convert_gg_times (t : snfee.gg_times) : (convert_gg_times t).slots = t.slots := by
  rfl

theorem content_convert_tracker_hit (h : snfee.tracker_digitized_hit) :
    (convert_tracker_hit h).content = h.content := by
  rw [convert_tracker_hit_eq]
  simp [snemo.tracker_digitized_hit.content, snfee.tracker_digitized_hit.content,
    slots_convert_gg_times, Function.comp_def]

/-! ## The claims -/

/-- C1: for every raw event that `do_red_to_udd_conversion` converts (returns
true), the normalized calorimeter hit list has the length of the raw
calorimeter hit list and the hit at position `i` carries hit id exactly `i`,
whatever hit ids the raw hits carried. -/
theorem C1_calo_hit_ids_dense (env : Env) (g g1 : globals) (red_ : snfee.raw_event_data)
    (er ev : things) (hsort : StdSortSpec env.sort)
    (h : do_red_to_udd_conversion env g red_ er = .ok (true, ev, g1)) :
    ∃ udd, ev.UDD = some udd ∧
      udd.calorimeter_hits.length = red_.calo_hits.length ∧
      ∀ (i : Nat) (hi : i < udd.calorimeter_hits.length),
        (udd.calorimeter_hits.get ⟨i, hi⟩).hit_id = (i : Int) := by
  obtain ⟨-, -, hU, -⟩ := conversion_true_inv h
  refine ⟨_, hU, ?_, ?_⟩
  · rw [fill_UDD_calorimeter_hits]
    have := length_sorted env.sort hsort (fun h : snemo.calorimeter_digitized_hit =>
      env.om_num h.geom_id) (fun h i => { h with hit_id := i })
      (red_.calo_hits.map (convert_calo_hit g.no_waveform))
    rw [List.length_map] at this
    exact this
  · exact hit_id_get_of_correct_hit_ids (fun h i => { h with hit_id := i })
      (fun h : snemo.calorimeter_digitized_hit => h.hit_id) (fun _ _ => rfl) _ _
      (fill_UDD_calorimeter_hits env g.no_waveform red_)

/-- Witness of C1 on the sample event. -/
theorem C1_calo_hit_ids_dense_witness :
    ∃ udd, (sample_record sample_env sample_globals).UDD = some udd ∧
      udd.calorimeter_hits.length = sample_red.calo_hits.length ∧
      ∀ (i : Nat) (hi : i < udd.calorimeter_hits.length),
        (udd.calorimeter_hits.get ⟨i, hi⟩).hit_id = (i : Int) :=
  C1_calo_hit_ids_dense sample_env sample_globals _ sample_red things.empty _
    stdSortSpec_stable_sort (sample_converts stable_sort false)

/-- C2: for every converted raw event, the normalized calorimeter hit list is
ordered by optical-module number: for all positions `i < j`,
`om_num (geom_id of hit i) ≤ om_num (geom_id of hit j)`. -/
theorem C2_calo_sorted_by_om_num (env : Env) (g g1 : globals) (red_ : snfee.raw_event_data)
    (er ev : things) (hsort : StdSortSpec env.sort)
    (h : do_red_to_udd_conversion env g red_ er = .ok (true, ev, g1)) :
    ∃ udd, ev.UDD = some udd ∧
      ∀ (i j : Nat) (hi : i < udd.calorimeter_hits.length)
        (hj : j < udd.calorimeter_hits.length), i < j →
        env.om_num (udd.calorimeter_hits.get ⟨i, hi⟩).geom_id
          ≤ env.om_num (udd.calorimeter_hits.get ⟨j, hj⟩).geom_id := by
  obtain ⟨-, -, hU, -⟩ := conversion_true_inv h
  refine ⟨_, hU, ?_⟩
  have hp : (fill_UDD env g.no_waveform red_
      snemo.unified_digitized_data.fresh).calorimeter_hits.Pairwise
      (fun a b => env.om_num a.geom_id ≤ env.om_num b.geom_id) := by
    rw [fill_UDD_calorimeter_hits]
    exact pairwise_key_of_sorted env.sort hsort
      (fun h : snemo.calorimeter_digitized_hit => env.om_num h.geom_id)
      (fun h i => { h with hit_id := i }) (fun _ _ => rfl)
      (red_.calo_hits.map (convert_calo_hit g.no_waveform))
  rw [List.pairwise_iff_get] at hp
  intro i j hi hj hij
  exact hp ⟨i, hi⟩ ⟨j, hj⟩ hij

/-- Witness of C2 on the sample event. -/
theorem C2_calo_sorted_by_om_num_witness :
    ∃ udd, (sample_record sample_env sample_globals).UDD = some udd ∧
      ∀ (i j : Nat) (hi : i < udd.calorimeter_hits.length)
        (hj : j < udd.calorimeter_hits.length), i < j →
        sample_env.om_num (udd.calorimeter_hits.get ⟨i, hi⟩).geom_id
          ≤ sample_env.om_num (udd.calorimeter_hits.get ⟨j, hj⟩).geom_id :=
  C2_calo_sorted_by_om_num sample_env sample_globals _ sample_red things.empty _
    stdSortSpec_stable_sort (sample_converts stable_sort false)

/-- C3: for every converted raw event, calorimeter conversion only reorders the
hits and relabels their hit ids: the multiset of normalized calorimeter hits
with the hit id erased (geometry id, timestamp ticks, both threshold flags, fcr,
the two lt counters, the six fwmeas values, origin hit number and origin trigger
id) equals the multiset of the raw calorimeter hits with the hit id erased. -/
theorem C3_calo_hits_multiset (env : Env) (g g1 : globals) (red_ : snfee.raw_event_data)
    (er ev : things) (hsort : StdSortSpec env.sort)
    (h : do_red_to_udd_conversion env g red_ er = .ok (true, ev, g1)) :
    ∃ udd, ev.UDD = some udd ∧
      (↑(udd.calorimeter_hits.map snemo.calorimeter_digitized_hit.scalars) :
          Multiset calo_scalars)
        = ↑(red_.calo_hits.map snfee.calo_digitized_hit.scalars) := by
  obtain ⟨-, -, hU, -⟩ := conversion_true_inv h
  refine ⟨_, hU, ?_⟩
  rw [fill_UDD_calorimeter_hits, Multiset.coe_eq_coe]
  have hp := perm_map_sorted env.sort hsort
    (fun h : snemo.calorimeter_digitized_hit => env.om_num h.geom_id)
    (fun h i => { h with hit_id := i }) snemo.calorimeter_digitized_hit.scalars
    (fun _ _ => rfl) (red_.calo_hits.map (convert_calo_hit g.no_waveform))
  rw [List.map_map] at hp
  have e : snemo.calorimeter_digitized_hit.scalars ∘ convert_calo_hit g.no_waveform
      = snfee.calo_digitized_hit.scalars := by
    funext x
    exact scalars_convert_calo_hit _ x
  rw [e] at hp
  exact hp

/-- Witness of C3 on the sample event. -/
theorem C3_calo_hits_multiset_witness :
    ∃ udd, (sample_record sample_env sample_globals).UDD = some udd ∧
      (↑(udd.calorimeter_hits.map snemo.calorimeter_digitized_hit.scalars) :
          Multiset calo_scalars)
        = ↑(sample_red.calo_hits.map snfee.calo_digitized_hit.scalars) :=
  C3_calo_hits_multiset sample_env sample_globals _ sample_red things.empty _
    stdSortSpec_stable_sort (sample_converts stable_sort false)

/-- C4: for every converted raw event with `n` raw tracker hits, the normalized
tracker hit list has length `n`, is ordered by Geiger cell number (`gg_num` of
the geometry id is non-decreasing along the list), and the hit at position `i`
carries hit id exactly `i`, whatever hit ids the raw tracker hits carried. -/
theorem C4_tracker_hits_sorted_dense (env : Env) (g g1 : globals)
    (red_ : snfee.raw_event_data) (er ev : things) (hsort : StdSortSpec env.sort)
    (h : do_red_to_udd_conversion env g red_ er = .ok (true, ev, g1)) :
    ∃ udd, ev.UDD = some udd ∧
      udd.tracker_hits.length = red_.tracker_hits.length ∧
      (∀ (i j : Nat) (hi : i < udd.tracker_hits.length) (hj : j < udd.tracker_hits.length),
        i < j →
        env.gg_num (udd.tracker_hits.get ⟨i, hi⟩).geom_id
          ≤ env.gg_num (udd.tracker_hits.get ⟨j, hj⟩).geom_id) ∧
      ∀ (i : Nat) (hi : i < udd.tracker_hits.length),
        (udd.tracker_hits.get ⟨i, hi⟩).hit_id = (i : Int) := by
  obtain ⟨-, -, hU, -⟩ := conversion_true_inv h
  refine ⟨_, hU, ?_, ?_, ?_⟩
  · rw [fill_UDD_tracker_hits]
    have := length_sorted env.sort hsort (fun h : snemo.tracker_digitized_hit =>
      env.gg_num h.geom_id) (fun h i => { h with hit_id := i })
      (red_.tracker_hits.map convert_tracker_hit)
    rw [List.length_map] at this
    exact this
  · have hp : (fill_UDD env g.no_waveform red_
        snemo.unified_digitized_data.fresh).tracker_hits.Pairwise
        (fun a b => env.gg_num a.geom_id ≤ env.gg_num b.geom_id) := by
      rw [fill_UDD_tracker_hits]
      exact pairwise_key_of_sorted env.sort hsort
        (fun h : snemo.tracker_digitized_hit => env.gg_num h.geom_id)
        (fun h i => { h with hit_id := i }) (fun _ _ => rfl)
        (red_.tracker_hits.map convert_tracker_hit)
    rw [List.pairwise_iff_get] at hp
    intro i j hi hj hij
    exact hp ⟨i, hi⟩ ⟨j, hj⟩ hij
  · exact hit_id_get_of_correct_hit_ids (fun h i => { h with hit_id := i })
      (fun h : snemo.tracker_digitized_hit => h.hit_id) (fun _ _ => rfl) _ _
      (fill_UDD_tracker_hits env g.no_waveform red_)

/-- Witness of C4 on the sample event. -/
theorem C4_tracker_hits_sorted_dense_witness :
    ∃ udd, (sample_record sample_env sample_globals).UDD = some udd ∧
      udd.tracker_hits.length = sample_red.tracker_hits.length ∧
      (∀ (i j : Nat) (hi : i < udd.tracker_hits.length) (hj : j < udd.tracker_hits.length),
        i < j →
        sample_env.gg_num (udd.tracker_hits.get ⟨i, hi⟩).geom_id
          ≤ sample_env.gg_num (udd.tracker_hits.get ⟨j, hj⟩).geom_id) ∧
      ∀ (i : Nat) (hi : i < udd.tracker_hits.length),
        (udd.tracker_hits.get ⟨i, hi⟩).hit_id = (i : Int) :=
  C4_tracker_hits_sorted_dense sample_env sample_globals _ sample_red things.empty _
    stdSortSpec_stable_sort (sample_converts stable_sort false)

/-- C5: for every converted raw event, the normalized tracker hits are the raw
tracker hits up to order and hit id: each keeps its geometry id and its list of
Geiger timing entries, same length and same order, and in each entry each of
the seven slots (anode R0..R4, bottom cathode, top cathode) holds the raw
slot's own tick count and origin (hit number, trigger id). No entry is merged,
dropped or duplicated and no slot receives another slot's value. -/
theorem C5_tracker_timings_copied (env : Env) (g g1 : globals) (red_ : snfee.raw_event_data)
    (er ev : things) (hsort : StdSortSpec env.sort)
    (h : do_red_to_udd_conversion env g red_ er = .ok (true, ev, g1)) :
    (∀ t : snfee.gg_times,
      (convert_gg_times t).slots = t.slots ∧ (convert_gg_times t).slots.length = 7) ∧
    (∀ rh : snfee.tracker_digitized_hit,
      (convert_tracker_hit rh).geom_id = rh.geom_id ∧
      (convert_tracker_hit rh).times.length = rh.times.length ∧
      (convert_tracker_hit rh).times.map snemo.gg_times.slots
        = rh.times.map snfee.gg_times.slots) ∧
    ∃ udd, ev.UDD = some udd ∧
      (↑(udd.tracker_hits.map snemo.tracker_digitized_hit.content) :
          Multiset (geom_id × List (List gg_slot)))
        = ↑(red_.tracker_hits.map snfee.tracker_digitized_hit.content) := by
  obtain ⟨-, -, hU, -⟩ := conversion_true_inv h
  refine ⟨fun t => ⟨rfl, rfl⟩, ?_, _, hU, ?_⟩
  · intro rh
    rw [convert_tracker_hit_eq]
    simp [Function.comp_def, slots_convert_gg_times]
  · rw [fill_UDD_tracker_hits, Multiset.coe_eq_coe]
    have hp := perm_map_sorted env.sort hsort
      (fun h : snemo.tracker_digitized_hit => env.gg_num h.geom_id)
      (fun h i => { h with hit_id := i }) snemo.tracker_digitized_hit.content
      (fun _ _ => rfl) (red_.tracker_hits.map convert_tracker_hit)
    rw [List.map_map] at hp
    have e : snemo.tracker_digitized_hit.content ∘ convert_tracker_hit
        = snfee.tracker_digitized_hit.content := by
      funext x
      exact content_convert_tracker_hit x
    rw [e] at hp
    exact hp

/-- Witness of C5 on the sample event. -/
theorem C5_tracker_timings_copied_witness :
    (∀ t : snfee.gg_times,
      (convert_gg_times t).slots = t.slots ∧ (convert_gg_times t).slots.length = 7) ∧
    (∀ rh : snfee.tracker_digitized_hit,
      (convert_tracker_hit rh).geom_id = rh.geom_id ∧
      (convert_tracker_hit rh).times.length = rh.times.length ∧
      (convert_tracker_hit rh).times.map snemo.gg_times.slots
        = rh.times.map snfee.gg_times.slots) ∧
    ∃ udd, (sample_record sample_env sample_globals).UDD = some udd ∧
      (↑(udd.tracker_hits.map snemo.tracker_digitized_hit.content) :
          Multiset (geom_id × List (List gg_slot)))
        = ↑(sample_red.tracker_hits.map snfee.tracker_digitized_hit.content) :=
  C5_tracker_timings_copied sample_env sample_globals _ sample_red things.empty _
    stdSortSpec_stable_sort (sample_converts stable_sort false)

/-! ### Order of equivalent elements -/

theorem filter_insert_before {α : Type} (key : α → Int) (k : Int) (x : α) (l : List α) :
    (insert_before (fun a b => decide (key a < key b)) x l).filter (fun b => key b == k)
      = if key x = k then x :: l.filter (fun b => key b == k)
        else l.filter (fun b => key b == k) := by
  induction l with
  | nil => by_cases hx : key x = k <;> simp [insert_before, List.filter_cons, hx]
  | cons y ys ih =>
    unfold insert_before
    by_cases hyx : key y < key x
    · simp only [hyx, decide_True, if_true, List.filter_cons, ih]
      by_cases hx : key x = k
      · have hy : key y ≠ k := by omega
        simp [hx, hy]
      · simp [hx]
    · simp only [hyx, decide_False, Bool.false_eq_true, if_false]
      by_cases hx : key x = k <;> simp [List.filter_cons, hx]

/-- The order-preserving insertion sort is stable. -/
theorem stableOrder_stable_sort {α : Type} (key : α → Int) (l : List α) :
    StableOrder key l (stable_sort α (fun a b => decide (key a < key b)) l) := by
  intro k
  induction l with
  | nil => rfl
  | cons x xs ih =>
    rw [stable_sort, filter_insert_before, ih]
    by_cases hx : key x = k <;> simp [List.filter_cons, hx]

theorem fill_UDD_eq (env : Env) (nw : Bool) (red_ : snfee.raw_event_data) :
    fill_UDD env nw red_ snemo.unified_digitized_data.fresh
      = { run_id := red_.run_id, event_id := red_.event_id,
          reference_timestamp := red_.reference_time.ticks,
          origin_trigger_ids := red_.origin_trigger_ids,
          calorimeter_hits := correct_hit_ids (fun h i => { h with hit_id := i }) 0
            (env.sort _ (calo_less env) (red_.calo_hits.map (convert_calo_hit nw))),
          tracker_hits := correct_hit_ids (fun h i => { h with hit_id := i }) 0
            (env.sort _ (tracker_less env) (red_.tracker_hits.map convert_tracker_hit)) } := by
  simp [fill_UDD, foldl_push_calo, foldl_push_tracker, snemo.unified_digitized_data.fresh]

theorem trigger_vints_foldl (ts : List snfee.trigger_record) (a b c : List Int) :
    ts.foldl
        (fun acc red_trigger_hit =>
          let trigger_id_vint := acc.1 ++ [red_trigger_hit.trigger_id]
          let trigger_decision_vint :=
            acc.2.1 ++ [if red_trigger_hit.trigger_decision then (1 : Int) else 0]
          let progenitor_trigger_id_vint :=
            match red_trigger_hit.progenitor_trigger_id with
            | some p => acc.2.2 ++ [p]
            | none => acc.2.2 ++ [-1]
          (trigger_id_vint, trigger_decision_vint, progenitor_trigger_id_vint))
        (a, b, c)
      = (a ++ ts.map (fun t => t.trigger_id),
         b ++ ts.map (fun t => if t.trigger_decision then (1 : Int) else 0),
         c ++ ts.map (fun t => t.progenitor_trigger_id.getD (-1))) := by
  induction ts generalizing a b c with
  | nil => simp
  | cons t ts ih =>
    rw [List.foldl_cons]
    dsimp only
    cases hp : t.progenitor_trigger_id <;> simp [ih, hp]

theorem trigger_vints_eq (ts : List snfee.trigger_record) :
    trigger_vints ts
      = (ts.map (fun t => t.trigger_id),
         ts.map (fun t => if t.trigger_decision then (1 : Int) else 0),
         ts.map (fun t => t.progenitor_trigger_id.getD (-1))) := by
  unfold trigger_vints
  rw [trigger_vints_foldl]
  simp

theorem lookup_eq_none_of_has_key {p : properties} {key : String}
    (h : p.has_key key = false) : p.lookup key = none := by
  rw [List.lookup_eq_none_iff]
  intro q hq
  simp only [properties.has_key, List.any_eq_false] at h
  have := h q hq
  simp only [beq_iff_eq] at this
  simp only [bne_iff_ne, ne_eq]
  exact fun e => this e.symm

/-! ### GNU libstdc++ `std::sort` on short sequences -/

theorem unguarded_linear_insert_loop_eq {α : Type} (comp : α → α → Bool) (val : α)
    (rev : List α) (x0 : α) (suf : List α) :
    ∃ p1 p2, rev.reverse = p1 ++ p2 ∧ (∀ x ∈ p2, comp val x = true) ∧
      (∀ x ∈ p1.getLast?, comp val x = false) ∧
      unguarded_linear_insert_loop comp val rev.length (rev.reverse ++ x0 :: suf)
        = p1 ++ val :: p2 ++ suf := by
  induction rev generalizing x0 suf with
  | nil => exact ⟨[], [], by simp, by simp, by simp, by simp [unguarded_linear_insert_loop]⟩
  | cons x xs ih =>
    have hget : (((x :: xs).reverse ++ x0 :: suf))[xs.length]? = some x := by
      rw [List.reverse_cons, List.append_assoc, List.getElem?_append_right (by simp)]
      simp
    simp only [List.length_cons, unguarded_linear_insert_loop, hget]
    by_cases hc : comp val x = true
    · simp only [hc, if_true]
      have hset : ((x :: xs).reverse ++ x0 :: suf).set (xs.length + 1) x
          = xs.reverse ++ x :: (x :: suf) := by
        simp [List.set_append]
      rw [hset]
      obtain ⟨p1, p2, e, h2, h1, hr⟩ := ih x (x :: suf)
      refine ⟨p1, p2 ++ [x], ?_, ?_, h1, ?_⟩
      · simp [e]
      · intro y hy
        rcases List.mem_append.mp hy with hy | hy
        · exact h2 y hy
        · simp at hy; rw [hy]; exact hc
      · rw [hr]; simp
    · simp only [hc, Bool.false_eq_true, if_false]
      refine ⟨(x :: xs).reverse, [], by simp, by simp, ?_, ?_⟩
      · intro y hy
        simp at hy
        rw [← hy]
        simpa using hc
      · simp [List.set_append]

theorem insertion_sort_step_eq {α : Type} (key : α → Int) (pre : List α) (val : α)
    (suf : List α) (hs : pre.Pairwise (fun a b => key a ≤ key b)) :
    ∃ p1 p2, pre = p1 ++ p2 ∧ (∀ x ∈ p2, key val < key x) ∧ (∀ x ∈ p1, key x ≤ key val) ∧
      insertion_sort_step (fun a b => decide (key a < key b)) (pre ++ val :: suf) pre.length
        = p1 ++ val :: p2 ++ suf := by
  have hget : (pre ++ val :: suf)[pre.length]? = some val := by
    rw [List.getElem?_append_right (le_refl _)]
    simp
  cases pre with
  | nil =>
    refine ⟨[], [], rfl, by simp, by simp, ?_⟩
    simp [insertion_sort_step, unguarded_linear_insert, unguarded_linear_insert_loop]
  | cons x0 pre =>
    have h0 : (x0 :: pre ++ val :: suf)[0]? = some x0 := by simp
    unfold insertion_sort_step
    rw [hget, h0]
    dsimp only
    by_cases hlt : key val < key x0
    · rw [if_pos (by simpa using hlt)]
      refine ⟨[], x0 :: pre, rfl, ?_, by simp, ?_⟩
      · intro x hx
        rcases List.mem_cons.mp hx with rfl | hx
        · exact hlt
        · have := (List.pairwise_cons.mp hs).1 x hx
          omega
      · have e1 : (x0 :: pre ++ val :: suf).take (x0 :: pre).length = x0 :: pre := by
          rw [List.take_append_of_le_length (le_refl _), List.take_length]
        have e2 : (x0 :: pre ++ val :: suf).drop ((x0 :: pre).length + 1) = suf := by
          rw [List.drop_append_eq_append_drop]
          simp
        rw [e1, e2]
        simp
    · rw [if_neg (by simpa using hlt)]
      unfold unguarded_linear_insert
      rw [hget]
      dsimp only
      obtain ⟨p1, p2, e, h2, h1, hr⟩ := unguarded_linear_insert_loop_eq
        (fun a b => decide (key a < key b)) val (x0 :: pre).reverse val suf
      rw [List.reverse_reverse, List.length_reverse] at hr
      rw [List.reverse_reverse] at e
      refine ⟨p1, p2, e, fun x hx => by simpa using h2 x hx, ?_, hr⟩
      rcases List.eq_nil_or_concat' p1 with rfl | ⟨init, last, rfl⟩
      · simp
      · have hl : key last ≤ key val := by
          have := h1 last (by simp)
          simpa using this
        rw [e] at hs
        have hs1 := (List.pairwise_append.mp (List.pairwise_append.mp hs).1).2.2
        intro x hx
        rcases List.mem_append.mp hx with hx | hx
        · have := hs1 x hx last (by simp)
          omega
        · simp at hx
          rw [hx]
          exact hl

theorem insertion_sort_fold {α : Type} (key : α → Int) (m : Nat) :
    ∀ (s : Nat) (l : List α), s + m ≤ l.length →
      (l.take s).Pairwise (fun a b => key a ≤ key b) →
      ∀ k : Int,
        ((List.range' s m).foldl
            (insertion_sort_step (fun a b => decide (key a < key b))) l).filter
            (fun b => key b == k)
          = l.filter (fun b => key b == k) := by
  induction m with
  | zero => intro s l _ _ k; rfl
  | succ m ih =>
    intro s l hlen hs k
    have hs_lt : s < l.length := by omega
    have hl : l = l.take s ++ l[s] :: l.drop (s + 1) := by
      rw [← List.drop_eq_getElem_cons hs_lt, List.take_append_drop]
    have hts : (l.take s).length = s := by
      rw [List.length_take]; omega
    obtain ⟨p1, p2, e, h2, h1, hr⟩ := insertion_sort_step_eq key (l.take s) l[s]
      (l.drop (s + 1)) hs
    rw [← hl, hts] at hr
    rw [List.range'_succ, List.foldl_cons, hr]
    have hp1 : (p1 ++ p2).length = s := by rw [← e, hts]
    have hlen2 : (p1 ++ l[s] :: p2 ++ l.drop (s + 1)).length = l.length := by
      have := congrArg List.length hl
      rw [e] at this
      simp only [List.length_append, List.length_cons] at this ⊢
      omega
    have htake : (p1 ++ l[s] :: p2 ++ l.drop (s + 1)).take (s + 1) = p1 ++ l[s] :: p2 := by
      have : (p1 ++ l[s] :: p2).length = s + 1 := by
        simp only [List.length_append, List.length_cons] at hp1 ⊢
        omega
      exact List.take_left' this
    rw [ih (s + 1) _ (by rw [hlen2]; omega) ?_ k]
    · conv_rhs => rw [hl, e]
      simp only [List.filter_append, List.filter_cons, List.append_assoc]
      by_cases hk : key l[s] = k
      · have hp2 : p2.filter (fun b => key b == k) = [] := by
          rw [List.filter_eq_nil_iff]
          intro x hx
          have := h2 x hx
          simp only [beq_iff_eq]
          omega
        simp [hk, hp2]
      · simp [hk]
    · rw [htake]
      rw [e] at hs
      obtain ⟨s1, s2, s12⟩ := List.pairwise_append.mp hs
      refine List.pairwise_append.mpr ⟨s1, List.pairwise_cons.mpr ⟨fun x hx => ?_, s2⟩, ?_⟩
      · have := h2 x hx
        omega
      · intro a ha b hb
        rcases List.mem_cons.mp hb with rfl | hb
        · exact h1 a ha
        · exact s12 a ha b hb

/-- On a sequence of at most sixteen elements GNU libstdc++ `std::sort` is the
plain insertion sort, which keeps equivalent elements in their input order. -/
theorem stableOrder_libstdcxx_sort {α : Type} (key : α → Int) (l : List α)
    (h : l.length ≤ 16) :
    StableOrder key l (libstdcxx_sort α (fun a b => decide (key a < key b)) l) := by
  intro k
  unfold libstdcxx_sort
  by_cases h0 : l.length = 0
  · rw [if_pos h0]
  · rw [if_neg h0]
    have hloop : ∀ d, introsort_loop (fun a b => decide (key a < key b)) d l = l := by
      intro d
      cases d <;> simp [introsort_loop, S_threshold, h]
    rw [hloop]
    unfold final_insertion_sort
    rw [if_neg (by simp [S_threshold, h])]
    unfold insertion_sort
    apply insertion_sort_fold key _ 1 l (by omega)
    cases l with
    | nil => simp
    | cons a l => simp

theorem stableOrder_map {α β : Type} (f : α → β) (keyb : β → Int) (l l2 : List α)
    (h : StableOrder (fun a => keyb (f a)) l l2) : StableOrder keyb (l.map f) (l2.map f) := by
  intro k
  have := h k
  rw [List.filter_map, List.filter_map]
  exact congrArg (List.map f) this

/-- C6, as amended: built against GNU libstdc++, the conversion keeps the raw
relative order of equal-ordinal hits in every hit list of at most sixteen hits.
For every converted raw event with at most sixteen calorimeter hits, two hits of
equal optical-module number come out in their raw order, and likewise for at
most sixteen tracker hits and equal Geiger cell numbers. -/
theorem C6_stable_up_to_sixteen_hits (env : Env) (g g1 : globals)
    (red_ : snfee.raw_event_data) (er ev : things)
    (hsort : env.sort = libstdcxx_sort)
    (h : do_red_to_udd_conversion env g red_ er = .ok (true, ev, g1)) :
    ∃ udd, ev.UDD = some udd ∧
      (red_.calo_hits.length ≤ 16 →
        StableOrder (fun c : calo_scalars => env.om_num c.geom_id)
          (red_.calo_hits.map snfee.calo_digitized_hit.scalars)
          (udd.calorimeter_hits.map snemo.calorimeter_digitized_hit.scalars)) ∧
      (red_.tracker_hits.length ≤ 16 →
        StableOrder (fun c : geom_id × List (List gg_slot) => env.gg_num c.1)
          (red_.tracker_hits.map snfee.tracker_digitized_hit.content)
          (udd.tracker_hits.map snemo.tracker_digitized_hit.content)) := by
  obtain ⟨-, -, hU, -⟩ := conversion_true_inv h
  refine ⟨_, hU, fun hc => ?_, fun ht => ?_⟩
  · rw [fill_UDD_calorimeter_hits, map_correct_hit_ids (fun h i => { h with hit_id := i })
      snemo.calorimeter_digitized_hit.scalars (fun _ _ => rfl), hsort]
    have h1 := stableOrder_libstdcxx_sort
      (fun h : snemo.calorimeter_digitized_hit => env.om_num h.geom_id)
      (red_.calo_hits.map (convert_calo_hit g.no_waveform)) (by simpa using hc)
    have h2 := stableOrder_map snemo.calorimeter_digitized_hit.scalars
      (fun c : calo_scalars => env.om_num c.geom_id) _ _ h1
    rw [List.map_map] at h2
    have e : snemo.calorimeter_digitized_hit.scalars ∘ convert_calo_hit g.no_waveform
        = snfee.calo_digitized_hit.scalars := by
      funext x
      exact scalars_convert_calo_hit _ x
    rw [e] at h2
    exact h2
  · rw [fill_UDD_tracker_hits, map_correct_hit_ids (fun h i => { h with hit_id := i })
      snemo.tracker_digitized_hit.content (fun _ _ => rfl), hsort]
    have h1 := stableOrder_libstdcxx_sort
      (fun h : snemo.tracker_digitized_hit => env.gg_num h.geom_id)
      (red_.tracker_hits.map convert_tracker_hit) (by simpa using ht)
    have h2 := stableOrder_map snemo.tracker_digitized_hit.content
      (fun c : geom_id × List (List gg_slot) => env.gg_num c.1) _ _ h1
    rw [List.map_map] at h2
    have e : snemo.tracker_digitized_hit.content ∘ convert_tracker_hit
        = snfee.tracker_digitized_hit.content := by
      funext x
      exact content_convert_tracker_hit x
    rw [e] at h2
    exact h2

theorem sample_tied_converts :
    do_red_to_udd_conversion sample_env_libstdcxx sample_globals sample_red_tied things.empty
      = .ok (true, converted_record sample_env_libstdcxx sample_globals sample_red_tied,
             { sample_globals with
               previous_eh_timestamp :=
                 event_timestamp sample_env_libstdcxx sample_globals sample_red_tied }) := by
  apply conversion_true_of
  · have e : reference_time sample_env_libstdcxx sample_red_tied = 5 / 2 := by
      simp only [reference_time, sample_env_libstdcxx, sample_env, sample_red_tied, sample_red]
      norm_num
    rw [e]
    norm_num [sample_globals]
  · decide

/-- Witness of the amended C6: the sample event, whose calorimeter hits 0 and 2
share optical module 5, converted in the libstdc++ environment. -/
theorem C6_stable_up_to_sixteen_hits_witness :
    ∃ udd, (sample_record sample_env_libstdcxx sample_globals).UDD = some udd ∧
      StableOrder (fun c : calo_scalars => sample_env_libstdcxx.om_num c.geom_id)
        (sample_red.calo_hits.map snfee.calo_digitized_hit.scalars)
        (udd.calorimeter_hits.map snemo.calorimeter_digitized_hit.scalars) ∧
      StableOrder (fun c : geom_id × List (List gg_slot) => sample_env_libstdcxx.gg_num c.1)
        (sample_red.tracker_hits.map snfee.tracker_digitized_hit.content)
        (udd.tracker_hits.map snemo.tracker_digitized_hit.content) :=
  match C6_stable_up_to_sixteen_hits sample_env_libstdcxx sample_globals _ sample_red
      things.empty _ rfl (sample_converts libstdcxx_sort false) with
  | ⟨udd, hU, hc, ht⟩ => ⟨udd, hU, hc (by decide), ht (by decide)⟩

/-- C6 fails as stated: built against GNU libstdc++, an event with seventeen
calorimeter hits in one optical module (fcr 1 to 17 in raw order) converts, and
the normalized hit list carries them in the order fcr 9, 17, 16, 15, 14, 13, 12,
11, 10, 1, 8, 7, 6, 5, 4, 3, 2: the first raw hit comes after the ninth. -/
theorem C6_libstdcxx_reorders_equal_ordinals :
    do_red_to_udd_conversion sample_env_libstdcxx sample_globals sample_red_tied things.empty
      = .ok (true, converted_record sample_env_libstdcxx sample_globals sample_red_tied,
             { sample_globals with
               previous_eh_timestamp :=
                 event_timestamp sample_env_libstdcxx sample_globals sample_red_tied }) ∧
    sample_red_tied.calo_hits.map (fun h => (sample_env_libstdcxx.om_num h.geom_id, h.fcr))
      = [(5, 1), (5, 2), (5, 3), (5, 4), (5, 5), (5, 6), (5, 7), (5, 8), (5, 9), (5, 10),
         (5, 11), (5, 12), (5, 13), (5, 14), (5, 15), (5, 16), (5, 17)] ∧
    ∃ udd, (converted_record sample_env_libstdcxx sample_globals sample_red_tied).UDD
        = some udd ∧
      udd.calorimeter_hits.map (fun h => (sample_env_libstdcxx.om_num h.geom_id, h.fcr))
        = [(5, 9), (5, 17), (5, 16), (5, 15), (5, 14), (5, 13), (5, 12), (5, 11), (5, 10),
           (5, 1), (5, 8), (5, 7), (5, 6), (5, 5), (5, 4), (5, 3), (5, 2)] ∧
      ¬ StableOrder (fun c : calo_scalars => sample_env_libstdcxx.om_num c.geom_id)
          (sample_red_tied.calo_hits.map snfee.calo_digitized_hit.scalars)
          (udd.calorimeter_hits.map snemo.calorimeter_digitized_hit.scalars) := by
  refine ⟨sample_tied_converts, by decide, _, rfl, by decide, ?_⟩
  intro hst
  have h5 := hst 5
  revert h5
  decide

/-- C7: waveform suppression. For every converted raw event, when the
`no_waveform` flag is true every normalized calorimeter hit has no waveform
samples, whatever the raw waveforms were; when the flag is false the normalized
hits paired with their waveforms are, as a multiset, the raw hits (hit id
erased) paired with their waveforms: each hit carries the sample-for-sample
copy of the waveform of the raw hit it was built from. -/
theorem C7_waveform_suppression (env : Env) (g g1 : globals) (red_ : snfee.raw_event_data)
    (er ev : things) (hsort : StdSortSpec env.sort)
    (h : do_red_to_udd_conversion env g red_ er = .ok (true, ev, g1)) :
    ∃ udd, ev.UDD = some udd ∧
      (g.no_waveform = true → ∀ hit ∈ udd.calorimeter_hits, hit.waveform = []) ∧
      (g.no_waveform = false →
        (↑(udd.calorimeter_hits.map (fun hit => (hit.scalars, hit.waveform))) :
            Multiset (calo_scalars × List Int))
          = ↑(red_.calo_hits.map (fun hit => (hit.scalars, hit.waveform)))) := by
  obtain ⟨-, -, hU, -⟩ := conversion_true_inv h
  refine ⟨_, hU, ?_, ?_⟩
  · intro hnw hit hhit
    rw [fill_UDD_calorimeter_hits, hnw] at hhit
    have hp := perm_map_sorted env.sort hsort
      (fun h : snemo.calorimeter_digitized_hit => env.om_num h.geom_id)
      (fun h i => { h with hit_id := i }) (fun h : snemo.calorimeter_digitized_hit => h.waveform)
      (fun _ _ => rfl) (red_.calo_hits.map (convert_calo_hit true))
    have hm := hp.subset (List.mem_map_of_mem (fun h : snemo.calorimeter_digitized_hit =>
      h.waveform) hhit)
    rw [List.map_map, List.mem_map] at hm
    obtain ⟨raw, -, hraw⟩ := hm
    exact hraw.symm
  · intro hnw
    rw [fill_UDD_calorimeter_hits, hnw, Multiset.coe_eq_coe]
    have hp := perm_map_sorted env.sort hsort
      (fun h : snemo.calorimeter_digitized_hit => env.om_num h.geom_id)
      (fun h i => { h with hit_id := i })
      (fun h : snemo.calorimeter_digitized_hit => (h.scalars, h.waveform))
      (fun _ _ => rfl) (red_.calo_hits.map (convert_calo_hit false))
    rw [List.map_map] at hp
    exact hp

/-- Witness of C7 on the sample event, once with waveform suppression and once
without. -/
theorem C7_waveform_suppression_witness :
    (∃ udd, (sample_record sample_env sample_globals_no_waveform).UDD = some udd ∧
      ∀ hit ∈ udd.calorimeter_hits, hit.waveform = []) ∧
    (∃ udd, (sample_record sample_env sample_globals).UDD = some udd ∧
      (↑(udd.calorimeter_hits.map (fun hit => (hit.scalars, hit.waveform))) :
          Multiset (calo_scalars × List Int))
        = ↑(sample_red.calo_hits.map (fun hit => (hit.scalars, hit.waveform)))) :=
  ⟨(C7_waveform_suppression sample_env sample_globals_no_waveform _ sample_red things.empty _
      stdSortSpec_stable_sort (sample_converts stable_sort true)).imp
      (fun _ hu => ⟨hu.1, hu.2.1 rfl⟩),
   (C7_waveform_suppression sample_env sample_globals _ sample_red things.empty _
      stdSortSpec_stable_sort (sample_converts stable_sort false)).imp
      (fun _ hu => ⟨hu.1, hu.2.2 rfl⟩)⟩

/-- C8: trigger-array alignment. For every converted raw event with `k` trigger
sub-records, the header properties `trigger_id`, `trigger_decision` and
`progenitor_trigger_id` are integer arrays of length exactly `k`; entry `i` of
each comes from sub-record `i`, and `progenitor_trigger_id[i]` is the
sub-record's progenitor trigger id when it has one and -1 otherwise. -/
theorem C8_trigger_arrays_aligned (env : Env) (g g1 : globals) (red_ : snfee.raw_event_data)
    (er ev : things)
    (h : do_red_to_udd_conversion env g red_ er = .ok (true, ev, g1)) :
    ∃ eh ids decisions progenitors, ev.EH = some eh ∧
      eh.properties.fetch "trigger_id" = some (.vint ids) ∧
      eh.properties.fetch "trigger_decision" = some (.vint decisions) ∧
      eh.properties.fetch "progenitor_trigger_id" = some (.vint progenitors) ∧
      ids.length = red_.trigger_records.length ∧
      decisions.length = red_.trigger_records.length ∧
      progenitors.length = red_.trigger_records.length ∧
      ids = red_.trigger_records.map (fun t => t.trigger_id) ∧
      decisions = red_.trigger_records.map (fun t => if t.trigger_decision then 1 else 0) ∧
      progenitors = red_.trigger_records.map (fun t =>
        match t.progenitor_trigger_id with
        | some p => p
        | none => -1) := by
  obtain ⟨-, hE, -, -, hk⟩ := conversion_true_inv h
  have k2 := lookup_eq_none_of_has_key (hk "trigger_id" (by simp [reserved_keys]))
  have k3 := lookup_eq_none_of_has_key (hk "trigger_decision" (by simp [reserved_keys]))
  have k4 := lookup_eq_none_of_has_key (hk "progenitor_trigger_id" (by simp [reserved_keys]))
  refine ⟨_, _, _, _, hE, ?_, ?_, ?_, ?_, ?_, ?_, rfl, rfl, rfl⟩
  · simp only [converted_EH, properties.fetch, List.lookup_append, k2, trigger_vints_eq]
    simp [List.lookup_cons]
  · simp only [converted_EH, properties.fetch, List.lookup_append, k3, trigger_vints_eq]
    simp [List.lookup_cons]
  · simp only [converted_EH, properties.fetch, List.lookup_append, k4, trigger_vints_eq]
    simp [List.lookup_cons]
    intro t _
    cases t.progenitor_trigger_id <;> rfl
  · simp
  · simp
  · simp

/-- Witness of C8 on the sample event (two trigger sub-records, the first
without progenitor). -/
theorem C8_trigger_arrays_aligned_witness :
    ∃ eh ids decisions progenitors,
      (sample_record sample_env sample_globals).EH = some eh ∧
      eh.properties.fetch "trigger_id" = some (.vint ids) ∧
      eh.properties.fetch "trigger_decision" = some (.vint decisions) ∧
      eh.properties.fetch "progenitor_trigger_id" = some (.vint progenitors) ∧
      ids.length = sample_red.trigger_records.length ∧
      decisions.length = sample_red.trigger_records.length ∧
      progenitors.length = sample_red.trigger_records.length ∧
      ids = sample_red.trigger_records.map (fun t => t.trigger_id) ∧
      decisions = sample_red.trigger_records.map
        (fun t => if t.trigger_decision then 1 else 0) ∧
      progenitors = sample_red.trigger_records.map (fun t =>
        match t.progenitor_trigger_id with
        | some p => p
        | none => -1) :=
  C8_trigger_arrays_aligned sample_env sample_globals _ sample_red things.empty _
    (sample_converts stable_sort false)

theorem sample_reference_time_at (secs : Int) :
    reference_time sample_env (sample_red_at secs) = (secs : ℚ) := by
  simp only [reference_time, sample_env, sample_red_at, sample_red]
  push_cast
  ring

theorem Converted.length_eq {env : Env} {g g2 : globals} {reds : List snfee.raw_event_data}
    {evs : List things} (h : Converted env g reds evs g2) : evs.length = reds.length := by
  induction h with
  | nil => rfl
  | cons _ _ ih => simp [ih]

/-- The loop run from any state on a stream that starts with raw records inside
the time window followed by one beyond it. -/
theorem main_loop_until_stop (env : Env) (data_count : Nat) (red_j : snfee.raw_event_data)
    (rest : List stream_record) (reds : List snfee.raw_event_data) (st : loop_state)
    (hcount : st.red_counter + reds.length < data_count)
    (hfirst : ∀ r ∈ reds, reference_time env r ≤ st.g.run_end_time)
    (hkeys : ∀ r ∈ reds, ∀ k ∈ reserved_keys, r.auxiliaries.has_key k = false)
    (hj : reference_time env red_j > st.g.run_end_time) :
    ∃ evs g2, Converted env st.g reds evs g2 ∧
      main_loop env data_count (reds.map .red ++ .red red_j :: rest) st
        = .ok { red_counter := st.red_counter + reds.length + 1,
                udd_counter := st.udd_counter + reds.length,
                written := st.written ++ evs, g := g2, unread := rest } := by
  induction reds generalizing st with
  | nil =>
    refine ⟨[], st.g, Converted.nil _, ?_⟩
    have hc : st.red_counter < data_count := by simpa using hcount
    simp [main_loop, hc, conversion_false_of hj]
  | cons r reds ih =>
    have hc : st.red_counter < data_count := by
      simp only [List.length_cons] at hcount
      omega
    have hconv := conversion_true_of (hfirst r (by simp)) (hkeys r (by simp))
    obtain ⟨evs, g2, hC, hmain⟩ := ih
      { red_counter := st.red_counter + 1, udd_counter := st.udd_counter + 1,
        written := st.written ++ [converted_record env st.g r],
        g := { st.g with previous_eh_timestamp := event_timestamp env st.g r },
        unread := reds.map .red ++ .red red_j :: rest }
      (by simp only [List.length_cons] at hcount; simp only; omega)
      (fun x hx => hfirst x (by simp [hx]))
      (fun x hx => hkeys x (by simp [hx]))
      hj
    refine ⟨converted_record env st.g r :: evs, g2, Converted.cons hconv hC, ?_⟩
    have step : main_loop env data_count
        (stream_record.red r :: (reds.map .red ++ .red red_j :: rest)) st
        = main_loop env data_count (reds.map .red ++ .red red_j :: rest)
            { red_counter := st.red_counter + 1, udd_counter := st.udd_counter + 1,
              written := st.written ++ [converted_record env st.g r],
              g := { st.g with previous_eh_timestamp := event_timestamp env st.g r },
              unread := reds.map .red ++ .red red_j :: rest } := by
      rw [main_loop]
      simp only [hc, if_true]
      rw [hconv]
      rfl
    rw [List.map_cons, List.cons_append, step, hmain]
    simp only [List.length_cons, List.append_assoc, List.singleton_append]
    congr 2 <;> omega

/-- A call that returns false leaves a record holding the header filled up to
its timestamp and an empty data bank, and leaves the global variables as they
were, whatever record it was called on. -/
theorem conversion_false_inv_full {env : Env} {g g1 : globals} {red_ : snfee.raw_event_data}
    {er ev : things} (h : do_red_to_udd_conversion env g red_ er = .ok (false, ev, g1)) :
    ev = { EH := some (fill_event_header env g red_ snemo.event_header.fresh),
           UDD := some snemo.unified_digitized_data.fresh } ∧ g1 = g := by
  unfold do_red_to_udd_conversion at h
  split at h
  · cases h
  · split at h
    · cases h
    · dsimp only at h
      split at h
      · cases h
        exact ⟨rfl, rfl⟩
      · split at h
        · cases h
        · split at h
          · cases h
          · cases h

/-! ### The floor split of the event time -/

theorem event_timestamp_seconds (env : Env) (g : globals) (red_ : snfee.raw_event_data) :
    (event_timestamp env g red_).seconds = ⌊event_time env g red_⌋ := rfl

theorem event_timestamp_picoseconds (env : Env) (g : globals) (red_ : snfee.raw_event_data) :
    (event_timestamp env g red_).picoseconds
      = ⌊(1000000000000 : ℚ) * (event_time env g red_ - (⌊event_time env g red_⌋ : ℚ))⌋ := rfl

/-- The split timestamp of an event whose time is known: whole seconds `s` and
picoseconds `p` are characterised by the two floor brackets. -/
theorem event_timestamp_eq_of (env : Env) (g : globals) (red_ : snfee.raw_event_data)
    (t : ℚ) (s p : Int) (ht : event_time env g red_ = t)
    (hs : (s : ℚ) ≤ t ∧ t < (s : ℚ) + 1)
    (hp : (p : ℚ) ≤ 1000000000000 * (t - (s : ℚ))
      ∧ 1000000000000 * (t - (s : ℚ)) < (p : ℚ) + 1) :
    event_timestamp env g red_ = { seconds := s, picoseconds := p } := by
  have h1 : (event_timestamp env g red_).seconds = s := by
    rw [event_timestamp_seconds, ht]
    exact Int.floor_eq_iff.mpr hs
  have h2 : (event_timestamp env g red_).picoseconds = p := by
    rw [event_timestamp_picoseconds, ht, Int.floor_eq_iff.mpr hs]
    exact Int.floor_eq_iff.mpr hp
  cases hts : event_timestamp env g red_ with
  | mk sec psec =>
    rw [hts] at h1 h2
    simp only at h1 h2
    rw [h1, h2]

/-! ### The header properties of a converted event -/

theorem fetch_deltat_converted_EH (env : Env) (g : globals) (red_ : snfee.raw_event_data)
    (hk : ∀ k ∈ reserved_keys, red_.auxiliaries.has_key k = false) :
    (converted_EH env g red_).properties.fetch "deltat_previous_event"
      = some (.real (deltat_previous_event g.previous_eh_timestamp
                (event_timestamp env g red_) * env.second)) := by
  have k1 := lookup_eq_none_of_has_key (hk "deltat_previous_event" (by simp [reserved_keys]))
  simp only [converted_EH, properties.fetch, List.lookup_append, k1]
  simp [List.lookup_cons]

theorem has_key_eq_true_iff (p : properties) (key : String) :
    p.has_key key = true ↔ key ∈ p.map (fun kv => kv.1) := by
  simp [properties.has_key]

/-- C13: the first event converted in a run has stored delta 0. The run starts
with the carried previous timestamp in its invalid state, and when the carried
previous timestamp is in that state a successful conversion stores
`deltat_previous_event = 0` whatever the event's timestamp is. -/
theorem C13_first_event_delta_zero (env : Env) (g g1 : globals) (red_ : snfee.raw_event_data)
    (er ev : things) (hprev : g.previous_eh_timestamp = snemo.timestamp.invalid)
    (h : do_red_to_udd_conversion env g red_ er = .ok (true, ev, g1)) :
    (∀ o : options, (initial_globals o).previous_eh_timestamp = snemo.timestamp.invalid) ∧
    ∃ eh, ev.EH = some eh ∧
      eh.properties.fetch "deltat_previous_event" = some (.real 0) := by
  obtain ⟨-, hE, -, -, hk⟩ := conversion_true_inv h
  refine ⟨fun _ => rfl, _, hE, ?_⟩
  rw [fetch_deltat_converted_EH env g red_ hk, hprev]
  have e : deltat_previous_event snemo.timestamp.invalid (event_timestamp env g red_) = 0 := by
    unfold deltat_previous_event
    rw [if_neg (by decide)]
  rw [e, zero_mul]

/-- Witness of C13: the sample event converted from the initial globals of a run
with sync epoch 1000 s. -/
theorem C13_first_event_delta_zero_witness :
    (∀ o : options, (initial_globals o).previous_eh_timestamp = snemo.timestamp.invalid) ∧
    ∃ eh, (sample_record sample_env sample_globals).EH = some eh ∧
      eh.properties.fetch "deltat_previous_event" = some (.real 0) :=
  C13_first_event_delta_zero sample_env sample_globals _ sample_red things.empty _ rfl
    (sample_converts stable_sort false)

/-- C15, as amended: a call of the converter that returns true leaves the
carried previous timestamp equal to the current event's timestamp (and the
other global variables as they were); a call that returns false, rejecting the
event because its reference time exceeds the end-time bound, leaves all global
variables, the carried previous timestamp included, exactly as they were. -/
theorem C15_carry_updated_on_success_only (env : Env) (g g1 : globals)
    (red_ : snfee.raw_event_data) (er ev : things) (b : Bool)
    (h : do_red_to_udd_conversion env g red_ er = .ok (b, ev, g1)) :
    (b = true → g1 = { g with previous_eh_timestamp := event_timestamp env g red_ }) ∧
    (b = false → g1 = g ∧ reference_time env red_ > g.run_end_time) := by
  constructor
  · intro hb
    subst hb
    exact (conversion_true_inv h).2.2.2.1
  · intro hb
    subst hb
    exact ⟨(conversion_false_inv_full h).2, conversion_false_inv h⟩

/-- Witness of the amended C15: the sample event (2.5 s) is converted and its
timestamp becomes the carried one; the sample event at 12 s is rejected and the
global variables stay as they were. -/
theorem C15_carry_updated_on_success_only_witness :
    sample_globals_after sample_env sample_globals
        = { sample_globals with
            previous_eh_timestamp := event_timestamp sample_env sample_globals sample_red } ∧
    (sample_globals = sample_globals
      ∧ reference_time sample_env (sample_red_at 12) > sample_globals.run_end_time) :=
  have hgt : reference_time sample_env (sample_red_at 12) > sample_globals.run_end_time := by
    rw [sample_reference_time_at]
    norm_num [sample_globals]
  ⟨(C15_carry_updated_on_success_only sample_env sample_globals _ sample_red things.empty _
      true (sample_converts stable_sort false)).1 rfl,
   (C15_carry_updated_on_success_only sample_env sample_globals _ (sample_red_at 12)
      things.empty _ false (conversion_false_of hgt)).2 rfl⟩

/-- C15 fails as stated: the call on the sample event at 12 s (bound 10 s, sync
epoch 1000 s, no previous timestamp) returns false and leaves the carried
previous timestamp invalid, while the rejected event's timestamp is
(1012 s, 0 ps). -/
theorem C15_carry_not_updated_on_rejection :
    ∃ ev g1, do_red_to_udd_conversion sample_env sample_globals (sample_red_at 12) things.empty
        = .ok (false, ev, g1) ∧
      event_timestamp sample_env sample_globals (sample_red_at 12)
        = { seconds := 1012, picoseconds := 0 } ∧
      g1.previous_eh_timestamp = snemo.timestamp.invalid ∧
      g1.previous_eh_timestamp ≠ event_timestamp sample_env sample_globals (sample_red_at 12) := by
  have hts : event_timestamp sample_env sample_globals (sample_red_at 12)
      = { seconds := 1012, picoseconds := 0 } := by
    apply event_timestamp_eq_of _ _ _ 1012
    · rw [event_time, sample_reference_time_at]
      norm_num [sample_globals]
    · norm_num
    · norm_num
  have hgt : reference_time sample_env (sample_red_at 12) > sample_globals.run_end_time := by
    rw [sample_reference_time_at]
    norm_num [sample_globals]
  refine ⟨_, _, conversion_false_of hgt, hts, rfl, ?_⟩
  rw [hts]
  decide

/-- C17: identity propagation. For every converted raw event, the header's run
number and event number and the data bank's run id and event id equal the raw
run id and event id, the header's generation tag is "real", the data bank's
reference timestamp equals the raw reference tick count, and the data bank's
set of origin trigger ids equals the raw set of origin trigger ids. -/
theorem C17_identity_propagation (env : Env) (g g1 : globals) (red_ : snfee.raw_event_data)
    (er ev : things)
    (h : do_red_to_udd_conversion env g red_ er = .ok (true, ev, g1)) :
    ∃ eh udd, ev.EH = some eh ∧ ev.UDD = some udd ∧
      eh.run_number = red_.run_id ∧ eh.event_number = red_.event_id ∧
      udd.run_id = red_.run_id ∧ udd.event_id = red_.event_id ∧
      eh.generation = snemo.generation_type.GENERATION_REAL ∧
      udd.reference_timestamp = red_.reference_time.ticks ∧
      udd.origin_trigger_ids = red_.origin_trigger_ids := by
  obtain ⟨-, hE, hU, -⟩ := conversion_true_inv h
  refine ⟨_, _, hE, hU, rfl, rfl, ?_, ?_, rfl, ?_, ?_⟩ <;> rw [fill_UDD_eq]

/-- Witness of C17 on the sample event (run 1, event 7, 400000000 ticks, trigger
ids 3 and 4). -/
theorem C17_identity_propagation_witness :
    ∃ eh udd, (sample_record sample_env sample_globals).EH = some eh ∧
      (sample_record sample_env sample_globals).UDD = some udd ∧
      eh.run_number = sample_red.run_id ∧ eh.event_number = sample_red.event_id ∧
      udd.run_id = sample_red.run_id ∧ udd.event_id = sample_red.event_id ∧
      eh.generation = snemo.generation_type.GENERATION_REAL ∧
      udd.reference_timestamp = sample_red.reference_time.ticks ∧
      udd.origin_trigger_ids = sample_red.origin_trigger_ids :=
  C17_identity_propagation sample_env sample_globals _ sample_red things.empty _
    (sample_converts stable_sort false)

/-- C18: auxiliary bag propagation. For every converted raw event, the header's
property bag is the raw auxiliary bag followed by the four entries stored under
`deltat_previous_event`, `trigger_id`, `trigger_decision` and
`progenitor_trigger_id`: it contains every key/value pair of the raw bag
unchanged, a lookup of a raw key gives the raw value, and its key set is exactly
the raw bag's keys together with the four fixed keys. The raw bag of a
converted event uses none of the four keys. -/
theorem C18_auxiliaries_propagated (env : Env) (g g1 : globals) (red_ : snfee.raw_event_data)
    (er ev : things)
    (h : do_red_to_udd_conversion env g red_ er = .ok (true, ev, g1)) :
    ∃ eh, ev.EH = some eh ∧
      (∃ stored, eh.properties = red_.auxiliaries ++ stored
        ∧ stored.map (fun kv => kv.1) = reserved_keys) ∧
      (∀ kv ∈ red_.auxiliaries, kv ∈ eh.properties) ∧
      (∀ k v, red_.auxiliaries.fetch k = some v → eh.properties.fetch k = some v) ∧
      (∀ k, eh.properties.has_key k = true
        ↔ (red_.auxiliaries.has_key k = true ∨ k ∈ reserved_keys)) ∧
      (∀ k ∈ reserved_keys, red_.auxiliaries.has_key k = false) := by
  obtain ⟨-, hE, -, -, hk⟩ := conversion_true_inv h
  refine ⟨_, hE, ⟨_, rfl, rfl⟩, ?_, ?_, ?_, hk⟩
  · intro kv hkv
    simp [converted_EH, hkv]
  · intro k v hkv
    simp only [properties.fetch] at hkv
    simp [converted_EH, properties.fetch, List.lookup_append, hkv]
  · intro k
    simp only [has_key_eq_true_iff, converted_EH, List.map_append, List.mem_append]
    rfl

/-- Witness of C18 on the sample event, whose auxiliary bag holds one key. -/
theorem C18_auxiliaries_propagated_witness :
    ∃ eh, (sample_record sample_env sample_globals).EH = some eh ∧
      (∃ stored, eh.properties = sample_red.auxiliaries ++ stored
        ∧ stored.map (fun kv => kv.1) = reserved_keys) ∧
      (∀ kv ∈ sample_red.auxiliaries, kv ∈ eh.properties) ∧
      (∀ k v, sample_red.auxiliaries.fetch k = some v → eh.properties.fetch k = some v) ∧
      (∀ k, eh.properties.has_key k = true
        ↔ (sample_red.auxiliaries.has_key k = true ∨ k ∈ reserved_keys)) ∧
      (∀ k ∈ reserved_keys, sample_red.auxiliaries.has_key k = false) :=
  C18_auxiliaries_propagated sample_env sample_globals _ sample_red things.empty _
    (sample_converts stable_sort false)

/-! ### The delta to the previous event -/

theorem event_time_congr (env : Env) (g g2 : globals) (red_ : snfee.raw_event_data)
    (h : g2.run_sync_time = g.run_sync_time) :
    event_time env g2 red_ = event_time env g red_ := by
  unfold event_time
  rw [h]

/-- C11, as amended: with end-time bound 10 s and a non-zero sync epoch, an
input file of three events with reference times 3 s, 7 s and 12 s (and a maximum
event count above 2), `main` exits with code 0 after writing exactly two
records, the conversions of the first two events in input order; the third
record is read and handed to the converter, which rejects it, and the loop
stops there. (A sync epoch of 0 counts as missing: `main` then exits with code 1
before reading any record.) -/
theorem C11_worked_run (env : Env) (o : options) (r1 r2 r3 : snfee.raw_event_data)
    (hin : o.input_filename ≠ "") (hsync : o.run_sync_time ≠ 0)
    (hend : o.run_end_time = 10) (hcount : 2 < o.data_count)
    (h1 : reference_time env r1 = 3) (h2 : reference_time env r2 = 7)
    (h3 : reference_time env r3 = 12)
    (hk1 : ∀ k ∈ reserved_keys, r1.auxiliaries.has_key k = false)
    (hk2 : ∀ k ∈ reserved_keys, r2.auxiliaries.has_key k = false) :
    ∃ evs g2, Converted env (initial_globals o) [r1, r2] evs g2 ∧ evs.length = 2 ∧
      main env o [.red r1, .red r2, .red r3]
        = { error_code := 0,
            end_state := some { red_counter := 3, udd_counter := 2, written := evs,
                                g := g2, unread := [] } } := by
  obtain ⟨evs, g2, hC, hmain⟩ := main_loop_until_stop env o.data_count r3 [] [r1, r2]
    (initial_state (initial_globals o) [.red r1, .red r2, .red r3])
    (by simpa [initial_state] using hcount)
    (by
      intro r hr
      simp only [List.mem_cons, List.mem_singleton, List.not_mem_nil, or_false] at hr
      rcases hr with rfl | rfl
      · rw [h1]
        norm_num [initial_state, initial_globals, hend]
      · rw [h2]
        norm_num [initial_state, initial_globals, hend])
    (by
      intro r hr
      simp only [List.mem_cons, List.mem_singleton, List.not_mem_nil, or_false] at hr
      rcases hr with rfl | rfl
      · exact hk1
      · exact hk2)
    (by
      rw [h3]
      norm_num [initial_state, initial_globals, hend])
  refine ⟨evs, g2, hC, hC.length_eq, ?_⟩
  have hmain2 : main_loop env o.data_count [.red r1, .red r2, .red r3]
      (initial_state (initial_globals o) [.red r1, .red r2, .red r3])
      = .ok { red_counter := 3, udd_counter := 2, written := evs, g := g2, unread := [] } := by
    simpa [initial_state] using hmain
  simp only [main, hin, hsync, if_false, hmain2]

/-- Witness of the amended C11: sync epoch 1000 s, the sample events at 3 s, 7 s
and 12 s. -/
theorem C11_worked_run_witness :
    ∃ evs g2, Converted sample_env (initial_globals (sample_options 1000))
        [sample_red_at 3, sample_red_at 7] evs g2 ∧ evs.length = 2 ∧
      main sample_env (sample_options 1000)
          [.red (sample_red_at 3), .red (sample_red_at 7), .red (sample_red_at 12)]
        = { error_code := 0,
            end_state := some { red_counter := 3, udd_counter := 2, written := evs,
                                g := g2, unread := [] } } :=
  C11_worked_run sample_env (sample_options 1000) (sample_red_at 3) (sample_red_at 7)
    (sample_red_at 12) (by decide) (by norm_num [sample_options]) rfl (by decide)
    (by rw [sample_reference_time_at]; norm_num)
    (by rw [sample_reference_time_at]; norm_num)
    (by rw [sample_reference_time_at]; norm_num)
    (by decide) (by decide)

/-- C11 fails as stated: with sync epoch 0 (end-time bound 10 s, events at 3 s,
7 s and 12 s), `main` takes the sync epoch for missing, exits with code 1 and
never enters the loop: no record is read or written. -/
theorem C11_sync_epoch_zero_rejected :
    (sample_options 0).run_end_time = 10 ∧ (sample_options 0).run_sync_time = 0 ∧
    reference_time sample_env (sample_red_at 3) = 3 ∧
    reference_time sample_env (sample_red_at 7) = 7 ∧
    reference_time sample_env (sample_red_at 12) = 12 ∧
    main sample_env (sample_options 0)
        [.red (sample_red_at 3), .red (sample_red_at 7), .red (sample_red_at 12)]
      = { error_code := 1, end_state := none } := by
  refine ⟨rfl, rfl, ?_, ?_, ?_, ?_⟩
  · rw [sample_reference_time_at]
    norm_num
  · rw [sample_reference_time_at]
    norm_num
  · rw [sample_reference_time_at]
    norm_num
  · simp [main, sample_options]

/-! ### The record a rejecting call leaves -/

/-- A call that returns was made on a record holding neither bank: otherwise
`add` raises. -/
theorem conversion_ok_record_empty {env : Env} {g g1 : globals} {red_ : snfee.raw_event_data}
    {er ev : things} {b : Bool}
    (h : do_red_to_udd_conversion env g red_ er = .ok (b, ev, g1)) :
    er.EH = none ∧ er.UDD = none := by
  cases hE : er.EH with
  | some x =>
    simp [do_red_to_udd_conversion, things.add_EH, hE] at h
  | none =>
    cases hU : er.UDD with
    | some y =>
      simp [do_red_to_udd_conversion, things.add_EH, things.add_UDD, hE, hU] at h
    | none => exact ⟨rfl, rfl⟩

/-- C21: rejection is not atomic on the caller's record. When the converter
signals stop (returns false) for an event beyond the end-time bound, the record
the caller provided, which held neither bank, has received an EH bank with run
number, event number, generation tag and timestamp set and with an empty
property bag (no delta, no trigger arrays, no auxiliary entries), and a UDD bank
as default-constructed: no ids copied, no origin trigger ids, no hits. The
global variables, the carried previous timestamp among them, are exactly as they
were before the call. -/
theorem C21_rejection_leaves_banks (env : Env) (g g1 : globals) (red_ : snfee.raw_event_data)
    (er ev : things)
    (h : do_red_to_udd_conversion env g red_ er = .ok (false, ev, g1)) :
    reference_time env red_ > g.run_end_time ∧
    er.EH = none ∧ er.UDD = none ∧
    ∃ eh udd, ev.EH = some eh ∧ ev.UDD = some udd ∧
      eh.run_number = red_.run_id ∧ eh.event_number = red_.event_id ∧
      eh.generation = snemo.generation_type.GENERATION_REAL ∧
      eh.timestamp = event_timestamp env g red_ ∧
      eh.properties = [] ∧
      (∀ k ∈ reserved_keys, eh.properties.fetch k = none) ∧
      udd = snemo.unified_digitized_data.fresh ∧
      udd.origin_trigger_ids = [] ∧ udd.calorimeter_hits = [] ∧ udd.tracker_hits = [] ∧
      g1 = g ∧ g1.previous_eh_timestamp = g.previous_eh_timestamp := by
  obtain ⟨hE, hU⟩ := conversion_ok_record_empty h
  obtain ⟨hev, hg⟩ := conversion_false_inv_full h
  subst hev
  subst hg
  exact ⟨conversion_false_inv h, hE, hU, _, _, rfl, rfl, rfl, rfl, rfl, rfl, rfl,
    fun _ _ => rfl, rfl, rfl, rfl, rfl, rfl, rfl⟩

/-- Witness of C21: the sample event at 12 s (run 1, event 7) rejected at bound
10 s with sync epoch 1000 s and no previous timestamp. -/
theorem C21_rejection_leaves_banks_witness :
    reference_time sample_env (sample_red_at 12) > sample_globals.run_end_time ∧
    things.empty.EH = none ∧ things.empty.UDD = none ∧
    ∃ eh udd,
      (({ EH := some (fill_event_header sample_env sample_globals (sample_red_at 12)
                        snemo.event_header.fresh),
          UDD := some snemo.unified_digitized_data.fresh } : things).EH = some eh) ∧
      (({ EH := some (fill_event_header sample_env sample_globals (sample_red_at 12)
                        snemo.event_header.fresh),
          UDD := some snemo.unified_digitized_data.fresh } : things).UDD = some udd) ∧
      eh.run_number = (sample_red_at 12).run_id ∧
      eh.event_number = (sample_red_at 12).event_id ∧
      eh.generation = snemo.generation_type.GENERATION_REAL ∧
      eh.timestamp = event_timestamp sample_env sample_globals (sample_red_at 12) ∧
      eh.properties = [] ∧
      (∀ k ∈ reserved_keys, eh.properties.fetch k = none) ∧
      udd = snemo.unified_digitized_data.fresh ∧
      udd.origin_trigger_ids = [] ∧ udd.calorimeter_hits = [] ∧ udd.tracker_hits = [] ∧
      sample_globals = sample_globals ∧
      sample_globals.previous_eh_timestamp = sample_globals.previous_eh_timestamp :=
  have hgt : reference_time sample_env (sample_red_at 12) > sample_globals.run_end_time := by
    rw [sample_reference_time_at]
    norm_num [sample_globals]
  C21_rejection_leaves_banks sample_env sample_globals _ (sample_red_at 12) things.empty _
    (conversion_false_of hgt)

/-! ## The timing arithmetic in double precision -/

/-! ### Rounding to the nearest integer -/

theorem round_half_even_bounds (y : ℚ) :
    y - 1 / 2 ≤ (round_half_even y : ℚ) ∧ (round_half_even y : ℚ) ≤ y + 1 / 2 := by
  have h1 := Int.floor_le y
  have h2 := Int.lt_floor_add_one y
  unfold round_half_even
  split_ifs with a b c
  · constructor <;> linarith
  · push_cast
    constructor <;> linarith
  · have : y - (⌊y⌋ : ℚ) = 1 / 2 := le_antisymm (not_lt.mp b) (not_lt.mp a)
    constructor <;> linarith
  · have : y - (⌊y⌋ : ℚ) = 1 / 2 := le_antisymm (not_lt.mp b) (not_lt.mp a)
    push_cast
    constructor <;> linarith

theorem round_half_even_intCast (n : Int) : round_half_even (n : ℚ) = n := by
  unfold round_half_even
  rw [Int.floor_intCast, sub_self, if_pos (by norm_num)]

theorem round_half_even_le (y : ℚ) (N : Int) (h : y ≤ N) : round_half_even y ≤ N := by
  have h1 := (round_half_even_bounds y).2
  have h2 : (round_half_even y : ℚ) < ((N + 1 : Int) : ℚ) := by
    push_cast
    linarith
  have h3 : round_half_even y < N + 1 := by exact_mod_cast h2
  omega

theorem le_round_half_even (y : ℚ) (N : Int) (h : (N : ℚ) ≤ y) : N ≤ round_half_even y := by
  have h1 := (round_half_even_bounds y).1
  have h2 : ((N - 1 : Int) : ℚ) < (round_half_even y : ℚ) := by
    push_cast
    linarith
  have h3 : N - 1 < round_half_even y := by exact_mod_cast h2
  omega

theorem round_half_even_lt (y : ℚ) (N : Int) (h : y < (N : ℚ) - 1 / 2) :
    round_half_even y < N := by
  have h1 := (round_half_even_bounds y).2
  have h2 : (round_half_even y : ℚ) < (N : ℚ) := by linarith
  exact_mod_cast h2

theorem round_half_even_eq_of (y : ℚ) (m : Int) (h1 : (m : ℚ) - 1 / 2 < y)
    (h2 : y < (m : ℚ) + 1 / 2) : round_half_even y = m := by
  have hb := round_half_even_bounds y
  have a : ((m - 1 : Int) : ℚ) < (round_half_even y : ℚ) := by
    push_cast
    linarith
  have b : (round_half_even y : ℚ) < ((m + 1 : Int) : ℚ) := by
    push_cast
    linarith
  have a2 : m - 1 < round_half_even y := by exact_mod_cast a
  have b2 : round_half_even y < m + 1 := by exact_mod_cast b
  omega

/-! ### The binary64 grid -/

theorem binary64_ulp_pos (x : ℚ) : 0 < binary64_ulp x := by
  unfold binary64_ulp
  exact zpow_pos (by norm_num) _

theorem binary64_exponent_ge (x : ℚ) : -1022 ≤ binary64_exponent x := by
  unfold binary64_exponent
  split_ifs
  · exact le_refl _
  · exact le_max_right _ _

/-- Every number lies below the upper end of its binade. -/
theorem abs_lt_two_zpow_exponent (x : ℚ) : |x| < (2 : ℚ) ^ (binary64_exponent x + 1) := by
  unfold binary64_exponent
  split_ifs with h0
  · rw [h0, abs_zero]
    exact zpow_pos (by norm_num) _
  · have h1 := Int.lt_zpow_succ_log_self (b := 2) (by norm_num) |x|
    have h2 : ((2 : ℕ) : ℚ) ^ (Int.log 2 |x| + 1)
        ≤ (2 : ℚ) ^ (max (Int.log 2 |x|) (-1022) + 1) := by
      rw [Nat.cast_ofNat]
      exact zpow_le_zpow_right₀ (by norm_num) (by have := le_max_left (Int.log 2 |x|) (-1022); omega)
    exact lt_of_lt_of_le h1 h2

/-- A number above the subnormal range lies above the lower end of its binade. -/
theorem two_zpow_exponent_le_abs (x : ℚ) (h : -1022 < binary64_exponent x) :
    (2 : ℚ) ^ binary64_exponent x ≤ |x| := by
  unfold binary64_exponent at h ⊢
  split_ifs at h ⊢ with h0
  · omega
  · have hlog : max (Int.log 2 |x|) (-1022) = Int.log 2 |x| := by
      rcases le_total (Int.log 2 |x|) (-1022) with hl | hl
      · rw [max_eq_right hl] at h
        omega
      · exact max_eq_left hl
    rw [hlog]
    have := Int.zpow_log_le_self (b := 2) (by norm_num) (abs_pos.mpr h0)
    rw [Nat.cast_ofNat] at this
    exact this

/-- The binade of a number below `2 ^ k`. -/
theorem binary64_exponent_le (x : ℚ) (k : Int) (h : |x| < (2 : ℚ) ^ k) :
    binary64_exponent x ≤ max (k - 1) (-1022) := by
  unfold binary64_exponent
  split_ifs with h0
  · exact le_max_right _ _
  · have h1 : Int.log 2 |x| < k := by
      rw [← Int.lt_zpow_iff_log_lt (by norm_num) (abs_pos.mpr h0), Nat.cast_ofNat]
      exact h
    apply max_le
    · exact le_trans (by omega) (le_max_left _ _)
    · exact le_max_right _ _

/-- The binade of a number at or above `2 ^ k`. -/
theorem le_binary64_exponent (x : ℚ) (k : Int) (h : (2 : ℚ) ^ k ≤ |x|) :
    k ≤ binary64_exponent x := by
  have h0 : x ≠ 0 := by
    intro e
    rw [e, abs_zero] at h
    exact absurd h (not_le.mpr (zpow_pos (by norm_num) _))
  unfold binary64_exponent
  rw [if_neg h0]
  have h1 : k ≤ Int.log 2 |x| := by
    rw [← Int.zpow_le_iff_le_log (by norm_num) (abs_pos.mpr h0), Nat.cast_ofNat]
    exact h
  exact le_trans h1 (le_max_left _ _)

/-- Rounding moves a number by at most half the spacing of its binade. -/
theorem fl64_error (x : ℚ) : |fl64 x - x| ≤ binary64_ulp x / 2 := by
  have hu := binary64_ulp_pos x
  have hb := round_half_even_bounds (x / binary64_ulp x)
  have e : fl64 x - x
      = ((round_half_even (x / binary64_ulp x) : ℚ) - x / binary64_ulp x) * binary64_ulp x := by
    unfold fl64
    field_simp
  rw [e, abs_mul, abs_of_pos hu]
  have h1 : |(round_half_even (x / binary64_ulp x) : ℚ) - x / binary64_ulp x| ≤ 1 / 2 := by
    rw [abs_le]
    constructor <;> linarith
  calc |(round_half_even (x / binary64_ulp x) : ℚ) - x / binary64_ulp x| * binary64_ulp x
      ≤ 1 / 2 * binary64_ulp x := mul_le_mul_of_nonneg_right h1 hu.le
    _ = binary64_ulp x / 2 := by ring

theorem binary64_ulp_half (x : ℚ) :
    binary64_ulp x / 2 = (2 : ℚ) ^ (binary64_exponent x - 53) := by
  unfold binary64_ulp
  rw [show binary64_exponent x - 53 = (binary64_exponent x - 52) - 1 by ring,
    zpow_sub_one₀ (by norm_num : (2 : ℚ) ≠ 0)]
  ring

/-- Rounding error of a number below `2 ^ k`. -/
theorem fl64_error_of_lt (x : ℚ) (k : Int) (h : |x| < (2 : ℚ) ^ k) :
    |fl64 x - x| ≤ (2 : ℚ) ^ (max (k - 1) (-1022) - 53) := by
  have h1 := fl64_error x
  rw [binary64_ulp_half] at h1
  have h2 := binary64_exponent_le x k h
  exact le_trans h1 (zpow_le_zpow_right₀ (by norm_num) (by omega))

/-- Relative rounding error: at most `2^-53` of the magnitude, or half the
subnormal spacing. -/
theorem fl64_rel_error (x : ℚ) :
    |fl64 x - x| ≤ |x| / 2 ^ 53 + 1 / 2 ^ 1075 := by
  have h1 := fl64_error x
  rw [binary64_ulp_half] at h1
  have hx : 0 ≤ |x| := abs_nonneg x
  by_cases he : binary64_exponent x = -1022
  · rw [he] at h1
    have e : (2 : ℚ) ^ ((-1022 : Int) - 53) = 1 / 2 ^ 1075 := by
      rw [show ((-1022 : Int) - 53) = -((1075 : ℕ) : Int) by norm_num, zpow_neg, zpow_natCast]
      simp
    rw [e] at h1
    have : 0 ≤ |x| / 2 ^ 53 := by positivity
    linarith
  · have hgt : -1022 < binary64_exponent x := by
      have := binary64_exponent_ge x
      omega
    have h2 := two_zpow_exponent_le_abs x hgt
    have e : (2 : ℚ) ^ (binary64_exponent x - 53) = (2 : ℚ) ^ binary64_exponent x / 2 ^ 53 := by
      rw [zpow_sub₀ (by norm_num : (2 : ℚ) ≠ 0)]
      norm_num
    rw [e] at h1
    have h3 : (2 : ℚ) ^ binary64_exponent x / 2 ^ 53 ≤ |x| / 2 ^ 53 :=
      div_le_div_of_nonneg_right h2 (by positivity)
    have : (0 : ℚ) ≤ 1 / 2 ^ 1075 := by positivity
    linarith

/-- Relative rounding error of a number in the normal range. -/
theorem fl64_rel_error_normal (x : ℚ) (h : (2 : ℚ) ^ (-1022 : Int) ≤ |x|) :
    |fl64 x - x| ≤ |x| / 2 ^ 53 := by
  have h1 := fl64_error x
  rw [binary64_ulp_half] at h1
  have hx : x ≠ 0 := by
    intro e
    rw [e, abs_zero] at h
    exact absurd h (not_le.mpr (zpow_pos (by norm_num) _))
  have hlog : binary64_exponent x = Int.log 2 |x| := by
    unfold binary64_exponent
    rw [if_neg hx]
    apply max_eq_left
    rw [← Int.zpow_le_iff_le_log (by norm_num) (abs_pos.mpr hx), Nat.cast_ofNat]
    exact h
  have h2 : (2 : ℚ) ^ binary64_exponent x ≤ |x| := by
    rw [hlog]
    have := Int.zpow_log_le_self (b := 2) (by norm_num) (abs_pos.mpr hx)
    rw [Nat.cast_ofNat] at this
    exact this
  have e : (2 : ℚ) ^ (binary64_exponent x - 53) = (2 : ℚ) ^ binary64_exponent x / 2 ^ 53 := by
    rw [zpow_sub₀ (by norm_num : (2 : ℚ) ≠ 0)]
    norm_num
  rw [e] at h1
  exact le_trans h1 (div_le_div_of_nonneg_right h2 (by positivity))

/-- A power of two at or above the spacing of `x` is a whole multiple of it. -/
theorem two_zpow_eq_mul_ulp (x : ℚ) (j : Int) (hj : binary64_exponent x - 52 ≤ j) :
    (2 : ℚ) ^ j
      = (((2 : Int) ^ (j - (binary64_exponent x - 52)).toNat : Int) : ℚ) * binary64_ulp x := by
  unfold binary64_ulp
  push_cast
  rw [← zpow_natCast, ← zpow_add₀ (by norm_num : (2 : ℚ) ≠ 0)]
  congr 1
  rw [Int.toNat_of_nonneg (by omega)]
  ring

/-- Rounding does not cross a point of the grid of `x`: upper bounds. -/
theorem fl64_le_of_le (x : ℚ) (N j : Int) (hj : binary64_exponent x - 52 ≤ j)
    (h : x ≤ (N : ℚ) * (2 : ℚ) ^ j) : fl64 x ≤ (N : ℚ) * (2 : ℚ) ^ j := by
  have hu := binary64_ulp_pos x
  rw [two_zpow_eq_mul_ulp x j hj, ← mul_assoc, ← Int.cast_mul] at h ⊢
  have h1 : x / binary64_ulp x ≤ ((N * 2 ^ (j - (binary64_exponent x - 52)).toNat : Int) : ℚ) := by
    rw [div_le_iff₀ hu]
    exact h
  have h2 := round_half_even_le _ _ h1
  unfold fl64
  exact mul_le_mul_of_nonneg_right (by exact_mod_cast h2) hu.le

/-- Rounding does not cross a point of the grid of `x`: lower bounds. -/
theorem le_fl64_of_le (x : ℚ) (N j : Int) (hj : binary64_exponent x - 52 ≤ j)
    (h : (N : ℚ) * (2 : ℚ) ^ j ≤ x) : (N : ℚ) * (2 : ℚ) ^ j ≤ fl64 x := by
  have hu := binary64_ulp_pos x
  rw [two_zpow_eq_mul_ulp x j hj, ← mul_assoc, ← Int.cast_mul] at h ⊢
  have h1 : ((N * 2 ^ (j - (binary64_exponent x - 52)).toNat : Int) : ℚ) ≤ x / binary64_ulp x := by
    rw [le_div_iff₀ hu]
    exact h
  have h2 := le_round_half_even _ _ h1
  unfold fl64
  exact mul_le_mul_of_nonneg_right (by exact_mod_cast h2) hu.le

theorem fl64_nonneg (x : ℚ) (h : 0 ≤ x) : 0 ≤ fl64 x := by
  have := le_fl64_of_le x 0 (binary64_exponent x - 52) (le_refl _) (by simpa using h)
  simpa using this

theorem fl64_nonpos (x : ℚ) (h : x ≤ 0) : fl64 x ≤ 0 := by
  have := fl64_le_of_le x 0 (binary64_exponent x - 52) (le_refl _) (by simpa using h)
  simpa using this

/-- A whole multiple of a power of two at or above the spacing of its own
binade is a binary64 number. -/
theorem fl64_eq_self_of (m q : Int)
    (h : binary64_exponent ((m : ℚ) * (2 : ℚ) ^ q) - 52 ≤ q) :
    fl64 ((m : ℚ) * (2 : ℚ) ^ q) = (m : ℚ) * (2 : ℚ) ^ q := by
  apply le_antisymm
  · exact fl64_le_of_le _ m q h (le_refl _)
  · exact le_fl64_of_le _ m q h (le_refl _)

/-- The binary64 numbers: significand of at most 53 bits, exponent at least
that of the subnormal numbers. -/
theorem fl64_eq_self (m q : Int) (hq : -1074 ≤ q) (hm : |m| ≤ 2 ^ 53) :
    fl64 ((m : ℚ) * (2 : ℚ) ^ q) = (m : ℚ) * (2 : ℚ) ^ q := by
  have h2q : (0 : ℚ) < (2 : ℚ) ^ q := zpow_pos (by norm_num) _
  by_cases hlt : |m| < 2 ^ 53
  · apply fl64_eq_self_of
    have hb : |(m : ℚ) * (2 : ℚ) ^ q| < (2 : ℚ) ^ (q + 53) := by
      rw [abs_mul, abs_of_pos h2q, zpow_add₀ (by norm_num : (2 : ℚ) ≠ 0), mul_comm]
      apply mul_lt_mul_of_pos_left _ h2q
      have : ((|m| : Int) : ℚ) < ((2 ^ 53 : Int) : ℚ) := by exact_mod_cast hlt
      rw [Int.cast_abs] at this
      norm_num at this ⊢
      exact this
    have := binary64_exponent_le _ _ hb
    rw [show q + 53 - 1 = q + 52 by ring, max_eq_left (by omega)] at this
    omega
  · have he : |m| = 2 ^ 53 := le_antisymm hm (not_lt.mp hlt)
    have hs : ∃ s : Int, |s| = 1 ∧ m = s * 2 ^ 53 := by
      rcases abs_choice m with h | h
      · exact ⟨1, by simp, by rw [← h, he]; ring⟩
      · refine ⟨-1, by simp, ?_⟩
        have : -m = 2 ^ 53 := by rw [← h, he]
        omega
    obtain ⟨s, hs1, hs2⟩ := hs
    have ex : (m : ℚ) * (2 : ℚ) ^ q = (s : ℚ) * (2 : ℚ) ^ (q + 53) := by
      rw [hs2, zpow_add₀ (by norm_num : (2 : ℚ) ≠ 0)]
      push_cast
      norm_num
      ring
    rw [ex]
    apply fl64_eq_self_of
    have hb : |(s : ℚ) * (2 : ℚ) ^ (q + 53)| < (2 : ℚ) ^ (q + 54) := by
      rw [abs_mul, abs_of_pos (zpow_pos (by norm_num : (0 : ℚ) < 2) _), ← Int.cast_abs, hs1]
      simp only [Int.cast_one, one_mul]
      exact zpow_lt_zpow_right₀ (by norm_num) (by omega)
    have := binary64_exponent_le _ _ hb
    rw [show q + 54 - 1 = q + 53 by ring, max_eq_left (by omega)] at this
    omega

/-- The result of rounding is a binary64 number. -/
theorem fl64_grid (x : ℚ) :
    ∃ m q : Int, -1074 ≤ q ∧ |m| ≤ 2 ^ 53 ∧ fl64 x = (m : ℚ) * (2 : ℚ) ^ q := by
  have hu := binary64_ulp_pos x
  refine ⟨round_half_even (x / binary64_ulp x), binary64_exponent x - 52,
    by have := binary64_exponent_ge x; omega, ?_, rfl⟩
  have hlt := abs_lt_two_zpow_exponent x
  have e : (2 : ℚ) ^ (binary64_exponent x + 1) = 2 ^ 53 * binary64_ulp x := by
    unfold binary64_ulp
    rw [← zpow_natCast, ← zpow_add₀ (by norm_num : (2 : ℚ) ≠ 0)]
    congr 1
    push_cast
    ring
  rw [e, abs_lt] at hlt
  rw [abs_le]
  constructor
  · have := le_round_half_even (x / binary64_ulp x) (-(2 ^ 53)) (by
      rw [le_div_iff₀ hu]
      push_cast
      linarith)
    exact this
  · apply round_half_even_le
    rw [div_le_iff₀ hu]
    push_cast
    linarith

theorem fl64_idempotent (x : ℚ) : fl64 (fl64 x) = fl64 x := by
  obtain ⟨m, q, hq, hm, e⟩ := fl64_grid x
  rw [e]
  exact fl64_eq_self m q hq hm

theorem fl64_intCast (n : Int) (h : |n| ≤ 2 ^ 53) : fl64 (n : ℚ) = n := by
  have := fl64_eq_self n 0 (by norm_num) h
  simpa using this

theorem fl64_zero : fl64 0 = 0 := by
  have := fl64_intCast 0 (by norm_num)
  simpa using this

/-! ### Floor and fractional part of a binary64 number -/

/-- The floor of a binary64 number is a binary64 number. -/
theorem fl64_floor (x : ℚ) : fl64 ((⌊fl64 x⌋ : Int) : ℚ) = ((⌊fl64 x⌋ : Int) : ℚ) := by
  obtain ⟨m, q, hq, hm, e⟩ := fl64_grid x
  rcases le_or_lt 0 q with h0 | h0
  · have hT : fl64 x = ((m * 2 ^ q.toNat : Int) : ℚ) := by
      rw [e]
      push_cast
      rw [← zpow_natCast, Int.toNat_of_nonneg h0]
    have hf : ((⌊fl64 x⌋ : Int) : ℚ) = fl64 x := by
      rw [hT, Int.floor_intCast]
    rw [hf, fl64_idempotent]
  · apply fl64_intCast
    have h2q : (2 : ℚ) ^ q ≤ 1 / 2 := by
      have := zpow_le_zpow_right₀ (by norm_num : (1 : ℚ) ≤ 2) (show q ≤ -1 by omega)
      simpa using this
    have h2p : (0 : ℚ) < (2 : ℚ) ^ q := zpow_pos (by norm_num) _
    have hmq : |(m : ℚ)| ≤ 2 ^ 53 := by
      have : ((|m| : Int) : ℚ) ≤ ((2 ^ 53 : Int) : ℚ) := by exact_mod_cast hm
      rw [Int.cast_abs] at this
      norm_num at this ⊢
      exact this
    have hT : |fl64 x| ≤ 2 ^ 52 := by
      rw [e, abs_mul, abs_of_pos h2p]
      calc |(m : ℚ)| * (2 : ℚ) ^ q ≤ 2 ^ 53 * (1 / 2) :=
            mul_le_mul hmq h2q h2p.le (by positivity)
        _ = 2 ^ 52 := by norm_num
    rw [abs_le] at hT
    have f1 := Int.floor_le (fl64 x)
    have f2 := Int.lt_floor_add_one (fl64 x)
    rw [abs_le]
    constructor
    · have : ((-(2 ^ 53) - 1 : Int) : ℚ) < ((⌊fl64 x⌋ : Int) : ℚ) := by
        push_cast
        linarith
      have : -(2 ^ 53) - 1 < ⌊fl64 x⌋ := by exact_mod_cast this
      omega
    · have : ((⌊fl64 x⌋ : Int) : ℚ) ≤ ((2 ^ 53 : Int) : ℚ) := by
        push_cast
        linarith
      exact_mod_cast this

/-- The fractional part of a non-negative binary64 number is a binary64 number,
at most the largest one below 1. -/
theorem fl64_fract (x : ℚ) (hx : 0 ≤ fl64 x) :
    fl64 (fl64 x - ((⌊fl64 x⌋ : Int) : ℚ)) = fl64 x - ((⌊fl64 x⌋ : Int) : ℚ) ∧
    fl64 x - ((⌊fl64 x⌋ : Int) : ℚ) ≤ 1 - 1 / 2 ^ 53 := by
  obtain ⟨m, q, hq, hm, e⟩ := fl64_grid x
  rcases le_or_lt 0 q with h0 | h0
  · have hT : fl64 x = ((m * 2 ^ q.toNat : Int) : ℚ) := by
      rw [e]
      push_cast
      rw [← zpow_natCast, Int.toNat_of_nonneg h0]
    have hf : ((⌊fl64 x⌋ : Int) : ℚ) = fl64 x := by
      rw [hT, Int.floor_intCast]
    rw [hf, sub_self]
    exact ⟨fl64_zero, by norm_num⟩
  · have h2p : (0 : ℚ) < (2 : ℚ) ^ q := zpow_pos (by norm_num) _
    have hk : (2 : ℚ) ^ q * 2 ^ (-q).toNat = 1 := by
      rw [← zpow_natCast, Int.toNat_of_nonneg (by omega), ← zpow_add₀ (by norm_num : (2 : ℚ) ≠ 0)]
      simp
    have f1 := Int.floor_le (fl64 x)
    have f2 := Int.lt_floor_add_one (fl64 x)
    have hfl : 0 ≤ ⌊fl64 x⌋ := Int.floor_nonneg.mpr hx
    have hfq : (0 : ℚ) ≤ ((⌊fl64 x⌋ : Int) : ℚ) := by exact_mod_cast hfl
    have hm0 : 0 ≤ m := by
      have : (0 : ℚ) ≤ (m : ℚ) := by
        rw [e] at hx
        exact nonneg_of_mul_nonneg_left hx h2p
      exact_mod_cast this
    have hmq : (m : ℚ) ≤ 2 ^ 53 := by
      have : (m : ℚ) ≤ ((2 ^ 53 : Int) : ℚ) := by exact_mod_cast (le_trans (le_abs_self m) hm)
      norm_num at this ⊢
      exact this
    have hpk : (0 : ℚ) < 2 ^ (-q).toNat := by positivity
    -- the fractional part is `r * 2 ^ q` for an integer `r`
    have hd : fl64 x - ((⌊fl64 x⌋ : Int) : ℚ)
        = ((m - ⌊fl64 x⌋ * 2 ^ (-q).toNat : Int) : ℚ) * (2 : ℚ) ^ q := by
      push_cast
      rw [sub_mul, mul_assoc, mul_comm ((2 : ℚ) ^ (-q).toNat) ((2 : ℚ) ^ q), hk, mul_one, ← e]
    have hr0 : 0 ≤ m - ⌊fl64 x⌋ * 2 ^ (-q).toNat := by
      have : (0 : ℚ) ≤ ((m - ⌊fl64 x⌋ * 2 ^ (-q).toNat : Int) : ℚ) := by
        have h1 : 0 ≤ fl64 x - ((⌊fl64 x⌋ : Int) : ℚ) := by linarith
        rw [hd] at h1
        exact nonneg_of_mul_nonneg_left h1 h2p
      exact_mod_cast this
    have hrm : m - ⌊fl64 x⌋ * 2 ^ (-q).toNat ≤ m := by
      have : 0 ≤ ⌊fl64 x⌋ * 2 ^ (-q).toNat := mul_nonneg hfl (by positivity)
      omega
    have hrk : ((m - ⌊fl64 x⌋ * 2 ^ (-q).toNat : Int) : ℚ) < 2 ^ (-q).toNat := by
      have h1 : fl64 x - ((⌊fl64 x⌋ : Int) : ℚ) < 1 := by linarith
      rw [hd] at h1
      have h2 := mul_lt_mul_of_pos_right h1 hpk
      rw [mul_assoc, hk, mul_one, one_mul] at h2
      exact h2
    constructor
    · rw [hd]
      apply fl64_eq_self _ _ hq
      rw [abs_of_nonneg hr0]
      exact le_trans hrm (le_trans (le_abs_self m) hm)
    · rw [hd]
      have h2q : (2 : ℚ) ^ q = 1 / 2 ^ (-q).toNat := by
        rw [eq_div_iff (ne_of_gt hpk)]
        exact hk
      rw [h2q, mul_one_div]
      rcases le_or_lt (-q).toNat 53 with hk53 | hk53
      · have hri : m - ⌊fl64 x⌋ * 2 ^ (-q).toNat ≤ 2 ^ (-q).toNat - 1 := by
          have : m - ⌊fl64 x⌋ * 2 ^ (-q).toNat < 2 ^ (-q).toNat := by exact_mod_cast hrk
          omega
        have hrq : ((m - ⌊fl64 x⌋ * 2 ^ (-q).toNat : Int) : ℚ) ≤ 2 ^ (-q).toNat - 1 := by
          exact_mod_cast hri
        have hpow : (2 : ℚ) ^ (-q).toNat ≤ 2 ^ 53 :=
          pow_le_pow_right₀ (by norm_num) hk53
        rw [div_le_iff₀ hpk]
        have : (1 : ℚ) / 2 ^ 53 * 2 ^ (-q).toNat ≤ 1 := by
          rw [one_div, inv_mul_le_iff₀ (by positivity)]
          linarith
        linarith
      · have hpow : (2 : ℚ) ^ 54 ≤ 2 ^ (-q).toNat :=
          pow_le_pow_right₀ (by norm_num) hk53
        rw [div_le_iff₀ hpk]
        have hrq : ((m - ⌊fl64 x⌋ * 2 ^ (-q).toNat : Int) : ℚ) ≤ 2 ^ 53 :=
          le_trans (by exact_mod_cast hrm) hmq
        norm_num at hpow hrq ⊢
        linarith

/-! ### Finite results and `int64_t` conversions -/

theorem binary64_eq_some {x r : ℚ} (h : binary64 x = some r) : r = fl64 x := by
  unfold binary64 at h
  split_ifs at h
  exact (Option.some.inj h).symm

theorem binary64_of_abs_le (x : ℚ) (h : |x| ≤ 2 ^ 1023) : binary64 x = some (fl64 x) := by
  unfold binary64
  rw [if_pos]
  have hlt : |x| < (2 : ℚ) ^ (1024 : Int) := by
    have : (2 : ℚ) ^ (1023 : ℕ) < (2 : ℚ) ^ (1024 : Int) := by
      rw [← zpow_natCast]
      exact zpow_lt_zpow_right₀ (by norm_num) (by norm_num)
    exact lt_of_le_of_lt h this
  have he := binary64_exponent_le x 1024 hlt
  rw [max_eq_left (by norm_num)] at he
  rw [abs_le] at h
  have e1023 : ((1 : Int) : ℚ) * (2 : ℚ) ^ (1023 : Int) = 2 ^ 1023 := by
    rw [Int.cast_one, one_mul, ← zpow_natCast]
    rfl
  have en1023 : ((-1 : Int) : ℚ) * (2 : ℚ) ^ (1023 : Int) = -(2 ^ 1023) := by
    rw [Int.cast_neg, Int.cast_one, neg_one_mul, ← zpow_natCast]
    rfl
  have u1 := fl64_le_of_le x 1 1023 (by omega) (by rw [e1023]; exact h.2)
  have u2 := le_fl64_of_le x (-1) 1023 (by omega) (by rw [en1023]; exact h.1)
  rw [e1023] at u1
  rw [en1023] at u2
  rw [abs_lt]
  constructor
  · have : (-(2 : ℚ) ^ 1024) < -(2 ^ 1023) := by norm_num
    linarith
  · have : (2 : ℚ) ^ 1023 < 2 ^ 1024 := by norm_num
    linarith

theorem int64_eq_some {n z : Int} (h : int64 n = some z) :
    z = n ∧ -(2 ^ 63) ≤ n ∧ n < 2 ^ 63 := by
  unfold int64 at h
  split_ifs at h with hr
  exact ⟨(Option.some.inj h).symm, hr.1, hr.2⟩

theorem int64_of_range (n : Int) (h1 : -(2 ^ 63) ≤ n) (h2 : n < 2 ^ 63) : int64 n = some n := by
  unfold int64
  rw [if_pos ⟨h1, h2⟩]

/-! ### The split of the event time in binary64 -/

/-- What a defined event timestamp is made of: the whole seconds are the floor
of the binary64 event time `T`, within `int64_t`, and the picoseconds are the
floor of the rounded product of `1E12` and the rounded difference. -/
theorem event_timestamp_binary64_eq_some {sync R : ℚ} {ts : snemo.timestamp}
    (h : event_timestamp_binary64 sync R = some ts) :
    ∃ T, event_time_binary64 sync R = some T ∧ T = fl64 (sync + R) ∧
      ts.seconds = ⌊T⌋ ∧ -(2 ^ 63) ≤ ⌊T⌋ ∧ ⌊T⌋ < 2 ^ 63 ∧
      ts.picoseconds = ⌊fl64 (1000000000000 * fl64 (T - ((⌊T⌋ : Int) : ℚ)))⌋ := by
  unfold event_timestamp_binary64 at h
  split at h
  · cases h
  · rename_i T hT
    split at h
    · cases h
    · rename_i s hs
      split at h
      · cases h
      · rename_i sd hsd
        split at h
        · cases h
        · rename_i d hd
          split at h
          · cases h
          · rename_i x hx
            split at h
            · cases h
            · rename_i p hp
              have eT : T = fl64 (sync + R) := binary64_eq_some hT
              obtain ⟨es, r1, r2⟩ := int64_eq_some hs
              have esd : sd = ((⌊T⌋ : Int) : ℚ) := by
                rw [binary64_eq_some hsd, es, eT, fl64_floor]
              have ed := binary64_eq_some hd
              have ex := binary64_eq_some hx
              obtain ⟨ep, -, -⟩ := int64_eq_some hp
              cases h
              refine ⟨T, hT, eT, es, r1, r2, ?_⟩
              rw [ep, ex, ed, esd]

theorem fract_bounds (T : ℚ) : 0 ≤ T - ((⌊T⌋ : Int) : ℚ) ∧ T - ((⌊T⌋ : Int) : ℚ) < 1 := by
  have f1 := Int.floor_le T
  have f2 := Int.lt_floor_add_one T
  constructor <;> linarith

/-- The rounded fractional part lies in `[0, 1]` and within `2^-54` of the
exact one. -/
theorem fl64_fract_bounds (T : ℚ) :
    0 ≤ fl64 (T - ((⌊T⌋ : Int) : ℚ)) ∧ fl64 (T - ((⌊T⌋ : Int) : ℚ)) ≤ 1 ∧
    |fl64 (T - ((⌊T⌋ : Int) : ℚ)) - (T - ((⌊T⌋ : Int) : ℚ))| ≤ 1 / 2 ^ 54 := by
  obtain ⟨f1, f2⟩ := fract_bounds T
  have hlt : |T - ((⌊T⌋ : Int) : ℚ)| < (2 : ℚ) ^ (0 : Int) := by
    rw [abs_of_nonneg f1]
    simpa using f2
  have he := binary64_exponent_le _ 0 hlt
  rw [max_eq_left (by norm_num)] at he
  refine ⟨fl64_nonneg _ f1, ?_, ?_⟩
  · have := fl64_le_of_le (T - ((⌊T⌋ : Int) : ℚ)) 1 0 (by omega) (by simpa using f2.le)
    simpa using this
  · have := fl64_error_of_lt _ 0 hlt
    rw [max_eq_left (by norm_num)] at this
    have e : (2 : ℚ) ^ ((0 : Int) - 1 - 53) = 1 / 2 ^ 54 := by
      rw [show ((0 : Int) - 1 - 53) = -((54 : ℕ) : Int) by norm_num, zpow_neg, zpow_natCast]
      simp
    rw [e] at this
    exact this

/-- The rounded product of `1E12` and a number of `[0, 1]` lies in `[0, 1E12]`
and within `2^-14` of the exact product. -/
theorem fl64_psec_bounds (d : ℚ) (h0 : 0 ≤ d) (h1 : d ≤ 1) :
    0 ≤ fl64 (1000000000000 * d) ∧ fl64 (1000000000000 * d) ≤ 1000000000000 ∧
    |fl64 (1000000000000 * d) - 1000000000000 * d| ≤ 1 / 2 ^ 14 := by
  have hp : (0 : ℚ) ≤ 1000000000000 * d := by positivity
  have hle : 1000000000000 * d ≤ 1000000000000 := by linarith
  have hlt : |1000000000000 * d| < (2 : ℚ) ^ (40 : Int) := by
    rw [abs_of_nonneg hp]
    have : (2 : ℚ) ^ (40 : Int) = 1099511627776 := by norm_num
    rw [this]
    linarith
  have he := binary64_exponent_le _ 40 hlt
  rw [max_eq_left (by norm_num)] at he
  refine ⟨fl64_nonneg _ hp, ?_, ?_⟩
  · have := fl64_le_of_le (1000000000000 * d) 1000000000000 0 (by omega) (by simpa using hle)
    simpa using this
  · have := fl64_error_of_lt _ 40 hlt
    rw [max_eq_left (by norm_num)] at this
    have e : (2 : ℚ) ^ ((40 : Int) - 1 - 53) = 1 / 2 ^ 14 := by
      rw [show ((40 : Int) - 1 - 53) = -((14 : ℕ) : Int) by norm_num, zpow_neg, zpow_natCast]
      simp
    rw [e] at this
    exact this

/-- The picoseconds the program computes lie in `[0, 10^12]`, whatever the
event time. -/
theorem picoseconds_binary64_range (T : ℚ) :
    0 ≤ ⌊fl64 (1000000000000 * fl64 (T - ((⌊T⌋ : Int) : ℚ)))⌋ ∧
    ⌊fl64 (1000000000000 * fl64 (T - ((⌊T⌋ : Int) : ℚ)))⌋ ≤ 1000000000000 := by
  obtain ⟨d0, d1, -⟩ := fl64_fract_bounds T
  obtain ⟨x0, x1, -⟩ := fl64_psec_bounds _ d0 d1
  constructor
  · exact Int.floor_nonneg.mpr x0
  · have := Int.floor_le (fl64 (1000000000000 * fl64 (T - ((⌊T⌋ : Int) : ℚ))))
    have h : ((⌊fl64 (1000000000000 * fl64 (T - ((⌊T⌋ : Int) : ℚ)))⌋ : Int) : ℚ)
        ≤ ((1000000000000 : Int) : ℚ) := by
      push_cast
      linarith
    exact_mod_cast h

/-- For a non-negative binary64 event time the picoseconds stay below `10^12`. -/
theorem picoseconds_binary64_lt (x : ℚ) (hx : 0 ≤ fl64 x) :
    ⌊fl64 (1000000000000 * fl64 (fl64 x - ((⌊fl64 x⌋ : Int) : ℚ)))⌋ < 1000000000000 := by
  obtain ⟨e, hd⟩ := fl64_fract x hx
  obtain ⟨f1, f2⟩ := fract_bounds (fl64 x)
  rw [e]
  obtain ⟨-, -, herr⟩ := fl64_psec_bounds _ f1 f2.le
  rw [abs_le] at herr
  rw [Int.floor_lt]
  push_cast
  norm_num at hd herr ⊢
  linarith

theorem split_arith (T s d x p e : ℚ) (hd : |d - (T - s)| ≤ e)
    (hx : |x - 1000000000000 * d| ≤ 1 / 2 ^ 14) (p1 : p ≤ x) (p2 : x < p + 1) :
    -(e + 1 / (2 ^ 14 * 10 ^ 12)) ≤ T - (s + p * (1 / 1000000000000)) ∧
    T - (s + p * (1 / 1000000000000)) < 1 / 10 ^ 12 + e + 1 / (2 ^ 14 * 10 ^ 12) := by
  rw [abs_le] at hd hx
  obtain ⟨hd1, hd2⟩ := hd
  obtain ⟨hx1, hx2⟩ := hx
  norm_num at hx1 hx2 ⊢
  constructor <;> linarith

/-- The time a timestamp of the program stands for, against the binary64 event
time `T` it was split from. -/
theorem split_binary64_bounds (T : ℚ) :
    -(1 / 2 ^ 54 + 1 / (2 ^ 14 * 10 ^ 12))
      ≤ T - (((⌊T⌋ : Int) : ℚ)
          + ((⌊fl64 (1000000000000 * fl64 (T - ((⌊T⌋ : Int) : ℚ)))⌋ : Int) : ℚ)
            * (1 / 1000000000000)) ∧
    T - (((⌊T⌋ : Int) : ℚ)
          + ((⌊fl64 (1000000000000 * fl64 (T - ((⌊T⌋ : Int) : ℚ)))⌋ : Int) : ℚ)
            * (1 / 1000000000000))
      < 1 / 10 ^ 12 + 1 / 2 ^ 54 + 1 / (2 ^ 14 * 10 ^ 12) := by
  obtain ⟨d0, d1, derr⟩ := fl64_fract_bounds T
  obtain ⟨-, -, xerr⟩ := fl64_psec_bounds _ d0 d1
  exact split_arith T _ _ _ _ _ derr xerr (Int.floor_le _) (Int.lt_floor_add_one _)

/-- The same bounds for a non-negative binary64 event time, whose fractional
part is exact. -/
theorem split_binary64_bounds_nonneg (x : ℚ) (hx : 0 ≤ fl64 x) :
    -(1 / (2 ^ 14 * 10 ^ 12))
      ≤ fl64 x - (((⌊fl64 x⌋ : Int) : ℚ)
          + ((⌊fl64 (1000000000000 * fl64 (fl64 x - ((⌊fl64 x⌋ : Int) : ℚ)))⌋ : Int) : ℚ)
            * (1 / 1000000000000)) ∧
    fl64 x - (((⌊fl64 x⌋ : Int) : ℚ)
          + ((⌊fl64 (1000000000000 * fl64 (fl64 x - ((⌊fl64 x⌋ : Int) : ℚ)))⌋ : Int) : ℚ)
            * (1 / 1000000000000))
      < 1 / 10 ^ 12 + 1 / (2 ^ 14 * 10 ^ 12) := by
  obtain ⟨e, -⟩ := fl64_fract x hx
  obtain ⟨d0, d1, -⟩ := fl64_fract_bounds (fl64 x)
  obtain ⟨-, -, xerr⟩ := fl64_psec_bounds _ d0 d1
  have derr : |fl64 (fl64 x - ((⌊fl64 x⌋ : Int) : ℚ)) - (fl64 x - ((⌊fl64 x⌋ : Int) : ℚ))|
      ≤ 0 := by
    rw [e, sub_self, abs_zero]
  have := split_arith (fl64 x) _ _ _ _ 0 derr xerr (Int.floor_le _) (Int.lt_floor_add_one _)
  simpa using this

/-! ### What a call of the binary64 conversion has done -/

/-- Whatever a returning call returns, the header of the record carries the
event timestamp computed from the binary64 reference time. -/
theorem conversion_binary64_ok_inv {env : Env} {g g1 : globals} {red_ : snfee.raw_event_data}
    {er ev : things} {b : Bool}
    (h : do_red_to_udd_conversion_binary64 env g red_ er = .ok (b, ev, g1)) :
    ∃ R ts eh, reference_time_binary64 env red_ = some R ∧
      event_timestamp_binary64 g.run_sync_time R = some ts ∧
      ev.EH = some eh ∧ eh.timestamp = ts := by
  unfold do_red_to_udd_conversion_binary64 at h
  split at h
  · cases h
  · split at h
    · cases h
    · dsimp only at h
      split at h
      · cases h
      · rename_i R hR
        split at h
        · cases h
        · rename_i ts hts
          split at h
          · cases h
            exact ⟨R, ts, _, hR, hts, rfl, rfl⟩
          · split at h
            · cases h
            · split at h
              · cases h
              · split at h
                · cases h
                · split at h
                  · cases h
                  · cases h
                    exact ⟨R, ts, _, hR, hts, rfl, rfl⟩

/-- A call that returns true was made on an event within the time window; it
stored the rounded product of the binary64 delta and `CLHEP::second`, and left
the previous timestamp set to the event's. -/
theorem conversion_binary64_true_inv {env : Env} {g g1 : globals}
    {red_ : snfee.raw_event_data} {er ev : things}
    (h : do_red_to_udd_conversion_binary64 env g red_ er = .ok (true, ev, g1)) :
    ∃ R ts D v, reference_time_binary64 env red_ = some R ∧
      event_timestamp_binary64 g.run_sync_time R = some ts ∧
      R ≤ g.run_end_time ∧
      deltat_previous_event_binary64 g.previous_eh_timestamp ts = some D ∧
      binary64 (D * env.second) = some v ∧
      ev.EH = some (converted_EH_binary64 red_ ts v) ∧
      ev.UDD = some (fill_UDD env g.no_waveform red_ snemo.unified_digitized_data.fresh) ∧
      g1 = { g with previous_eh_timestamp := ts } ∧
      ∀ k ∈ reserved_keys, red_.auxiliaries.has_key k = false := by
  unfold do_red_to_udd_conversion_binary64 at h
  split at h
  · cases h
  · split at h
    · cases h
    · dsimp only at h
      split at h
      · cases h
      · rename_i R hR
        split at h
        · cases h
        · rename_i ts hts
          split at h
          · cases h
          · rename_i hle
            split at h
            · cases h
            · rename_i D hD
              split at h
              · cases h
              · rename_i v hv
                split at h
                · cases h
                · rename_i p1 h1
                  split at h
                  · cases h
                  · rename_i p2 h2
                    obtain ⟨hk1, rfl⟩ := store_eq_ok h1
                    have hk := store_trigger_info_keys h2
                    have h3 := store_trigger_info_eq_ok h2
                    subst h3
                    cases h
                    refine ⟨R, ts, D, v, hR, hts, not_lt.mp hle, hD, hv, ?_, rfl, rfl, ?_⟩
                    · simp [converted_EH_binary64, snemo.event_header.fresh]
                    · intro k hkm
                      simp only [reserved_keys, List.mem_cons, List.mem_singleton,
                        List.not_mem_nil, or_false] at hkm
                      simp only [has_key_append, Bool.or_eq_false_iff] at hk
                      rcases hkm with rfl | rfl | rfl | rfl
                      · exact hk1
                      · exact hk.1.1
                      · exact hk.2.1.1
                      · exact hk.2.2.1

/-- A call on an empty record whose timing arithmetic is defined, for an event
within the time window whose auxiliary bag uses none of the four reserved keys,
returns true. -/
theorem conversion_binary64_true_of {env : Env} {g : globals} {red_ : snfee.raw_event_data}
    {R D v : ℚ} {ts : snemo.timestamp}
    (hR : reference_time_binary64 env red_ = some R)
    (hts : event_timestamp_binary64 g.run_sync_time R = some ts)
    (hle : R ≤ g.run_end_time)
    (hD : deltat_previous_event_binary64 g.previous_eh_timestamp ts = some D)
    (hv : binary64 (D * env.second) = some v)
    (hk : ∀ k ∈ reserved_keys, red_.auxiliaries.has_key k = false) :
    do_red_to_udd_conversion_binary64 env g red_ things.empty
      = .ok (true,
          { EH := some (converted_EH_binary64 red_ ts v),
            UDD := some (fill_UDD env g.no_waveform red_ snemo.unified_digitized_data.fresh) },
          { g with previous_eh_timestamp := ts }) := by
  have h1 := hk "deltat_previous_event" (by simp [reserved_keys])
  have h2 := hk "trigger_id" (by simp [reserved_keys])
  have h3 := hk "trigger_decision" (by simp [reserved_keys])
  have h4 := hk "progenitor_trigger_id" (by simp [reserved_keys])
  simp only [do_red_to_udd_conversion_binary64, things.add_EH, things.add_UDD, things.empty,
    Option.isSome_none, Bool.false_eq_true, if_false, Option.isSome_some, hR, hts,
    not_lt.mpr hle, gt_iff_lt, hD, hv, store_trigger_info]
  rw [store_ok_of _ h1]
  dsimp only
  rw [store_ok_of _ (by rw [has_key_append, h2]; simp [properties.has_key])]
  dsimp only
  rw [store_ok_of _ (by rw [has_key_append, has_key_append, h3]; simp [properties.has_key])]
  dsimp only
  rw [store_ok_of _ (by
    rw [has_key_append, has_key_append, has_key_append, h4]; simp [properties.has_key])]
  simp [converted_EH_binary64, snemo.event_header.fresh]

theorem fetch_deltat_converted_EH_binary64 (red_ : snfee.raw_event_data)
    (ts : snemo.timestamp) (v : ℚ)
    (hk : ∀ k ∈ reserved_keys, red_.auxiliaries.has_key k = false) :
    (converted_EH_binary64 red_ ts v).properties.fetch "deltat_previous_event"
      = some (.real v) := by
  have k1 := lookup_eq_none_of_has_key (hk "deltat_previous_event" (by simp [reserved_keys]))
  simp only [converted_EH_binary64, properties.fetch, List.lookup_append, k1]
  simp [List.lookup_cons]

theorem reference_time_binary64_eq_some {env : Env} {red_ : snfee.raw_event_data} {R : ℚ}
    (h : reference_time_binary64 env red_ = some R) :
    env.second ≠ 0 ∧
    R = fl64 (fl64 (fl64 (red_.reference_time.ticks : ℚ)
              * env.clock_period red_.reference_time.clock) / env.second) := by
  unfold reference_time_binary64 at h
  split at h
  · cases h
  · rename_i tk htk
    split at h
    · cases h
    · rename_i t ht
      split_ifs at h with hs
      refine ⟨hs, ?_⟩
      rw [binary64_eq_some h, binary64_eq_some ht, binary64_eq_some htk]

/-! ### Evaluating the binary64 arithmetic -/

/-- Rounding of a number whose binade and nearest grid point are known. -/
theorem fl64_eq_of (x r : ℚ) (e m : Int) (he : -1022 ≤ e)
    (h1 : (2 : ℚ) ^ e ≤ |x|) (h2 : |x| < (2 : ℚ) ^ (e + 1))
    (h3 : (m : ℚ) - 1 / 2 < x / (2 : ℚ) ^ (e - 52))
    (h4 : x / (2 : ℚ) ^ (e - 52) < (m : ℚ) + 1 / 2)
    (hr : r = (m : ℚ) * (2 : ℚ) ^ (e - 52)) : fl64 x = r := by
  have hexp : binary64_exponent x = e := by
    apply le_antisymm
    · have := binary64_exponent_le x (e + 1) h2
      rw [show e + 1 - 1 = e by ring, max_eq_left he] at this
      exact this
    · exact le_binary64_exponent x e h1
  unfold fl64 binary64_ulp
  rw [hexp, round_half_even_eq_of _ m h3 h4, hr]

/-- A number given with a significand of at most 53 bits rounds to itself. -/
theorem fl64_eq_self_of_eq (x : ℚ) (m q : Int) (hq : -1074 ≤ q) (hm : |m| ≤ 2 ^ 53)
    (hx : x = (m : ℚ) * (2 : ℚ) ^ q) : fl64 x = x := by
  rw [hx]
  exact fl64_eq_self m q hq hm

theorem binary64_eq_of {x r : ℚ} (h : fl64 x = r) (h1 : -(2 ^ 64) ≤ r) (h2 : r ≤ 2 ^ 64) :
    binary64 x = some r := by
  unfold binary64
  rw [h, if_pos]
  rw [abs_lt]
  constructor
  · have : (-(2 : ℚ) ^ 1024) < -(2 ^ 64) := by norm_num
    linarith
  · have : (2 : ℚ) ^ 64 < 2 ^ 1024 := by norm_num
    linarith

/-- The reference time of an event whose three roundings are known. -/
theorem reference_time_binary64_of (env : Env) (red_ : snfee.raw_event_data) (tk P R : ℚ)
    (h1 : fl64 (red_.reference_time.ticks : ℚ) = tk) (b1 : -(2 ^ 64) ≤ tk ∧ tk ≤ 2 ^ 64)
    (h2 : fl64 (tk * env.clock_period red_.reference_time.clock) = P)
    (b2 : -(2 ^ 64) ≤ P ∧ P ≤ 2 ^ 64)
    (hs : env.second ≠ 0)
    (h3 : fl64 (P / env.second) = R) (b3 : -(2 ^ 64) ≤ R ∧ R ≤ 2 ^ 64) :
    reference_time_binary64 env red_ = some R := by
  unfold reference_time_binary64
  rw [binary64_eq_of h1 b1.1 b1.2]
  dsimp only
  rw [binary64_eq_of h2 b2.1 b2.2]
  dsimp only
  rw [if_neg hs, binary64_eq_of h3 b3.1 b3.2]

/-- The timestamp of an event whose binary64 event time `T`, rounded fractional
part `d` and rounded picosecond product `x` are known. -/
theorem event_timestamp_binary64_of (sync R T d x : ℚ) (s p : Int)
    (hT : fl64 (sync + R) = T) (hs : (s : ℚ) ≤ T ∧ T < (s : ℚ) + 1)
    (hr : -(2 ^ 63) ≤ s ∧ s < 2 ^ 63)
    (hd : fl64 (T - (s : ℚ)) = d) (hx : fl64 (1000000000000 * d) = x)
    (hp : (p : ℚ) ≤ x ∧ x < (p : ℚ) + 1) :
    event_timestamp_binary64 sync R = some { seconds := s, picoseconds := p } := by
  have hfl : ⌊T⌋ = s := Int.floor_eq_iff.mpr hs
  have hsq : -(2 ^ 64) ≤ (s : ℚ) ∧ (s : ℚ) ≤ 2 ^ 64 := by
    have a : ((-(2 ^ 63) : Int) : ℚ) ≤ (s : ℚ) := by exact_mod_cast hr.1
    have b : (s : ℚ) < ((2 ^ 63 : Int) : ℚ) := by exact_mod_cast hr.2
    push_cast at a b
    constructor <;> linarith
  have hTb : -(2 ^ 64) ≤ T ∧ T ≤ 2 ^ 64 := by
    have a : ((-(2 ^ 63) : Int) : ℚ) ≤ (s : ℚ) := by exact_mod_cast hr.1
    have b : (s : ℚ) < ((2 ^ 63 : Int) : ℚ) := by exact_mod_cast hr.2
    push_cast at a b
    constructor <;> linarith [hs.1, hs.2]
  have hsd : fl64 ((s : Int) : ℚ) = (s : ℚ) := by
    have := fl64_floor (sync + R)
    rw [hT, hfl] at this
    exact this
  obtain ⟨d0, d1, -⟩ := fl64_fract_bounds T
  rw [hfl, hd] at d0 d1
  obtain ⟨x0, x1, -⟩ := fl64_psec_bounds d d0 d1
  rw [hx] at x0 x1
  have hpr : -(2 ^ 63) ≤ p ∧ p < 2 ^ 63 := by
    have a : ((p : Int) : ℚ) ≤ ((1000000000000 : Int) : ℚ) := by
      push_cast
      linarith [hp.1]
    have b : ((-1 : Int) : ℚ) < ((p : Int) : ℚ) := by
      push_cast
      linarith [hp.2]
    have a2 : p ≤ 1000000000000 := by exact_mod_cast a
    have b2 : -1 < p := by exact_mod_cast b
    constructor <;> omega
  unfold event_timestamp_binary64 event_time_binary64
  rw [binary64_eq_of hT hTb.1 hTb.2]
  dsimp only
  rw [hfl, int64_of_range s hr.1 hr.2]
  dsimp only
  rw [binary64_eq_of hsd hsq.1 hsq.2]
  dsimp only
  rw [binary64_eq_of hd (by linarith) (by linarith)]
  dsimp only
  rw [binary64_eq_of hx (by linarith) (by linarith)]
  dsimp only
  rw [Int.floor_eq_iff.mpr hp, int64_of_range p hpr.1 hpr.2]

/-! ### The sample events in binary64 -/

theorem sample_reference_time_binary64_zero :
    reference_time_binary64 sample_env (sample_red_ticks 0) = some 0 := by
  apply reference_time_binary64_of sample_env (sample_red_ticks 0) 0 0 0
  · simpa [sample_red_ticks] using fl64_zero
  · norm_num
  · simpa using fl64_zero
  · norm_num
  · norm_num [sample_env]
  · simpa using fl64_zero
  · norm_num

theorem sample_reference_time_binary64_100 :
    reference_time_binary64 sample_env (sample_red_ticks 100)
      = some (5902958103587057 / 9444732965739290427392) := by
  apply reference_time_binary64_of sample_env (sample_red_ticks 100) 100 625
  · simpa [sample_red_ticks] using fl64_intCast 100 (by norm_num)
  · norm_num
  · have : (100 : ℚ) * sample_env.clock_period (sample_red_ticks 100).reference_time.clock
        = ((625 : Int) : ℚ) := by norm_num [sample_env]
    rw [this]
    simpa using fl64_intCast 625 (by norm_num)
  · norm_num
  · norm_num [sample_env]
  · apply fl64_eq_of _ _ (-21) 5902958103587057 (by norm_num)
    · rw [abs_of_pos (by norm_num [sample_env])]
      norm_num [sample_env]
    · rw [abs_of_pos (by norm_num [sample_env])]
      norm_num [sample_env]
    · norm_num [sample_env]
    · norm_num [sample_env]
    · norm_num
  · norm_num

theorem sample_reference_time_binary64_101 :
    reference_time_binary64 sample_env (sample_red_ticks 101)
      = some (5961987684622927 / 9444732965739290427392) := by
  apply reference_time_binary64_of sample_env (sample_red_ticks 101) 101 (2525 / 4)
  · simpa [sample_red_ticks] using fl64_intCast 101 (by norm_num)
  · norm_num
  · have e : (101 : ℚ) * sample_env.clock_period (sample_red_ticks 101).reference_time.clock
        = 2525 / 4 := by norm_num [sample_env]
    rw [e]
    exact fl64_eq_self_of_eq _ 2525 (-2) (by norm_num) (by norm_num) (by norm_num)
  · norm_num
  · norm_num [sample_env]
  · apply fl64_eq_of _ _ (-21) 5961987684622927 (by norm_num)
    · rw [abs_of_pos (by norm_num [sample_env])]
      norm_num [sample_env]
    · rw [abs_of_pos (by norm_num [sample_env])]
      norm_num [sample_env]
    · norm_num [sample_env]
    · norm_num [sample_env]
    · norm_num
  · norm_num

theorem sample_reference_time_binary64_late :
    reference_time_binary64 sample_env (sample_red_ticks 159999999)
      = some (9007199198445997 / 9007199254740992) := by
  apply reference_time_binary64_of sample_env (sample_red_ticks 159999999) 159999999
    (3999999975 / 4)
  · simpa [sample_red_ticks] using fl64_intCast 159999999 (by norm_num)
  · norm_num
  · have e : (159999999 : ℚ)
        * sample_env.clock_period (sample_red_ticks 159999999).reference_time.clock
        = 3999999975 / 4 := by norm_num [sample_env]
    rw [e]
    exact fl64_eq_self_of_eq _ 3999999975 (-2) (by norm_num) (by norm_num) (by norm_num)
  · norm_num
  · norm_num [sample_env]
  · apply fl64_eq_of _ _ (-1) 9007199198445997 (by norm_num)
    · rw [abs_of_pos (by norm_num [sample_env])]
      norm_num [sample_env]
    · rw [abs_of_pos (by norm_num [sample_env])]
      norm_num [sample_env]
    · norm_num [sample_env]
    · norm_num [sample_env]
    · norm_num
  · norm_num

/-- At the sync epoch 1.7e9 s the doubles are 2^-22 s (238 ns) apart: an event
at 625 ns or at 631.25 ns is held at 3 * 2^-22 s and stamped 715255 ps. -/
theorem sample_epoch_timestamp (R : ℚ)
    (h1 : 5 / 2 < R * 4194304) (h2 : R * 4194304 < 7 / 2) :
    event_timestamp_binary64 1700000000 R
      = some { seconds := 1700000000, picoseconds := 715255 } := by
  have hpos : 0 < R := by linarith
  have hlt : R < 1 := by linarith
  apply event_timestamp_binary64_of 1700000000 R (7130316800000003 / 4194304) (3 / 4194304)
    (732421875 / 1024)
  · apply fl64_eq_of _ _ 30 7130316800000003 (by norm_num)
    · rw [abs_of_pos (by linarith)]
      norm_num
      linarith
    · rw [abs_of_pos (by linarith)]
      norm_num
      linarith
    · norm_num
      linarith
    · norm_num
      linarith
    · norm_num
  · norm_num
  · norm_num
  · have e : (7130316800000003 / 4194304 : ℚ) - ((1700000000 : Int) : ℚ) = 3 / 4194304 := by
      norm_num
    rw [e]
    exact fl64_eq_self_of_eq _ 3 (-22) (by norm_num) (by norm_num) (by norm_num)
  · have e : (1000000000000 : ℚ) * (3 / 4194304) = 732421875 / 1024 := by norm_num
    rw [e]
    exact fl64_eq_self_of_eq _ 732421875 (-10) (by norm_num) (by norm_num) (by norm_num)
  · norm_num

theorem sample_epoch_timestamp_zero :
    event_timestamp_binary64 1700000000 0
      = some { seconds := 1700000000, picoseconds := 0 } := by
  apply event_timestamp_binary64_of 1700000000 0 1700000000 0 0
  · simpa using fl64_intCast 1700000000 (by norm_num)
  · norm_num
  · norm_num
  · simpa using fl64_zero
  · simpa using fl64_zero
  · norm_num

/-- At the sync epoch 1.7e9 s an event 6.25 ns before the full second is held at
the full second. -/
theorem sample_epoch_timestamp_late :
    event_timestamp_binary64 1700000000 (9007199198445997 / 9007199254740992)
      = some { seconds := 1700000001, picoseconds := 0 } := by
  apply event_timestamp_binary64_of 1700000000 _ 1700000001 0 0
  · apply fl64_eq_of _ _ 30 7130316804194304 (by norm_num)
    · rw [abs_of_pos (by norm_num)]
      norm_num
    · rw [abs_of_pos (by norm_num)]
      norm_num
    · norm_num
    · norm_num
    · norm_num
  · norm_num
  · norm_num
  · simpa using fl64_zero
  · simpa using fl64_zero
  · norm_num

/-- The event time `-2^-70` s: the difference to its floor -1 rounds to 1, and
the picoseconds come out as `10^12`. -/
theorem sample_negative_timestamp :
    event_timestamp_binary64 (-(1 / 2 ^ 70)) 0
      = some { seconds := -1, picoseconds := 1000000000000 } := by
  apply event_timestamp_binary64_of (-(1 / 2 ^ 70)) 0 (-(1 / 2 ^ 70)) 1 1000000000000
  · rw [add_zero]
    exact fl64_eq_self_of_eq _ (-1) (-70) (by norm_num) (by norm_num) (by norm_num)
  · norm_num
  · norm_num
  · apply fl64_eq_of _ _ (-1) 9007199254740992 (by norm_num)
    · rw [abs_of_pos (by norm_num)]
      norm_num
    · rw [abs_of_pos (by norm_num)]
      norm_num
    · norm_num
    · norm_num
    · norm_num
  · have := fl64_intCast 1000000000000 (by norm_num)
    simpa using this
  · norm_num

/-! ### Accumulated rounding error of the timing arithmetic -/

theorem abs_le_abs_add_abs_sub (x y : ℚ) : |x| ≤ |y| + |x - y| := by
  have := abs_sub_abs_le_abs_sub x y
  linarith

theorem abs_fl64_le_two_pow (x : ℚ) (k : ℕ) (h : |x| ≤ 2 ^ k) : |fl64 x| ≤ 2 ^ k := by
  have hlt : |x| < (2 : ℚ) ^ ((k : Int) + 1) := by
    have : (2 : ℚ) ^ k < (2 : ℚ) ^ ((k : Int) + 1) := by
      rw [← zpow_natCast]
      exact zpow_lt_zpow_right₀ (by norm_num) (by omega)
    exact lt_of_le_of_lt h this
  have he := binary64_exponent_le x _ hlt
  rw [show (k : Int) + 1 - 1 = k by ring, max_eq_left (by omega)] at he
  rw [abs_le] at h
  have e1 : ((1 : Int) : ℚ) * (2 : ℚ) ^ (k : Int) = 2 ^ k := by
    rw [Int.cast_one, one_mul, zpow_natCast]
  have e2 : ((-1 : Int) : ℚ) * (2 : ℚ) ^ (k : Int) = -(2 ^ k) := by
    rw [Int.cast_neg, Int.cast_one, neg_one_mul, zpow_natCast]
  have u1 := fl64_le_of_le x 1 k (by omega) (by rw [e1]; exact h.2)
  have u2 := le_fl64_of_le x (-1) k (by omega) (by rw [e2]; exact h.1)
  rw [e1] at u1
  rw [e2] at u2
  exact abs_le.mpr ⟨u2, u1⟩

/-- Conversion of an integer to `double`: relative error at most `2^-53`. -/
theorem fl64_rel_error_intCast (n : Int) : |fl64 (n : ℚ) - (n : ℚ)| ≤ |(n : ℚ)| / 2 ^ 53 := by
  by_cases h : n = 0
  · subst h
    simp [fl64_zero]
  · apply fl64_rel_error_normal
    have h1 : (1 : ℚ) ≤ |(n : ℚ)| := by
      have : (1 : Int) ≤ |n| := Int.one_le_abs h
      rw [← Int.cast_abs]
      exact_mod_cast this
    have h2 : (2 : ℚ) ^ (-1022 : Int) ≤ 1 :=
      zpow_le_one_of_nonpos₀ (by norm_num) (by norm_num)
    linarith

/-- The literal `1E-12` is the binary64 number nearest to `10^-12`. -/
theorem literal_1E_12_eq : fl64 (1 / 1000000000000) = literal_1E_12 := by
  apply fl64_eq_of _ _ (-40) 4951760157141521 (by norm_num)
  · rw [abs_of_pos (by norm_num)]
    norm_num
  · rw [abs_of_pos (by norm_num)]
    norm_num
  · norm_num
  · norm_num
  · norm_num [literal_1E_12]

theorem literal_1E_12_error :
    |literal_1E_12 - 1 / 1000000000000| ≤ 1 / 1000000000000 / 2 ^ 53 := by
  rw [abs_le]
  constructor <;> norm_num [literal_1E_12]

/-- The binary64 evaluation of `ds + 1E-12 * dp` against its exact value, for a
picosecond difference of magnitude at most `10^12`. -/
theorem deltat_binary64_error (ds dp : Int) (hp : |dp| ≤ 10 ^ 12) :
    |fl64 (fl64 (ds : ℚ) + fl64 (literal_1E_12 * (dp : ℚ)))
        - ((ds : ℚ) + (1 / 1000000000000) * (dp : ℚ))|
      ≤ |(ds : ℚ)| / 2 ^ 51 + 1 / 2 ^ 50 := by
  have hA := fl64_rel_error_intCast ds
  have hc := literal_1E_12_error
  have hB := fl64_rel_error (literal_1E_12 * (dp : ℚ))
  have hD := fl64_rel_error
    (fl64 (ds : ℚ) + fl64 (literal_1E_12 * (dp : ℚ)))
  have hy0 : (0 : ℚ) ≤ |(dp : ℚ)| := abs_nonneg _
  have hy1 : |(dp : ℚ)| ≤ 1000000000000 := by
    have : ((|dp| : Int) : ℚ) ≤ ((10 ^ 12 : Int) : ℚ) := by exact_mod_cast hp
    rw [Int.cast_abs] at this
    norm_num at this
    exact this
  have ha0 : (0 : ℚ) ≤ |(ds : ℚ)| := abs_nonneg _
  -- the product with the rounded literal
  have e2 : |literal_1E_12 * (dp : ℚ) - (1 / 1000000000000) * (dp : ℚ)|
      ≤ 1 / 1000000000000 / 2 ^ 53 * |(dp : ℚ)| := by
    rw [← sub_mul, abs_mul]
    exact mul_le_mul_of_nonneg_right hc hy0
  have e3 := abs_le_abs_add_abs_sub (literal_1E_12 * (dp : ℚ))
    ((1 / 1000000000000) * (dp : ℚ))
  have e3b : |(1 / 1000000000000 : ℚ) * (dp : ℚ)| = 1 / 1000000000000 * |(dp : ℚ)| := by
    rw [abs_mul, abs_of_pos (by norm_num : (0 : ℚ) < 1 / 1000000000000)]
  rw [e3b] at e3
  have e5 := abs_sub_le (fl64 (literal_1E_12 * (dp : ℚ)))
    (literal_1E_12 * (dp : ℚ)) ((1 / 1000000000000) * (dp : ℚ))
  have e6 := abs_le_abs_add_abs_sub (fl64 (literal_1E_12 * (dp : ℚ)))
    ((1 / 1000000000000) * (dp : ℚ))
  rw [e3b] at e6
  have e1 := abs_le_abs_add_abs_sub (fl64 (ds : ℚ)) (ds : ℚ)
  have e7 := abs_add (fl64 (ds : ℚ)) (fl64 (literal_1E_12 * (dp : ℚ)))
  have e8 : |fl64 (fl64 (ds : ℚ) + fl64 (literal_1E_12 * (dp : ℚ)))
        - ((ds : ℚ) + (1 / 1000000000000) * (dp : ℚ))|
      ≤ |fl64 (fl64 (ds : ℚ) + fl64 (literal_1E_12 * (dp : ℚ)))
          - (fl64 (ds : ℚ) + fl64 (literal_1E_12 * (dp : ℚ)))|
        + |fl64 (ds : ℚ) - (ds : ℚ)|
        + |fl64 (literal_1E_12 * (dp : ℚ)) - (1 / 1000000000000) * (dp : ℚ)| := by
    have := abs_add_three
      (fl64 (fl64 (ds : ℚ) + fl64 (literal_1E_12 * (dp : ℚ)))
          - (fl64 (ds : ℚ) + fl64 (literal_1E_12 * (dp : ℚ))))
      (fl64 (ds : ℚ) - (ds : ℚ))
      (fl64 (literal_1E_12 * (dp : ℚ)) - (1 / 1000000000000) * (dp : ℚ))
    have e : fl64 (fl64 (ds : ℚ) + fl64 (literal_1E_12 * (dp : ℚ)))
          - (fl64 (ds : ℚ) + fl64 (literal_1E_12 * (dp : ℚ)))
          + (fl64 (ds : ℚ) - (ds : ℚ))
          + (fl64 (literal_1E_12 * (dp : ℚ)) - (1 / 1000000000000) * (dp : ℚ))
        = fl64 (fl64 (ds : ℚ) + fl64 (literal_1E_12 * (dp : ℚ)))
          - ((ds : ℚ) + (1 / 1000000000000) * (dp : ℚ)) := by ring
    rw [e] at this
    exact this
  norm_num at hA hB hD e2 e3 e5 e6 e1 e7 e8 hy1 ⊢
  linarith

/-- The binary64 event time against the exact `sync + n * cp / sec`, for a tick
count `n` converted to `double` with relative error at most `2^-53`. -/
theorem event_time_binary64_error (sync n cp sec : ℚ)
    (hn : |fl64 n - n| ≤ |n| / 2 ^ 53) :
    |fl64 (sync + fl64 (fl64 (fl64 n * cp) / sec)) - (sync + n * cp / sec)|
      ≤ |sync| / 2 ^ 53 + |n * cp / sec| / 2 ^ 50 + (1 + 1 / |sec|) / 2 ^ 1073 := by
  have h1 := fl64_rel_error (fl64 n * cp)
  have h2 := fl64_rel_error (fl64 (fl64 n * cp) / sec)
  have h3 := fl64_rel_error (sync + fl64 (fl64 (fl64 n * cp) / sec))
  have hw : (0 : ℚ) ≤ 1 / |sec| := by positivity
  -- conversion of the tick count
  have a1 : |fl64 n * cp / sec - n * cp / sec| ≤ |n * cp / sec| / 2 ^ 53 := by
    have e : fl64 n * cp / sec - n * cp / sec = (fl64 n - n) * (cp / sec) := by ring
    have e' : n * cp / sec = n * (cp / sec) := by ring
    rw [e, e', abs_mul, abs_mul, mul_div_right_comm]
    exact mul_le_mul_of_nonneg_right hn (abs_nonneg _)
  -- the product
  have a2 : |fl64 (fl64 n * cp) / sec - fl64 n * cp / sec|
      ≤ |fl64 n * cp / sec| / 2 ^ 53 + 1 / 2 ^ 1075 * (1 / |sec|) := by
    have e : fl64 (fl64 n * cp) / sec - fl64 n * cp / sec
        = (fl64 (fl64 n * cp) - fl64 n * cp) * (1 / sec) := by ring
    have e' : fl64 n * cp / sec = fl64 n * cp * (1 / sec) := by ring
    rw [e, e', abs_mul, abs_mul (fl64 n * cp), abs_div, abs_one]
    have := mul_le_mul_of_nonneg_right h1 hw
    linarith
  have b1 := abs_le_abs_add_abs_sub (fl64 n * cp / sec) (n * cp / sec)
  have b2 := abs_le_abs_add_abs_sub (fl64 (fl64 n * cp) / sec) (fl64 n * cp / sec)
  have b3 := abs_le_abs_add_abs_sub (fl64 (fl64 (fl64 n * cp) / sec))
    (fl64 (fl64 n * cp) / sec)
  have b4 := abs_add sync (fl64 (fl64 (fl64 n * cp) / sec))
  have t : |fl64 (sync + fl64 (fl64 (fl64 n * cp) / sec)) - (sync + n * cp / sec)|
      ≤ |fl64 (sync + fl64 (fl64 (fl64 n * cp) / sec))
            - (sync + fl64 (fl64 (fl64 n * cp) / sec))|
        + |fl64 (fl64 (fl64 n * cp) / sec) - fl64 (fl64 n * cp) / sec|
        + |fl64 (fl64 n * cp) / sec - fl64 n * cp / sec|
        + |fl64 n * cp / sec - n * cp / sec| := by
    have t1 := abs_add_three
      (fl64 (sync + fl64 (fl64 (fl64 n * cp) / sec))
            - (sync + fl64 (fl64 (fl64 n * cp) / sec)))
      (fl64 (fl64 (fl64 n * cp) / sec) - fl64 (fl64 n * cp) / sec)
      (fl64 (fl64 n * cp) / sec - fl64 n * cp / sec)
    have t2 := abs_add
      (fl64 (sync + fl64 (fl64 (fl64 n * cp) / sec))
            - (sync + fl64 (fl64 (fl64 n * cp) / sec))
        + (fl64 (fl64 (fl64 n * cp) / sec) - fl64 (fl64 n * cp) / sec)
        + (fl64 (fl64 n * cp) / sec - fl64 n * cp / sec))
      (fl64 n * cp / sec - n * cp / sec)
    have e : fl64 (sync + fl64 (fl64 (fl64 n * cp) / sec))
            - (sync + fl64 (fl64 (fl64 n * cp) / sec))
        + (fl64 (fl64 (fl64 n * cp) / sec) - fl64 (fl64 n * cp) / sec)
        + (fl64 (fl64 n * cp) / sec - fl64 n * cp / sec)
        + (fl64 n * cp / sec - n * cp / sec)
        = fl64 (sync + fl64 (fl64 (fl64 n * cp) / sec)) - (sync + n * cp / sec) := by ring
    rw [e] at t2
    linarith
  have hs0 : (0 : ℚ) ≤ |sync| := abs_nonneg _
  have ha0 : (0 : ℚ) ≤ |n * cp / sec| := abs_nonneg _
  have hw' : (0 : ℚ) ≤ |sec|⁻¹ := by positivity
  norm_num at h2 h3 a1 a2 b1 b2 b3 b4 t ⊢
  linarith

/-! ### The delta to the previous event in binary64 -/

theorem deltat_previous_event_binary64_invalid (prev cur : snemo.timestamp)
    (hv : prev.is_valid = false) : deltat_previous_event_binary64 prev cur = some 0 := by
  unfold deltat_previous_event_binary64
  rw [if_neg (by simp [hv])]

theorem abs_intCast_le_of_range (n : Int) (h : -(2 ^ 63) ≤ n ∧ n < 2 ^ 63) :
    |(n : ℚ)| ≤ 2 ^ 63 := by
  have a : ((-(2 ^ 63) : Int) : ℚ) ≤ (n : ℚ) := by exact_mod_cast h.1
  have b : (n : ℚ) < ((2 ^ 63 : Int) : ℚ) := by exact_mod_cast h.2
  push_cast at a b
  rw [abs_le]
  constructor <;> linarith

theorem abs_intCast_le_psec (n : Int) (h : |n| ≤ 10 ^ 12) : |(n : ℚ)| ≤ 1000000000000 := by
  have : ((|n| : Int) : ℚ) ≤ ((10 ^ 12 : Int) : ℚ) := by exact_mod_cast h
  rw [Int.cast_abs] at this
  norm_num at this
  exact this

theorem fl64_psec_diff (n : Int) (h : |n| ≤ 10 ^ 12) : fl64 (n : ℚ) = (n : ℚ) := by
  apply fl64_intCast
  have : (10 : Int) ^ 12 ≤ 2 ^ 53 := by norm_num
  omega

theorem abs_literal_1E_12_le : |literal_1E_12| ≤ 1 := by
  rw [abs_le]
  constructor <;> norm_num [literal_1E_12]

/-- With a valid previous timestamp, a seconds difference within `int64_t` and
picoseconds of both timestamps in `[0, 10^12]`, the delta is defined: the
rounded sum of the converted seconds difference and the rounded product. -/
theorem deltat_previous_event_binary64_of (prev cur : snemo.timestamp)
    (hv : prev.is_valid = true)
    (hs : -(2 ^ 63) ≤ cur.seconds - prev.seconds ∧ cur.seconds - prev.seconds < 2 ^ 63)
    (hp : |cur.picoseconds - prev.picoseconds| ≤ 10 ^ 12) :
    deltat_previous_event_binary64 prev cur
      = some (fl64 (fl64 ((cur.seconds - prev.seconds : Int) : ℚ)
          + fl64 (literal_1E_12
              * fl64 ((cur.picoseconds - prev.picoseconds : Int) : ℚ)))) ∧
    |fl64 (fl64 ((cur.seconds - prev.seconds : Int) : ℚ)
          + fl64 (literal_1E_12
              * fl64 ((cur.picoseconds - prev.picoseconds : Int) : ℚ)))| ≤ 2 ^ 64 := by
  have big : ∀ x : ℚ, |x| ≤ 2 ^ 64 → |x| ≤ 2 ^ 1023 := by
    intro x hx
    have : (2 : ℚ) ^ 64 ≤ 2 ^ 1023 := by norm_num
    linarith
  have hds := abs_intCast_le_of_range _ hs
  have hdp := abs_intCast_le_psec _ hp
  have hA := abs_fl64_le_two_pow _ 63 hds
  have hdp40 : |((cur.picoseconds - prev.picoseconds : Int) : ℚ)| ≤ 2 ^ 40 := by
    have : (1000000000000 : ℚ) ≤ 2 ^ 40 := by norm_num
    linarith
  have hP := abs_fl64_le_two_pow _ 40 hdp40
  have hc := abs_literal_1E_12_le
  have hprod : |literal_1E_12
      * fl64 ((cur.picoseconds - prev.picoseconds : Int) : ℚ)| ≤ 2 ^ 40 := by
    rw [abs_mul]
    calc |literal_1E_12| * |fl64 ((cur.picoseconds - prev.picoseconds : Int) : ℚ)|
        ≤ 1 * 2 ^ 40 := mul_le_mul hc hP (abs_nonneg _) (by norm_num)
      _ = 2 ^ 40 := by ring
  have hB := abs_fl64_le_two_pow _ 40 hprod
  have hsum : |fl64 ((cur.seconds - prev.seconds : Int) : ℚ)
      + fl64 (literal_1E_12
          * fl64 ((cur.picoseconds - prev.picoseconds : Int) : ℚ))| ≤ 2 ^ 64 := by
    have := abs_add (fl64 ((cur.seconds - prev.seconds : Int) : ℚ))
      (fl64 (literal_1E_12
          * fl64 ((cur.picoseconds - prev.picoseconds : Int) : ℚ)))
    have h40 : (2 : ℚ) ^ 40 ≤ 2 ^ 63 := by norm_num
    have h64 : (2 : ℚ) ^ 63 + 2 ^ 63 = 2 ^ 64 := by norm_num
    linarith
  have hD := abs_fl64_le_two_pow _ 64 hsum
  refine ⟨?_, hD⟩
  unfold deltat_previous_event_binary64
  rw [if_pos hv, int64_of_range _ hs.1 hs.2]
  dsimp only
  rw [binary64_of_abs_le _ (big _ (by linarith [show (2 : ℚ) ^ 63 ≤ 2 ^ 64 by norm_num]))]
  dsimp only
  rw [int64_of_range _ (by have := abs_le.mp hp; have : (10 : Int) ^ 12 < 2 ^ 63 := by norm_num
                           omega)
        (by have := abs_le.mp hp; have : (10 : Int) ^ 12 < 2 ^ 63 := by norm_num
            omega)]
  dsimp only
  rw [binary64_of_abs_le _ (big _ (by linarith [show (2 : ℚ) ^ 40 ≤ 2 ^ 64 by norm_num]))]
  dsimp only
  rw [binary64_of_abs_le _ (big _ (by linarith [show (2 : ℚ) ^ 40 ≤ 2 ^ 64 by norm_num]))]
  dsimp only
  rw [binary64_of_abs_le _ (big _ hsum)]

/-- A defined delta against a valid previous timestamp is the rounded sum of
the converted seconds difference and the rounded product. -/
theorem deltat_previous_event_binary64_eq_some {prev cur : snemo.timestamp} {D : ℚ}
    (hv : prev.is_valid = true)
    (h : deltat_previous_event_binary64 prev cur = some D) :
    D = fl64 (fl64 ((cur.seconds - prev.seconds : Int) : ℚ)
          + fl64 (literal_1E_12
              * fl64 ((cur.picoseconds - prev.picoseconds : Int) : ℚ))) := by
  unfold deltat_previous_event_binary64 at h
  rw [if_pos hv] at h
  split at h
  · cases h
  · rename_i ds hds
    split at h
    · cases h
    · rename_i A hA
      split at h
      · cases h
      · rename_i dp hdp
        split at h
        · cases h
        · rename_i dpd hdpd
          split at h
          · cases h
          · rename_i B hB
            obtain ⟨e1, -, -⟩ := int64_eq_some hds
            obtain ⟨e2, -, -⟩ := int64_eq_some hdp
            rw [binary64_eq_some h, binary64_eq_some hB, binary64_eq_some hdpd,
              binary64_eq_some hA, e1, e2]

/-- A timestamp the program has computed is valid unless its whole seconds hit
the invalid marker. -/
theorem is_valid_of_event_timestamp_binary64 {sync R : ℚ} {ts : snemo.timestamp}
    (h : event_timestamp_binary64 sync R = some ts) (hs : ts.seconds ≠ snemo.INVALID_TIME) :
    ts.is_valid = true := by
  obtain ⟨T, -, -, -, -, -, hp⟩ := event_timestamp_binary64_eq_some h
  have h0 := (picoseconds_binary64_range T).1
  rw [← hp] at h0
  have hne : ts.picoseconds ≠ snemo.INVALID_TIME := by
    intro e
    rw [e] at h0
    revert h0
    decide
  simp [snemo.timestamp.is_valid, hs, hne]

theorem timestamp_binary64_picoseconds_range {sync R : ℚ} {ts : snemo.timestamp}
    (h : event_timestamp_binary64 sync R = some ts) :
    0 ≤ ts.picoseconds ∧ ts.picoseconds ≤ 1000000000000 := by
  obtain ⟨T, -, -, -, -, -, hp⟩ := event_timestamp_binary64_eq_some h
  rw [hp]
  exact picoseconds_binary64_range T

/-- The time a computed timestamp stands for, against the binary64 event time
and against the exact event time. -/
theorem timestamp_binary64_value_bounds {env : Env} {g : globals}
    {red_ : snfee.raw_event_data} {R : ℚ} {ts : snemo.timestamp}
    (hR : reference_time_binary64 env red_ = some R)
    (hts : event_timestamp_binary64 g.run_sync_time R = some ts) :
    ∃ T, event_time_binary64 g.run_sync_time R = some T ∧ ts.seconds = ⌊T⌋ ∧
      -(1 / 2 ^ 54 + 1 / (2 ^ 14 * 10 ^ 12)) ≤ T - ts.value ∧
      T - ts.value < 1 / 10 ^ 12 + 1 / 2 ^ 54 + 1 / (2 ^ 14 * 10 ^ 12) ∧
      (0 ≤ T → -(1 / (2 ^ 14 * 10 ^ 12)) ≤ T - ts.value ∧
        T - ts.value < 1 / 10 ^ 12 + 1 / (2 ^ 14 * 10 ^ 12)) ∧
      |T - event_time env g red_|
        ≤ |g.run_sync_time| / 2 ^ 53 + |reference_time env red_| / 2 ^ 50
          + (1 + 1 / |env.second|) / 2 ^ 1073 := by
  obtain ⟨T, hT, eT, hs, -, -, hp⟩ := event_timestamp_binary64_eq_some hts
  obtain ⟨-, eR⟩ := reference_time_binary64_eq_some hR
  have hval : ts.value = ((⌊T⌋ : Int) : ℚ)
      + ((⌊fl64 (1000000000000 * fl64 (T - ((⌊T⌋ : Int) : ℚ)))⌋ : Int) : ℚ)
        * (1 / 1000000000000) := by
    rw [snemo.timestamp.value, hs, hp]
  obtain ⟨b1, b2⟩ := split_binary64_bounds T
  refine ⟨T, hT, hs, ?_, ?_, ?_, ?_⟩
  · rw [hval]; exact b1
  · rw [hval]; exact b2
  · intro h0
    rw [hval, eT]
    rw [eT] at h0
    exact split_binary64_bounds_nonneg _ h0
  · rw [eT, eR, event_time, reference_time]
    exact event_time_binary64_error _ _ _ _ (fl64_rel_error_intCast _)

/-! ### Sample conversions in binary64 -/

theorem sample_reference_time_binary64 :
    reference_time_binary64 sample_env sample_red = some (5 / 2) := by
  apply reference_time_binary64_of sample_env sample_red 400000000 2500000000
  · simpa [sample_red] using fl64_intCast 400000000 (by norm_num)
  · norm_num
  · have e : (400000000 : ℚ) * sample_env.clock_period sample_red.reference_time.clock
        = ((2500000000 : Int) : ℚ) := by norm_num [sample_env]
    rw [e]
    simpa using fl64_intCast 2500000000 (by norm_num)
  · norm_num
  · norm_num [sample_env]
  · have e : (2500000000 : ℚ) / sample_env.second = 5 / 2 := by norm_num [sample_env]
    rw [e]
    exact fl64_eq_self_of_eq _ 5 (-1) (by norm_num) (by norm_num) (by norm_num)
  · norm_num

theorem sample_reference_time_binary64_at (secs : Int) (h : |secs| ≤ 1000) :
    reference_time_binary64 sample_env (sample_red_at secs) = some (secs : ℚ) := by
  have hq : |(secs : ℚ)| ≤ 1000 := by
    have : ((|secs| : Int) : ℚ) ≤ ((1000 : Int) : ℚ) := by exact_mod_cast h
    rw [Int.cast_abs] at this
    simpa using this
  rw [abs_le] at hq h
  apply reference_time_binary64_of sample_env (sample_red_at secs)
    ((160000000 * secs : Int) : ℚ) ((1000000000 * secs : Int) : ℚ)
  · show fl64 ((160000000 * secs : Int) : ℚ) = ((160000000 * secs : Int) : ℚ)
    apply fl64_intCast
    rw [abs_le]
    constructor <;> omega
  · push_cast
    constructor <;> linarith
  · have e : ((160000000 * secs : Int) : ℚ)
        * sample_env.clock_period (sample_red_at secs).reference_time.clock
        = ((1000000000 * secs : Int) : ℚ) := by
      push_cast
      norm_num [sample_env]
      ring
    rw [e]
    apply fl64_intCast
    rw [abs_le]
    constructor <;> omega
  · push_cast
    constructor <;> linarith
  · norm_num [sample_env]
  · have e : ((1000000000 * secs : Int) : ℚ) / sample_env.second = (secs : ℚ) := by
      push_cast
      norm_num [sample_env]
    rw [e]
    apply fl64_intCast
    rw [abs_le]
    constructor <;> omega
  · constructor <;> linarith

/-- The worked example: sync epoch 1000 s and reference time 2.5 s. -/
theorem worked_timestamp_binary64 :
    event_timestamp_binary64 1000 (5 / 2)
      = some { seconds := 1002, picoseconds := 500000000000 } := by
  apply event_timestamp_binary64_of 1000 (5 / 2) (2005 / 2) (1 / 2) 500000000000
  · have e : (1000 : ℚ) + 5 / 2 = 2005 / 2 := by norm_num
    rw [e]
    exact fl64_eq_self_of_eq _ 2005 (-1) (by norm_num) (by norm_num) (by norm_num)
  · norm_num
  · norm_num
  · have e : (2005 / 2 : ℚ) - ((1002 : Int) : ℚ) = 1 / 2 := by norm_num
    rw [e]
    exact fl64_eq_self_of_eq _ 1 (-1) (by norm_num) (by norm_num) (by norm_num)
  · have e : (1000000000000 : ℚ) * (1 / 2) = ((500000000000 : Int) : ℚ) := by norm_num
    rw [e]
    simpa using fl64_intCast 500000000000 (by norm_num)
  · norm_num

/-- The event time -1.5 s: sync epoch -4 s and reference time 2.5 s. -/
theorem negative_timestamp_binary64 :
    event_timestamp_binary64 (-4) (5 / 2)
      = some { seconds := -2, picoseconds := 500000000000 } := by
  apply event_timestamp_binary64_of (-4) (5 / 2) (-3 / 2) (1 / 2) 500000000000
  · have e : (-4 : ℚ) + 5 / 2 = -3 / 2 := by norm_num
    rw [e]
    exact fl64_eq_self_of_eq _ (-3) (-1) (by norm_num) (by norm_num) (by norm_num)
  · norm_num
  · norm_num
  · have e : (-3 / 2 : ℚ) - ((-2 : Int) : ℚ) = 1 / 2 := by norm_num
    rw [e]
    exact fl64_eq_self_of_eq _ 1 (-1) (by norm_num) (by norm_num) (by norm_num)
  · have e : (1000000000000 : ℚ) * (1 / 2) = ((500000000000 : Int) : ℚ) := by norm_num
    rw [e]
    simpa using fl64_intCast 500000000000 (by norm_num)
  · norm_num

theorem whole_second_timestamp_binary64 (secs : Int) (h : |secs| ≤ 1000) :
    event_timestamp_binary64 1000 (secs : ℚ)
      = some { seconds := 1000 + secs, picoseconds := 0 } := by
  rw [abs_le] at h
  apply event_timestamp_binary64_of 1000 (secs : ℚ) ((1000 + secs : Int) : ℚ) 0 0
  · have e : (1000 : ℚ) + (secs : ℚ) = ((1000 + secs : Int) : ℚ) := by push_cast; ring
    rw [e]
    apply fl64_intCast
    rw [abs_le]
    constructor <;> omega
  · constructor
    · exact le_refl _
    · linarith
  · constructor <;> omega
  · rw [sub_self]
    exact fl64_zero
  · simpa using fl64_zero
  · norm_num

/-- A first event (no valid previous timestamp) of the sample run converts in
binary64 once its reference time and timestamp are known. -/
theorem sample_first_conversion_binary64 (g : globals) (red_ : snfee.raw_event_data)
    (R : ℚ) (ts : snemo.timestamp)
    (hR : reference_time_binary64 sample_env red_ = some R)
    (hts : event_timestamp_binary64 g.run_sync_time R = some ts)
    (hle : R ≤ g.run_end_time)
    (hprev : g.previous_eh_timestamp.is_valid = false)
    (hk : ∀ k ∈ reserved_keys, red_.auxiliaries.has_key k = false) :
    do_red_to_udd_conversion_binary64 sample_env g red_ things.empty
      = .ok (true,
          { EH := some (converted_EH_binary64 red_ ts 0),
            UDD := some (fill_UDD sample_env g.no_waveform red_
              snemo.unified_digitized_data.fresh) },
          { g with previous_eh_timestamp := ts }) := by
  apply conversion_binary64_true_of hR hts hle
    (deltat_previous_event_binary64_invalid _ _ hprev) _ hk
  rw [zero_mul]
  exact binary64_eq_of fl64_zero (by norm_num) (by norm_num)

/-- A later event of the sample run converts in binary64: the delta against a
valid previous timestamp is defined and its product with `CLHEP::second` is
finite. -/
theorem sample_next_conversion_binary64 (g : globals) (red_ : snfee.raw_event_data)
    (R : ℚ) (ts : snemo.timestamp)
    (hR : reference_time_binary64 sample_env red_ = some R)
    (hts : event_timestamp_binary64 g.run_sync_time R = some ts)
    (hle : R ≤ g.run_end_time)
    (hprev : g.previous_eh_timestamp.is_valid = true)
    (hs : -(2 ^ 63) ≤ ts.seconds - g.previous_eh_timestamp.seconds
      ∧ ts.seconds - g.previous_eh_timestamp.seconds < 2 ^ 63)
    (hp : |ts.picoseconds - g.previous_eh_timestamp.picoseconds| ≤ 10 ^ 12)
    (hk : ∀ k ∈ reserved_keys, red_.auxiliaries.has_key k = false) :
    ∃ v, do_red_to_udd_conversion_binary64 sample_env g red_ things.empty
      = .ok (true,
          { EH := some (converted_EH_binary64 red_ ts v),
            UDD := some (fill_UDD sample_env g.no_waveform red_
              snemo.unified_digitized_data.fresh) },
          { g with previous_eh_timestamp := ts }) ∧
      v = fl64 (fl64 (fl64 ((ts.seconds - g.previous_eh_timestamp.seconds : Int) : ℚ)
            + fl64 (literal_1E_12
                * fl64 ((ts.picoseconds - g.previous_eh_timestamp.picoseconds : Int) : ℚ)))
          * sample_env.second) := by
  obtain ⟨hD, hb⟩ := deltat_previous_event_binary64_of _ _ hprev hs hp
  refine ⟨_, conversion_binary64_true_of hR hts hle hD (binary64_of_abs_le _ ?_) hk, rfl⟩
  rw [abs_mul]
  have h2 : |sample_env.second| = 1000000000 := by
    rw [abs_of_pos (by norm_num [sample_env])]
    rfl
  rw [h2]
  have : (2 : ℚ) ^ 64 * 1000000000 ≤ 2 ^ 1023 := by norm_num
  nlinarith [abs_nonneg (fl64 (fl64 ((ts.seconds - g.previous_eh_timestamp.seconds : Int) : ℚ)
            + fl64 (literal_1E_12
                * fl64 ((ts.picoseconds - g.previous_eh_timestamp.picoseconds : Int) : ℚ))))]

/-! ### The claims on the timing arithmetic -/

/-- C12, as amended: timestamp split round trip in double precision. For every
sync epoch, tick count and clock id, the header of the record a call leaves
carries the floor split of the event time `T` that the program holds as a
`double` (sync epoch plus reference time, every operation rounded to binary64):
`seconds = floor(T)`, and `seconds + picoseconds * 1e-12` reconstructs `T` with
`-(2^-54 + 2^-14 * 1e-12) ≤ T - (seconds + picoseconds * 1e-12)
  < 1e-12 + 2^-54 + 2^-14 * 1e-12`
(the `2^-54` terms drop out for `T ≥ 0`). `T` itself differs from the exact
`absolute_time = sync_epoch + ticks * clock_period` by at most
`2^-53 |sync_epoch| + 2^-50 |ticks * clock_period| + 2^-1073 (1 + 1/second)`.
In particular sync epoch 1000 s with reference time 2.5 s gives seconds 1002
and picoseconds 500000000000. -/
theorem C12_timestamp_split_binary64 (env : Env) (g g1 : globals)
    (red_ : snfee.raw_event_data) (er ev : things) (b : Bool)
    (h : do_red_to_udd_conversion_binary64 env g red_ er = .ok (b, ev, g1)) :
    ∃ R T eh, reference_time_binary64 env red_ = some R ∧
      event_time_binary64 g.run_sync_time R = some T ∧
      ev.EH = some eh ∧
      eh.timestamp.seconds = ⌊T⌋ ∧
      -(1 / 2 ^ 54 + 1 / (2 ^ 14 * 10 ^ 12)) ≤ T - eh.timestamp.value ∧
      T - eh.timestamp.value < 1 / 10 ^ 12 + 1 / 2 ^ 54 + 1 / (2 ^ 14 * 10 ^ 12) ∧
      (0 ≤ T → -(1 / (2 ^ 14 * 10 ^ 12)) ≤ T - eh.timestamp.value ∧
        T - eh.timestamp.value < 1 / 10 ^ 12 + 1 / (2 ^ 14 * 10 ^ 12)) ∧
      |T - event_time env g red_|
        ≤ |g.run_sync_time| / 2 ^ 53 + |reference_time env red_| / 2 ^ 50
          + (1 + 1 / |env.second|) / 2 ^ 1073 ∧
      (g.run_sync_time = 1000 → R = 5 / 2 →
        eh.timestamp = { seconds := 1002, picoseconds := 500000000000 }) := by
  obtain ⟨R, ts, eh, hR, hts, hE, het⟩ := conversion_binary64_ok_inv h
  obtain ⟨T, hT, hs, b1, b2, b3, b4⟩ := timestamp_binary64_value_bounds hR hts
  rw [← het] at hs b1 b2 b3
  refine ⟨R, T, eh, hR, hT, hE, hs, b1, b2, b3, b4, fun h1 h2 => ?_⟩
  rw [h1, h2, worked_timestamp_binary64] at hts
  rw [het]
  exact (Option.some.inj hts).symm

/-- Witness of the amended C12: the sample event (reference time 2.5 s) at
sync epoch 1000 s. -/
theorem C12_timestamp_split_binary64_witness :
    ∃ R T eh, reference_time_binary64 sample_env sample_red = some R ∧
      event_time_binary64 sample_globals.run_sync_time R = some T ∧
      (converted_record_binary64 sample_env sample_globals sample_red
        { seconds := 1002, picoseconds := 500000000000 } 0).EH = some eh ∧
      eh.timestamp.seconds = ⌊T⌋ ∧
      -(1 / 2 ^ 54 + 1 / (2 ^ 14 * 10 ^ 12)) ≤ T - eh.timestamp.value ∧
      T - eh.timestamp.value < 1 / 10 ^ 12 + 1 / 2 ^ 54 + 1 / (2 ^ 14 * 10 ^ 12) ∧
      (0 ≤ T → -(1 / (2 ^ 14 * 10 ^ 12)) ≤ T - eh.timestamp.value ∧
        T - eh.timestamp.value < 1 / 10 ^ 12 + 1 / (2 ^ 14 * 10 ^ 12)) ∧
      |T - event_time sample_env sample_globals sample_red|
        ≤ |sample_globals.run_sync_time| / 2 ^ 53 + |reference_time sample_env sample_red| / 2 ^ 50
          + (1 + 1 / |sample_env.second|) / 2 ^ 1073 ∧
      (sample_globals.run_sync_time = 1000 → R = 5 / 2 →
        eh.timestamp = { seconds := 1002, picoseconds := 500000000000 }) :=
  C12_timestamp_split_binary64 sample_env sample_globals _ sample_red things.empty _ true
    (sample_first_conversion_binary64 sample_globals sample_red (5 / 2)
      { seconds := 1002, picoseconds := 500000000000 } sample_reference_time_binary64
      worked_timestamp_binary64 (by norm_num [sample_globals]) (by decide) (by decide))

theorem sample_event_time_ticks (g : globals) (ticks : Int) :
    event_time sample_env g (sample_red_ticks ticks)
      = g.run_sync_time + (ticks : ℚ) / 160000000 := by
  simp only [event_time, reference_time, sample_env, sample_red_ticks, sample_red]
  ring

/-- C12 fails as stated: at the sync epoch 1.7e9 s the sample event at 100 ticks
of 6.25 ns (exact absolute time 1700000000.000000625 s) converts, and the
header carries seconds 1700000000 and picoseconds 715255: the header time lies
90.255 ns above the exact absolute time, not within 1 ps below it. -/
theorem C12_split_misses_exact_time :
    do_red_to_udd_conversion_binary64 sample_env sample_globals_epoch (sample_red_ticks 100)
        things.empty
      = .ok (true,
          converted_record_binary64 sample_env sample_globals_epoch (sample_red_ticks 100)
            { seconds := 1700000000, picoseconds := 715255 } 0,
          { sample_globals_epoch with
            previous_eh_timestamp := { seconds := 1700000000, picoseconds := 715255 } }) ∧
    event_time sample_env sample_globals_epoch (sample_red_ticks 100)
      = 1700000000 + 625 / 1000000000 ∧
    event_time sample_env sample_globals_epoch (sample_red_ticks 100)
        - ({ seconds := 1700000000, picoseconds := 715255 } : snemo.timestamp).value
      = -(90255 / 1000000000000) ∧
    ¬ (0 ≤ event_time sample_env sample_globals_epoch (sample_red_ticks 100)
            - ({ seconds := 1700000000, picoseconds := 715255 } : snemo.timestamp).value) := by
  have ht : event_time sample_env sample_globals_epoch (sample_red_ticks 100)
      = 1700000000 + 625 / 1000000000 := by
    rw [sample_event_time_ticks]
    norm_num [sample_globals_epoch, sample_globals]
  refine ⟨?_, ht, ?_, ?_⟩
  · exact sample_first_conversion_binary64 sample_globals_epoch (sample_red_ticks 100) _ _
      sample_reference_time_binary64_100
      (sample_epoch_timestamp _ (by norm_num) (by norm_num))
      (by norm_num [sample_globals_epoch, sample_globals]) (by decide) (by decide)
  · rw [ht]
    norm_num [snemo.timestamp.value]
  · rw [ht]
    norm_num [snemo.timestamp.value]

/-- C20, as amended: for every event time `T` as the program holds it (the
`double` sum of sync epoch and reference time; negative and non-integer values
included), the whole seconds of the header are the greatest integer not
exceeding `T`, and the picoseconds computed by the floor split lie in
`0 ≤ picoseconds ≤ 10^12`, with `picoseconds < 10^12` whenever `T ≥ 0`. -/
theorem C20_floor_split_binary64 (env : Env) (g g1 : globals) (red_ : snfee.raw_event_data)
    (er ev : things) (b : Bool)
    (h : do_red_to_udd_conversion_binary64 env g red_ er = .ok (b, ev, g1)) :
    ∃ R T eh, reference_time_binary64 env red_ = some R ∧
      event_time_binary64 g.run_sync_time R = some T ∧
      ev.EH = some eh ∧
      ((eh.timestamp.seconds : Int) : ℚ) ≤ T ∧
      (∀ z : Int, (z : ℚ) ≤ T → z ≤ eh.timestamp.seconds) ∧
      0 ≤ eh.timestamp.picoseconds ∧
      eh.timestamp.picoseconds ≤ 10 ^ 12 ∧
      (0 ≤ T → eh.timestamp.picoseconds < 10 ^ 12) := by
  obtain ⟨R, ts, eh, hR, hts, hE, het⟩ := conversion_binary64_ok_inv h
  obtain ⟨T, hT, eT, hs, -, -, hp⟩ := event_timestamp_binary64_eq_some hts
  obtain ⟨p0, p1⟩ := picoseconds_binary64_range T
  rw [← het] at hs hp
  refine ⟨R, T, eh, hR, hT, hE, ?_, ?_, ?_, ?_, ?_⟩
  · rw [hs]
    exact Int.floor_le T
  · intro z hz
    rw [hs]
    exact Int.le_floor.mpr hz
  · rw [hp]
    exact p0
  · rw [hp]
    norm_num
    exact p1
  · intro h0
    rw [hp, eT]
    rw [eT] at h0
    have := picoseconds_binary64_lt _ h0
    norm_num
    exact this

/-- Witness of the amended C20 at the negative, non-integer event time -1.5 s
(sync epoch -4 s, reference time 2.5 s): the header carries seconds -2 and
picoseconds 500000000000. -/
theorem C20_floor_split_binary64_witness :
    ∃ R T eh, reference_time_binary64 sample_env sample_red = some R ∧
      event_time_binary64 (-4) R = some T ∧
      (converted_record_binary64 sample_env { sample_globals with run_sync_time := -4 }
        sample_red { seconds := -2, picoseconds := 500000000000 } 0).EH = some eh ∧
      ((eh.timestamp.seconds : Int) : ℚ) ≤ T ∧
      (∀ z : Int, (z : ℚ) ≤ T → z ≤ eh.timestamp.seconds) ∧
      0 ≤ eh.timestamp.picoseconds ∧
      eh.timestamp.picoseconds ≤ 10 ^ 12 ∧
      (0 ≤ T → eh.timestamp.picoseconds < 10 ^ 12) :=
  C20_floor_split_binary64 sample_env { sample_globals with run_sync_time := -4 } _ sample_red
    things.empty _ true
    (sample_first_conversion_binary64 { sample_globals with run_sync_time := -4 } sample_red
      (5 / 2) { seconds := -2, picoseconds := 500000000000 } sample_reference_time_binary64
      negative_timestamp_binary64 (by norm_num [sample_globals]) (by decide) (by decide))

/-- C20 fails as stated. At the event time `-2^-70` s (sync epoch `-2^-70` s,
tick count 0) the conversion returns with seconds -1 and picoseconds `10^12`,
outside `0 ≤ picoseconds < 10^12`. At the sync epoch 1.7e9 s the event at
159999999 ticks of 6.25 ns (exact event time 1700000000.99999999375 s) gets
seconds 1700000001, which exceeds the exact event time. -/
theorem C20_picoseconds_reach_full_second :
    do_red_to_udd_conversion_binary64 sample_env sample_globals_negative (sample_red_ticks 0)
        things.empty
      = .ok (true,
          converted_record_binary64 sample_env sample_globals_negative (sample_red_ticks 0)
            { seconds := -1, picoseconds := 1000000000000 } 0,
          { sample_globals_negative with
            previous_eh_timestamp := { seconds := -1, picoseconds := 1000000000000 } }) ∧
    event_time sample_env sample_globals_negative (sample_red_ticks 0) = -(1 / 2 ^ 70) ∧
    ¬ (({ seconds := -1, picoseconds := 1000000000000 } : snemo.timestamp).picoseconds
        < 10 ^ 12) ∧
    do_red_to_udd_conversion_binary64 sample_env sample_globals_epoch
        (sample_red_ticks 159999999) things.empty
      = .ok (true,
          converted_record_binary64 sample_env sample_globals_epoch
            (sample_red_ticks 159999999) { seconds := 1700000001, picoseconds := 0 } 0,
          { sample_globals_epoch with
            previous_eh_timestamp := { seconds := 1700000001, picoseconds := 0 } }) ∧
    event_time sample_env sample_globals_epoch (sample_red_ticks 159999999)
      = 1700000000 + 159999999 / 160000000 ∧
    ¬ (((({ seconds := 1700000001, picoseconds := 0 } : snemo.timestamp).seconds : Int) : ℚ)
        ≤ event_time sample_env sample_globals_epoch (sample_red_ticks 159999999)) := by
  have ht : event_time sample_env sample_globals_epoch (sample_red_ticks 159999999)
      = 1700000000 + 159999999 / 160000000 := by
    rw [sample_event_time_ticks]
    norm_num [sample_globals_epoch, sample_globals]
  refine ⟨?_, ?_, by decide, ?_, ht, ?_⟩
  · exact sample_first_conversion_binary64 sample_globals_negative (sample_red_ticks 0) _ _
      sample_reference_time_binary64_zero sample_negative_timestamp
      (by norm_num [sample_globals_negative, sample_globals]) (by decide) (by decide)
  · rw [sample_event_time_ticks]
    norm_num [sample_globals_negative, sample_globals]
  · exact sample_first_conversion_binary64 sample_globals_epoch (sample_red_ticks 159999999)
      _ _ sample_reference_time_binary64_late sample_epoch_timestamp_late
      (by norm_num [sample_globals_epoch, sample_globals]) (by decide) (by decide)
  · rw [ht]
    norm_num

theorem value_sub_value (t u : snemo.timestamp) :
    t.value - u.value
      = ((t.seconds - u.seconds : Int) : ℚ)
        + (1 / 1000000000000) * ((t.picoseconds - u.picoseconds : Int) : ℚ) := by
  unfold snemo.timestamp.value
  push_cast
  ring

theorem delta_bound_arith (D v1 v2 T1 T2 t1 t2 a s r1 r2 w : ℚ)
    (hD : |D - (v2 - v1)| ≤ a / 2 ^ 51 + 1 / 2 ^ 50)
    (l1 : -(1 / 2 ^ 54 + 1 / (2 ^ 14 * 10 ^ 12)) ≤ T1 - v1)
    (u1 : T1 - v1 < 1 / 10 ^ 12 + 1 / 2 ^ 54 + 1 / (2 ^ 14 * 10 ^ 12))
    (l2 : -(1 / 2 ^ 54 + 1 / (2 ^ 14 * 10 ^ 12)) ≤ T2 - v2)
    (u2 : T2 - v2 < 1 / 10 ^ 12 + 1 / 2 ^ 54 + 1 / (2 ^ 14 * 10 ^ 12))
    (e1 : |T1 - t1| ≤ s / 2 ^ 53 + r1 / 2 ^ 50 + (1 + w) / 2 ^ 1073)
    (e2 : |T2 - t2| ≤ s / 2 ^ 53 + r2 / 2 ^ 50 + (1 + w) / 2 ^ 1073) :
    |D - (t2 - t1)|
      ≤ 1 / 10 ^ 12 + a / 2 ^ 51 + s / 2 ^ 52 + (r1 + r2) / 2 ^ 50 + 1 / 2 ^ 49
        + (1 + w) / 2 ^ 1072 := by
  rw [abs_le] at hD e1 e2 ⊢
  obtain ⟨hD1, hD2⟩ := hD
  obtain ⟨e11, e12⟩ := e1
  obtain ⟨e21, e22⟩ := e2
  norm_num at hD1 hD2 l1 u1 l2 u2 e11 e12 e21 e22 ⊢
  constructor <;> linarith

/-- C14, as amended: delta-time sequencing in double precision. For any three
events converted one after another, the delta stored for the third event is
`fl(D * CLHEP::second)` where `D` is the `double` evaluation of
`(s2 - s1) + 1E-12 * (p2 - p1)` on the header timestamps `(s1, p1)` of the
second and `(s2, p2)` of the third event (not of the first), provided the whole
seconds of the second event's timestamp are not the invalid marker. `D` is
within `2^-51 |s2 - s1| + 2^-50` s of the difference of the times the two
header timestamps stand for, and within the bound `B` (1 ps plus the rounding
of the double arithmetic) of `t2 - t1` for the exact absolute times; it differs
from `t2 - t0` whenever `t1 - t0` exceeds `B`. -/
theorem C14_delta_from_previous_header (env : Env) (g g1 g2 g3 : globals)
    (r0 r1 r2 : snfee.raw_event_data) (er0 er1 er2 ev0 ev1 ev2 : things)
    (h0 : do_red_to_udd_conversion_binary64 env g r0 er0 = .ok (true, ev0, g1))
    (h1 : do_red_to_udd_conversion_binary64 env g1 r1 er1 = .ok (true, ev1, g2))
    (h2 : do_red_to_udd_conversion_binary64 env g2 r2 er2 = .ok (true, ev2, g3))
    (hvalid : ∀ eh, ev1.EH = some eh → eh.timestamp.seconds ≠ snemo.INVALID_TIME) :
    ∃ eh1 eh2 D v B, ev1.EH = some eh1 ∧ ev2.EH = some eh2 ∧
      eh2.properties.fetch "deltat_previous_event" = some (.real v) ∧
      v = fl64 (D * env.second) ∧
      |v - D * env.second| ≤ |D * env.second| / 2 ^ 53 + 1 / 2 ^ 1075 ∧
      D = fl64 (fl64 ((eh2.timestamp.seconds - eh1.timestamp.seconds : Int) : ℚ)
            + fl64 (literal_1E_12
                * fl64 ((eh2.timestamp.picoseconds - eh1.timestamp.picoseconds : Int) : ℚ))) ∧
      |D - (eh2.timestamp.value - eh1.timestamp.value)|
        ≤ |((eh2.timestamp.seconds - eh1.timestamp.seconds : Int) : ℚ)| / 2 ^ 51
          + 1 / 2 ^ 50 ∧
      B = 1 / 10 ^ 12
          + |((eh2.timestamp.seconds - eh1.timestamp.seconds : Int) : ℚ)| / 2 ^ 51
          + |g.run_sync_time| / 2 ^ 52
          + (|reference_time env r1| + |reference_time env r2|) / 2 ^ 50
          + 1 / 2 ^ 49 + (1 + 1 / |env.second|) / 2 ^ 1072 ∧
      |D - (event_time env g r2 - event_time env g r1)| ≤ B ∧
      (B < event_time env g r1 - event_time env g r0 →
        D ≠ event_time env g r2 - event_time env g r0) := by
  obtain ⟨R0, ts0, D0, v0, -, -, -, -, -, -, -, hg1, -⟩ := conversion_binary64_true_inv h0
  obtain ⟨R1, ts1, D1, v1, hR1, hts1, -, -, -, hE1, -, hg2, -⟩ :=
    conversion_binary64_true_inv h1
  obtain ⟨R2, ts2, D, v, hR2, hts2, -, hD, hv, hE2, -, -, hk2⟩ :=
    conversion_binary64_true_inv h2
  have s1 : g1.run_sync_time = g.run_sync_time := by rw [hg1]
  have s2 : g2.run_sync_time = g.run_sync_time := by rw [hg2, s1]
  have p2 : g2.previous_eh_timestamp = ts1 := by rw [hg2]
  have hs1 : ts1.seconds ≠ snemo.INVALID_TIME := hvalid _ hE1
  have hv1 := is_valid_of_event_timestamp_binary64 hts1 hs1
  rw [p2] at hD
  have eD := deltat_previous_event_binary64_eq_some hv1 hD
  obtain ⟨a0, a1⟩ := timestamp_binary64_picoseconds_range hts1
  obtain ⟨c0, c1⟩ := timestamp_binary64_picoseconds_range hts2
  have hp : |ts2.picoseconds - ts1.picoseconds| ≤ 10 ^ 12 := by
    rw [abs_le]
    constructor <;> omega
  have herr := deltat_binary64_error (ts2.seconds - ts1.seconds)
    (ts2.picoseconds - ts1.picoseconds) hp
  rw [← fl64_psec_diff _ hp] at herr
  rw [fl64_psec_diff _ hp] at herr
  have eD2 : D = fl64 (fl64 ((ts2.seconds - ts1.seconds : Int) : ℚ)
      + fl64 (literal_1E_12 * ((ts2.picoseconds - ts1.picoseconds : Int) : ℚ))) := by
    rw [eD, fl64_psec_diff _ hp]
  rw [← eD2, ← value_sub_value] at herr
  obtain ⟨T1, -, -, l1, u1, -, e1⟩ := timestamp_binary64_value_bounds hR1 hts1
  obtain ⟨T2, -, -, l2, u2, -, e2⟩ := timestamp_binary64_value_bounds hR2 hts2
  rw [event_time_congr env g g1 r1 s1, s1] at e1
  rw [event_time_congr env g g2 r2 s2, s2] at e2
  have hB := delta_bound_arith D ts1.value ts2.value T1 T2 (event_time env g r1)
    (event_time env g r2) _ _ _ _ _ herr l1 u1 l2 u2 e1 e2
  refine ⟨_, _, D, v, _, hE1, hE2, fetch_deltat_converted_EH_binary64 r2 ts2 v hk2,
    binary64_eq_some hv, ?_, eD, herr, rfl, hB, ?_⟩
  · rw [binary64_eq_some hv]
    exact fl64_rel_error _
  · intro hlt hc
    rw [hc, abs_le] at hB
    have := hB.2
    dsimp only [converted_EH_binary64] at hlt
    linarith

/-- Witness of the amended C14: the sample events at 3 s, 7 s and 9 s converted
one after another from the initial globals. -/
theorem C14_delta_from_previous_header_witness :
    ∃ ev0 ev1 ev2 g1 g2 g3,
      do_red_to_udd_conversion_binary64 sample_env sample_globals (sample_red_at 3)
        things.empty = .ok (true, ev0, g1) ∧
      do_red_to_udd_conversion_binary64 sample_env g1 (sample_red_at 7)
        things.empty = .ok (true, ev1, g2) ∧
      do_red_to_udd_conversion_binary64 sample_env g2 (sample_red_at 9)
        things.empty = .ok (true, ev2, g3) ∧
      ∃ eh1 eh2 D v B, ev1.EH = some eh1 ∧ ev2.EH = some eh2 ∧
        eh2.properties.fetch "deltat_previous_event" = some (.real v) ∧
        v = fl64 (D * sample_env.second) ∧
        |v - D * sample_env.second| ≤ |D * sample_env.second| / 2 ^ 53 + 1 / 2 ^ 1075 ∧
        D = fl64 (fl64 ((eh2.timestamp.seconds - eh1.timestamp.seconds : Int) : ℚ)
              + fl64 (literal_1E_12
                  * fl64 ((eh2.timestamp.picoseconds - eh1.timestamp.picoseconds : Int) : ℚ))) ∧
        |D - (eh2.timestamp.value - eh1.timestamp.value)|
          ≤ |((eh2.timestamp.seconds - eh1.timestamp.seconds : Int) : ℚ)| / 2 ^ 51
            + 1 / 2 ^ 50 ∧
        B = 1 / 10 ^ 12
            + |((eh2.timestamp.seconds - eh1.timestamp.seconds : Int) : ℚ)| / 2 ^ 51
            + |sample_globals.run_sync_time| / 2 ^ 52
            + (|reference_time sample_env (sample_red_at 7)|
                + |reference_time sample_env (sample_red_at 9)|) / 2 ^ 50
            + 1 / 2 ^ 49 + (1 + 1 / |sample_env.second|) / 2 ^ 1072 ∧
        |D - (event_time sample_env sample_globals (sample_red_at 9)
              - event_time sample_env sample_globals (sample_red_at 7))| ≤ B ∧
        (B < event_time sample_env sample_globals (sample_red_at 7)
              - event_time sample_env sample_globals (sample_red_at 3) →
          D ≠ event_time sample_env sample_globals (sample_red_at 9)
                - event_time sample_env sample_globals (sample_red_at 3)) := by
  have c0 := sample_first_conversion_binary64 sample_globals (sample_red_at 3) 3
    { seconds := 1000 + 3, picoseconds := 0 }
    (sample_reference_time_binary64_at 3 (by decide))
    (whole_second_timestamp_binary64 3 (by decide))
    (by norm_num [sample_globals]) (by decide) (by decide)
  obtain ⟨v1, c1, -⟩ := sample_next_conversion_binary64
    { sample_globals with previous_eh_timestamp := { seconds := 1000 + 3, picoseconds := 0 } }
    (sample_red_at 7) 7 { seconds := 1000 + 7, picoseconds := 0 }
    (sample_reference_time_binary64_at 7 (by decide))
    (whole_second_timestamp_binary64 7 (by decide))
    (by norm_num [sample_globals]) (by decide) (by decide) (by decide) (by decide)
  obtain ⟨v2, c2, -⟩ := sample_next_conversion_binary64
    { sample_globals with previous_eh_timestamp := { seconds := 1000 + 7, picoseconds := 0 } }
    (sample_red_at 9) 9 { seconds := 1000 + 9, picoseconds := 0 }
    (sample_reference_time_binary64_at 9 (by decide))
    (whole_second_timestamp_binary64 9 (by decide))
    (by norm_num [sample_globals]) (by decide) (by decide) (by decide) (by decide)
  exact ⟨_, _, _, _, _, _, c0, c1, c2,
    C14_delta_from_previous_header sample_env sample_globals _ _ _ (sample_red_at 3)
      (sample_red_at 7) (sample_red_at 9) things.empty things.empty things.empty _ _ _
      c0 c1 c2 (by
        intro eh he
        cases he
        show (1000 + 7 : Int) ≠ snemo.INVALID_TIME
        decide)⟩

/-- C14 fails as stated: at the sync epoch 1.7e9 s three events at 0, 100 and
101 ticks of 6.25 ns are converted one after another; their absolute times
increase, `t2 - t1` is 6.25 ns, the second and the third event get the same
header timestamp (1700000000 s, 715255 ps), and the delta stored for the third
event is 0. -/
theorem C14_delta_zero_for_distinct_times :
    ∃ ev0 ev1 ev2 g1 g2 g3 eh1 eh2,
      do_red_to_udd_conversion_binary64 sample_env sample_globals_epoch (sample_red_ticks 0)
        things.empty = .ok (true, ev0, g1) ∧
      do_red_to_udd_conversion_binary64 sample_env g1 (sample_red_ticks 100)
        things.empty = .ok (true, ev1, g2) ∧
      do_red_to_udd_conversion_binary64 sample_env g2 (sample_red_ticks 101)
        things.empty = .ok (true, ev2, g3) ∧
      event_time sample_env sample_globals_epoch (sample_red_ticks 0)
        < event_time sample_env sample_globals_epoch (sample_red_ticks 100) ∧
      event_time sample_env sample_globals_epoch (sample_red_ticks 100)
        < event_time sample_env sample_globals_epoch (sample_red_ticks 101) ∧
      event_time sample_env sample_globals_epoch (sample_red_ticks 101)
        - event_time sample_env sample_globals_epoch (sample_red_ticks 100)
        = 625 / 100000000000 ∧
      ev1.EH = some eh1 ∧ ev2.EH = some eh2 ∧
      eh1.timestamp = { seconds := 1700000000, picoseconds := 715255 } ∧
      eh2.timestamp = { seconds := 1700000000, picoseconds := 715255 } ∧
      eh2.properties.fetch "deltat_previous_event" = some (.real 0) ∧
      (0 : ℚ) / sample_env.second
        ≠ event_time sample_env sample_globals_epoch (sample_red_ticks 101)
          - event_time sample_env sample_globals_epoch (sample_red_ticks 100) := by
  have c0 := sample_first_conversion_binary64 sample_globals_epoch (sample_red_ticks 0) 0
    { seconds := 1700000000, picoseconds := 0 }
    sample_reference_time_binary64_zero sample_epoch_timestamp_zero
    (by norm_num [sample_globals_epoch, sample_globals]) (by decide) (by decide)
  obtain ⟨v1, c1, -⟩ := sample_next_conversion_binary64
    { sample_globals_epoch with
      previous_eh_timestamp := { seconds := 1700000000, picoseconds := 0 } }
    (sample_red_ticks 100) _ { seconds := 1700000000, picoseconds := 715255 }
    sample_reference_time_binary64_100
    (sample_epoch_timestamp _ (by norm_num) (by norm_num))
    (by norm_num [sample_globals_epoch, sample_globals]) (by decide) (by decide) (by decide)
    (by decide)
  obtain ⟨v2, c2, e2⟩ := sample_next_conversion_binary64
    { sample_globals_epoch with
      previous_eh_timestamp := { seconds := 1700000000, picoseconds := 715255 } }
    (sample_red_ticks 101) _ { seconds := 1700000000, picoseconds := 715255 }
    sample_reference_time_binary64_101
    (sample_epoch_timestamp _ (by norm_num) (by norm_num))
    (by norm_num [sample_globals_epoch, sample_globals]) (by decide) (by decide) (by decide)
    (by decide)
  have hv2 : v2 = 0 := by
    rw [e2]
    simp [fl64_zero]
  rw [hv2] at c2
  refine ⟨_, _, _, _, _, _, _, _, c0, c1, c2, ?_, ?_, ?_, rfl, rfl, rfl, rfl, ?_, ?_⟩
  · rw [sample_event_time_ticks, sample_event_time_ticks]
    norm_num
  · rw [sample_event_time_ticks, sample_event_time_ticks]
    norm_num
  · rw [sample_event_time_ticks, sample_event_time_ticks]
    norm_num
  · exact fetch_deltat_converted_EH_binary64 _ _ _ (by decide)
  · rw [sample_event_time_ticks, sample_event_time_ticks]
    norm_num

end SNREDBridge
